import Mathlib

/-!
# Carbon calculator: emissions and carbon-credit engine

A shallow embedding of `src/js/config.js` (the static `CONFIG` tables),
`src/js/calculator.js` (the `Calculator` object) and `src/js/routes-data.js` (the `RoutesDB`
object), followed by theorems about them.

## Number model

JavaScript numbers are IEEE 754 binary64 values.  They are modelled by `JSNum`: a finite
value is held as the rational it denotes, and `Infinity`, `-Infinity` and `NaN` are separate
constructors.  Every arithmetic operation computes the exact rational result and rounds it
to the nearest binary64 value, ties to even, overflowing to an infinity
(`JSNum.roundDouble`); a decimal literal of the source and the string produced by `toFixed`
are read the same way.  The two signed zeros are identified: the code never divides by a
zero and its tests `!== 0` and `> 0` do not tell them apart.

A decimal such as 38.27 in a statement is written `JSNum.roundDouble (3827 / 100)`, the
binary64 value nearest to it.  Theorems that hold for every number are stated for every
rational argument `JSNum.fin d`, which covers every finite binary64 value; the concrete
arguments of examples and counterexamples are binary64 values.
-/

namespace CarbonCalculator

/-! ## JavaScript numbers and values -/

/-- JavaScript number: a finite value (an exact rational), `Infinity`, `-Infinity` or `NaN`. -/
inductive JSNum where
  | fin (q : ℚ)
  | pinf
  | ninf
  | nan
  deriving DecidableEq

namespace JSNum

/-- The integer nearest to `t`, the even one of the two when `t` lies half-way. -/
def roundHalfEven (t : ℚ) : ℤ :=
  let n := ⌊t⌋
  if t - n < 1 / 2 then n
  else if 1 / 2 < t - n then n + 1
  else if n % 2 = 0 then n else n + 1

/-- The binary exponent that fixes the spacing of binary64 values around `x`: the `e` with
`2^e ≤ |x| < 2^(e+1)`, and `-1022` throughout the subnormal range. -/
def binade (x : ℚ) : ℤ :=
  max (Int.log 2 |x|) (-1022)

/-- The binary64 value of the real number `x`: round to nearest, ties to even, with 53
significant bits (fewer in the subnormal range), and an infinity when the rounded value
reaches `2^1024`.  This is the result of an arithmetic operation whose exact result is `x`,
and the value of a decimal literal or numeric string that denotes `x`. -/
def roundDouble (x : ℚ) : JSNum :=
  let q : ℚ := 2 ^ (binade x - 52)
  let y : ℚ := (roundHalfEven (x / q) : ℚ) * q
  if 2 ^ 1024 ≤ y then pinf
  else if y ≤ -2 ^ 1024 then ninf
  else fin y

/-- The `*` operator on numbers. -/
def mul : JSNum → JSNum → JSNum
  | fin a, fin b => roundDouble (a * b)
  | fin a, pinf => if a = 0 then nan else if 0 < a then pinf else ninf
  | fin a, ninf => if a = 0 then nan else if 0 < a then ninf else pinf
  | pinf, fin b => if b = 0 then nan else if 0 < b then pinf else ninf
  | ninf, fin b => if b = 0 then nan else if 0 < b then ninf else pinf
  | pinf, pinf => pinf
  | pinf, ninf => ninf
  | ninf, pinf => ninf
  | ninf, ninf => pinf
  | nan, _ => nan
  | _, nan => nan

/-- The binary `+` operator on numbers. -/
def add : JSNum → JSNum → JSNum
  | fin a, fin b => roundDouble (a + b)
  | fin _, pinf => pinf
  | fin _, ninf => ninf
  | pinf, fin _ => pinf
  | ninf, fin _ => ninf
  | pinf, pinf => pinf
  | ninf, ninf => ninf
  | pinf, ninf => nan
  | ninf, pinf => nan
  | nan, _ => nan
  | _, nan => nan

/-- The binary `-` operator on numbers. -/
def sub : JSNum → JSNum → JSNum
  | fin a, fin b => roundDouble (a - b)
  | fin _, pinf => ninf
  | fin _, ninf => pinf
  | pinf, fin _ => pinf
  | ninf, fin _ => ninf
  | pinf, ninf => pinf
  | ninf, pinf => ninf
  | pinf, pinf => nan
  | ninf, ninf => nan
  | nan, _ => nan
  | _, nan => nan

/-- The `/` operator on numbers.  A zero divisor is taken as `+0`: a non-zero finite number
divided by it is an infinity of the sign of the dividend, and `0 / 0` is `NaN`. -/
def div : JSNum → JSNum → JSNum
  | fin a, fin b =>
    if b = 0 then (if a = 0 then nan else if 0 < a then pinf else ninf)
    else roundDouble (a / b)
  | fin _, pinf => fin 0
  | fin _, ninf => fin 0
  | pinf, fin b => if b < 0 then ninf else pinf
  | ninf, fin b => if b < 0 then pinf else ninf
  | pinf, pinf => nan
  | pinf, ninf => nan
  | ninf, pinf => nan
  | ninf, ninf => nan
  | nan, _ => nan
  | _, nan => nan

/-- The `>` operator on numbers: `gt a b` is `a > b`.  Any comparison with `NaN` is false. -/
def gt : JSNum → JSNum → Bool
  | fin a, fin b => decide (b < a)
  | fin _, ninf => true
  | pinf, fin _ => true
  | pinf, ninf => true
  | _, _ => false

/-- The non-strict order on numbers (`a <= b`).  Any comparison with `NaN` is false. -/
def le : JSNum → JSNum → Bool
  | fin a, fin b => decide (a ≤ b)
  | fin _, pinf => true
  | ninf, fin _ => true
  | ninf, ninf => true
  | ninf, pinf => true
  | pinf, pinf => true
  | _, _ => false

/-- Truthiness of a number (`ToBoolean`): every number except `0` and `NaN` is truthy. -/
def truthy : JSNum → Bool
  | fin a => decide (a ≠ 0)
  | pinf => true
  | ninf => true
  | nan => false

/-- The decimal that `x.toFixed(f)` prints for a finite `x`.  `toFixed` first strips the sign
of a negative `x`, then takes the integer `n` for which `n / 10^f - x` is as close to zero as
possible, the larger `n` when there are two; that is `n = ⌊x * 10^f + 1/2⌋`, computed on the
exact value of `x`.  (For `|x| ≥ 10^21` `toFixed` prints `x` in full instead; a binary64
value of that size is an integer, so the decimal is `x` either way.) -/
def toFixedQ (f : Nat) (x : ℚ) : ℚ :=
  if x < 0 then -(((⌊(-x) * 10 ^ f + 1 / 2⌋ : ℤ) : ℚ) / 10 ^ f)
  else ((⌊x * 10 ^ f + 1 / 2⌋ : ℤ) : ℚ) / 10 ^ f

/-- The value of `Number(x.toFixed(f))`: the decimal that `toFixed` prints, read back as the
nearest binary64 value; `NaN`, `Infinity` and `-Infinity` are printed by name and read back
unchanged. -/
def toFixed (f : Nat) : JSNum → JSNum
  | fin x => roundDouble (toFixedQ f x)
  | pinf => pinf
  | ninf => ninf
  | nan => nan

/-- The number is a value that binary64 arithmetic can return: an infinity, or a multiple of
the least subnormal `2^-1074`. -/
def OnGrid : JSNum → Prop
  | fin y => ∃ k : ℤ, y = (k : ℚ) / 2 ^ 1074
  | pinf => True
  | ninf => True
  | nan => False

end JSNum

/-- The JavaScript values that occur as property values of the configuration tables:
`undefined`, `null`, a number, or an object.  `object` stands for the members that every
plain object inherits from `Object.prototype` (functions, and the prototype itself). -/
inductive JSVal where
  | undefined
  | null
  | num (x : JSNum)
  | object
  deriving DecidableEq

namespace JSVal

/-- The conversion `Number(v)`: `undefined` gives `NaN`, `null` gives `0`, and the inherited
members of `Object.prototype` (plain functions, the prototype object) give `NaN`. -/
def toNumber : JSVal → JSNum
  | undefined => JSNum.nan
  | null => JSNum.fin 0
  | num x => x
  | object => JSNum.nan

/-- Truthiness of a value (`ToBoolean`). -/
def truthy : JSVal → Bool
  | undefined => false
  | null => false
  | num x => x.truthy
  | object => true

end JSVal

/-- The property names that a plain object literal inherits from `Object.prototype`. -/
def objectPrototypeKeys : List String :=
  ["constructor", "__defineGetter__", "__defineSetter__", "hasOwnProperty",
   "__lookupGetter__", "__lookupSetter__", "isPrototypeOf", "propertyIsEnumerable",
   "toString", "valueOf", "__proto__", "toLocaleString"]

/-- A plain object literal: its own properties, in the order `Object.keys` lists them. -/
abbrev JSObject := List (String × JSVal)

/-- Property read `o[k]` on a plain object literal: the own property when there is one,
otherwise the member inherited from `Object.prototype`, otherwise `undefined`. -/
def getProp (o : JSObject) (k : String) : JSVal :=
  match o.lookup k with
  | some v => v
  | none => if k ∈ objectPrototypeKeys then JSVal.object else JSVal.undefined

/-- The own keys `Object.keys(o)`. -/
def objectKeys (o : JSObject) : List String :=
  o.map Prod.fst

/-! ## `config.js` -/

/-- The `CARBON_CREDIT` record; a missing field reads as `undefined`. -/
structure CarbonCredit where
  KG_PER_CREDIT : JSVal
  PRICE_MIN_BRL : JSVal
  PRICE_MAX_BRL : JSVal

/-- The global `CONFIG` object, as far as the calculator reads it.  `none` stands for a
field that is missing (or falsy). -/
structure Config where
  EMISSION_FACTORS : Option JSObject
  CARBON_CREDIT : Option CarbonCredit

/-- The table `EMISSION_FACTORS` of `config.js` (kg CO2 per km); each decimal literal is the
binary64 value nearest to it. -/
def EMISSION_FACTORS : JSObject :=
  [("bicycle", JSVal.num (JSNum.fin 0)),
   ("car", JSVal.num (JSNum.roundDouble (12 / 100))),
   ("bus", JSVal.num (JSNum.roundDouble (89 / 1000))),
   ("truck", JSVal.num (JSNum.roundDouble (96 / 100)))]

/-- The record `CARBON_CREDIT` of `config.js`. -/
def CARBON_CREDIT : CarbonCredit where
  KG_PER_CREDIT := JSVal.num (JSNum.fin 1000)
  PRICE_MIN_BRL := JSVal.num (JSNum.fin 50)
  PRICE_MAX_BRL := JSVal.num (JSNum.fin 150)

/-- The shipped `CONFIG` object. -/
def CONFIG : Config where
  EMISSION_FACTORS := some EMISSION_FACTORS
  CARBON_CREDIT := some CARBON_CREDIT

/-! ## `calculator.js` -/

namespace Calculator

/-- The function `Calculator.calculateEmission(distanceKm, transportMode)`.  The argument
`cfg` is the global `CONFIG`, `none` when `typeof CONFIG` is `'undefined'`. -/
def calculateEmission (cfg : Option Config) (distanceKm : JSNum) (transportMode : String) :
    JSNum :=
  let factor : JSVal :=
    match cfg with
    | some c =>
      match c.EMISSION_FACTORS with
      | some t => getProp t transportMode
      | none => JSVal.undefined
    | none => JSVal.undefined
  if factor = JSVal.undefined ∨ factor = JSVal.null then
    JSNum.fin 0
  else
    let emission := JSNum.mul distanceKm factor.toNumber
    JSNum.toFixed 2 emission

/-- One entry of the list returned by `calculateAllModes`; `none` is `null`. -/
structure ModeResult where
  mode : String
  emission : JSNum
  percentageVsCar : Option JSNum
  deriving DecidableEq

/-- The method `Array.prototype.sort(compareFn)`.  `a` is placed before `b` when
`compareFn(a, b) < 0`, after it when `compareFn(a, b) > 0`, and the two keep their order
otherwise: the sort is stable (ECMAScript 2019).  For a consistent comparator that result is
unique, and an insertion sort computes it. -/
def arraySort {α : Type} (compareFn : α → α → JSNum) (l : List α) : List α :=
  l.insertionSort (fun a b => (compareFn a b).gt (JSNum.fin 0) = false)

/-- The body of the `forEach` callback of `calculateAllModes`: the entry pushed for `mode`,
given the baseline `carEmission` (`none` is `null`). -/
def modeEntry (cfg : Option Config) (distanceKm : JSNum) (carEmission : Option JSNum)
    (mode : String) : ModeResult :=
  let emission := calculateEmission cfg distanceKm mode
  let percentageVsCar : Option JSNum :=
    match carEmission with
    | some ce =>
      if ce ≠ JSNum.fin 0 then
        some (JSNum.toFixed 2 (JSNum.mul (JSNum.div emission ce) (JSNum.fin 100)))
      else none
    | none => none
  { mode := mode, emission := emission, percentageVsCar := percentageVsCar }

/-- The comparator `function(a, b) { return a.emission - b.emission; }`. -/
def byEmission (a b : ModeResult) : JSNum :=
  JSNum.sub a.emission b.emission

/-- The function `Calculator.calculateAllModes(distanceKm)`. -/
def calculateAllModes (cfg : Option Config) (distanceKm : JSNum) : List ModeResult :=
  match cfg with
  | none => []
  | some c =>
    match c.EMISSION_FACTORS with
    | none => []
    | some t =>
      let modes := objectKeys t
      let carEmission : Option JSNum :=
        if "car" ∈ modes then some (calculateEmission cfg distanceKm "car") else none
      let results := modes.map (modeEntry cfg distanceKm carEmission)
      arraySort byEmission results

/-- The record returned by `calculateSavings`; `none` is `null`. -/
structure Savings where
  savedKg : JSNum
  percentage : Option JSNum
  deriving DecidableEq

/-- The function `Calculator.calculateSavings(emission, baselineEmission)`. -/
def calculateSavings (emission baselineEmission : JSNum) : Savings :=
  let saved := JSNum.sub baselineEmission emission
  let percentage : Option JSNum :=
    if JSNum.gt baselineEmission (JSNum.fin 0) then
      some (JSNum.mul (JSNum.div saved baselineEmission) (JSNum.fin 100))
    else none
  { savedKg := JSNum.toFixed 2 saved
    percentage :=
      match percentage with
      | none => none
      | some p => some (JSNum.toFixed 2 p) }

/-- The function `Calculator.calculateCarbonCredits(emissionKg)`. -/
def calculateCarbonCredits (cfg : Option Config) (emissionKg : JSNum) : JSNum :=
  match cfg with
  | none => JSNum.fin 0
  | some c =>
    match c.CARBON_CREDIT with
    | none => JSNum.fin 0
    | some cc =>
      if cc.KG_PER_CREDIT.truthy = false then JSNum.fin 0
      else
        let credits := JSNum.div emissionKg cc.KG_PER_CREDIT.toNumber
        JSNum.toFixed 4 credits

/-- The record returned by `estimateCreditPrice`. -/
structure PriceEstimate where
  min : JSNum
  max : JSNum
  average : JSNum
  deriving DecidableEq

/-- The expression `v || 0`. -/
def orZero (v : JSVal) : JSVal :=
  if v.truthy then v else JSVal.num (JSNum.fin 0)

/-- The function `Calculator.estimateCreditPrice(credits)`. -/
def estimateCreditPrice (cfg : Option Config) (credits : JSNum) : PriceEstimate :=
  match cfg with
  | none => { min := JSNum.fin 0, max := JSNum.fin 0, average := JSNum.fin 0 }
  | some c =>
    match c.CARBON_CREDIT with
    | none => { min := JSNum.fin 0, max := JSNum.fin 0, average := JSNum.fin 0 }
    | some cc =>
      let min := JSNum.mul credits (orZero cc.PRICE_MIN_BRL).toNumber
      let max := JSNum.mul credits (orZero cc.PRICE_MAX_BRL).toNumber
      let average := JSNum.div (JSNum.add min max) (JSNum.fin 2)
      { min := JSNum.toFixed 2 min
        max := JSNum.toFixed 2 max
        average := JSNum.toFixed 2 average }

end Calculator

/-! ## Rounding, as the specification words it -/

/-- The number `r` is `x` rounded to `k` decimal places, half away from zero: `r` is a
multiple of `10^(-k)`, it lies within half a unit of `x`, and when it lies exactly half a
unit away it is the one of the two candidates that is further from zero. -/
def IsRoundHalfAway (k : Nat) (x r : ℚ) : Prop :=
  (∃ n : ℤ, r = (n : ℚ) / 10 ^ k) ∧
  |r - x| ≤ 1 / (2 * 10 ^ k) ∧
  (|r - x| = 1 / (2 * 10 ^ k) → |x| < |r|)

/-! ## JavaScript strings

A string is taken as its sequence of Unicode characters.  `trim` is modelled on the full set
of characters it strips.  `toLowerCase` is modelled character by character on the blocks
Basic Latin and Latin-1 Supplement, together with the four characters of other blocks whose
lower-case form lies in these two blocks; every other character is left unchanged.  The names
of the route table use Basic Latin and Latin-1 letters only, so a string reaches the
lower-case form of a table name in this model exactly when it does in JavaScript. -/

/-- The code points that `String.prototype.trim` strips: the `WhiteSpace` code points (tab,
vertical tab, form feed, the no-break space, the byte-order mark and the space separators)
and the `LineTerminator` code points. -/
def trimCodePoints : List Nat :=
  [0x09, 0x0A, 0x0B, 0x0C, 0x0D, 0x20, 0xA0, 0x1680, 0x2000, 0x2001, 0x2002, 0x2003, 0x2004,
   0x2005, 0x2006, 0x2007, 0x2008, 0x2009, 0x200A, 0x2028, 0x2029, 0x202F, 0x205F, 0x3000,
   0xFEFF]

/-- Whether `trim` strips the character. -/
def isTrimChar (c : Char) : Bool :=
  c.toNat ∈ trimCodePoints

/-- The characters of `s.trim()`. -/
def trimChars (l : List Char) : List Char :=
  ((l.dropWhile isTrimChar).reverse.dropWhile isTrimChar).reverse

/-- The method `String.prototype.trim`. -/
def trim (s : String) : String :=
  String.mk (trimChars s.data)

/-- The upper-case characters with a lower-case form in Basic Latin or Latin-1 Supplement,
each with that form: `A`-`Z`, `U+00C0`-`U+00DE` (without the multiplication sign), and
`U+0178`, `U+1E9E`, `U+212A`, `U+212B`. -/
def lowerTable : List (Char × Char) :=
  [('A', 'a'), ('B', 'b'), ('C', 'c'), ('D', 'd'), ('E', 'e'), ('F', 'f'), ('G', 'g'),
   ('H', 'h'), ('I', 'i'), ('J', 'j'), ('K', 'k'), ('L', 'l'), ('M', 'm'), ('N', 'n'),
   ('O', 'o'), ('P', 'p'), ('Q', 'q'), ('R', 'r'), ('S', 's'), ('T', 't'), ('U', 'u'),
   ('V', 'v'), ('W', 'w'), ('X', 'x'), ('Y', 'y'), ('Z', 'z'), ('À', 'à'), ('Á', 'á'),
   ('Â', 'â'), ('Ã', 'ã'), ('Ä', 'ä'), ('Å', 'å'), ('Æ', 'æ'), ('Ç', 'ç'), ('È', 'è'),
   ('É', 'é'), ('Ê', 'ê'), ('Ë', 'ë'), ('Ì', 'ì'), ('Í', 'í'), ('Î', 'î'), ('Ï', 'ï'),
   ('Ð', 'ð'), ('Ñ', 'ñ'), ('Ò', 'ò'), ('Ó', 'ó'), ('Ô', 'ô'), ('Õ', 'õ'), ('Ö', 'ö'),
   ('Ø', 'ø'), ('Ù', 'ù'), ('Ú', 'ú'), ('Û', 'û'), ('Ü', 'ü'), ('Ý', 'ý'), ('Þ', 'þ'),
   (Char.ofNat 0x178, Char.ofNat 0xFF), (Char.ofNat 0x1E9E, Char.ofNat 0xDF),
   (Char.ofNat 0x212A, 'k'), (Char.ofNat 0x212B, Char.ofNat 0xE5)]

/-- The lower-case form of a character. -/
def toLowerChar (c : Char) : Char :=
  (lowerTable.lookup c).getD c

/-- The method `String.prototype.toLowerCase`. -/
def toLowerCase (s : String) : String :=
  String.mk (s.data.map toLowerChar)

/-! ## `routes-data.js` -/

namespace RoutesDB

/-- A route object `{ origin, destination, distanceKm }`. -/
structure Route where
  origin : String
  destination : String
  distanceKm : JSNum
  deriving DecidableEq

/-- The array `routes` of `routes-data.js`. -/
def routes : List Route :=
  [{ origin := "São Paulo, SP", destination := "Rio de Janeiro, RJ", distanceKm := JSNum.fin 430 },
   { origin := "São Paulo, SP", destination := "Brasília, DF", distanceKm := JSNum.fin 1016 },
   { origin := "Rio de Janeiro, RJ", destination := "Brasília, DF", distanceKm := JSNum.fin 1148 },
   { origin := "São Paulo, SP", destination := "Campinas, SP", distanceKm := JSNum.fin 95 },
   { origin := "Rio de Janeiro, RJ", destination := "Niterói, RJ", distanceKm := JSNum.fin 13 },
   { origin := "Belo Horizonte, MG", destination := "Ouro Preto, MG", distanceKm := JSNum.fin 100 },
   { origin := "Salvador, BA", destination := "Feira de Santana, BA", distanceKm := JSNum.fin 110 },
   { origin := "Fortaleza, CE", destination := "Sobral, CE", distanceKm := JSNum.fin 235 },
   { origin := "Porto Alegre, RS", destination := "Curitiba, PR", distanceKm := JSNum.fin 710 },
   { origin := "Manaus, AM", destination := "Belém, PA", distanceKm := JSNum.fin 1120 },
   { origin := "Recife, PE", destination := "Natal, RN", distanceKm := JSNum.fin 287 },
   { origin := "João Pessoa, PB", destination := "Maceió, AL", distanceKm := JSNum.fin 310 },
   { origin := "Goiânia, GO", destination := "Brasília, DF", distanceKm := JSNum.fin 209 },
   { origin := "Fortaleza, CE", destination := "Natal, RN", distanceKm := JSNum.fin 307 },
   { origin := "Salvador, BA", destination := "Brasília, DF", distanceKm := JSNum.fin 1410 },
   { origin := "Curitiba, PR", destination := "São Paulo, SP", distanceKm := JSNum.fin 408 },
   { origin := "Belo Horizonte, MG", destination := "São Paulo, SP", distanceKm := JSNum.fin 586 },
   { origin := "Porto Alegre, RS", destination := "São Paulo, SP", distanceKm := JSNum.fin 1130 },
   { origin := "Teresina, PI", destination := "São Luís, MA", distanceKm := JSNum.fin 332 },
   { origin := "Florianópolis, SC", destination := "Curitiba, PR", distanceKm := JSNum.fin 300 },
   { origin := "Vitória, ES", destination := "Belo Horizonte, MG", distanceKm := JSNum.fin 518 },
   { origin := "Cuiabá, MT", destination := "Campo Grande, MS", distanceKm := JSNum.fin 800 },
   { origin := "Macapá, AP", destination := "Belém, PA", distanceKm := JSNum.fin 520 },
   { origin := "Porto Velho, RO", destination := "Rio Branco, AC", distanceKm := JSNum.fin 720 },
   { origin := "Boa Vista, RR", destination := "Manaus, AM", distanceKm := JSNum.fin 750 },
   { origin := "Palmas, TO", destination := "Goiânia, GO", distanceKm := JSNum.fin 780 },
   { origin := "Recife, PE", destination := "Salvador, BA", distanceKm := JSNum.fin 810 },
   { origin := "Natal, RN", destination := "João Pessoa, PB", distanceKm := JSNum.fin 185 },
   { origin := "São Paulo, SP", destination := "Santos, SP", distanceKm := JSNum.fin 75 },
   { origin := "Campinas, SP", destination := "Ribeirão Preto, SP", distanceKm := JSNum.fin 313 },
   { origin := "Belo Horizonte, MG", destination := "Uberlândia, MG", distanceKm := JSNum.fin 540 },
   { origin := "São Luís, MA", destination := "Belém, PA", distanceKm := JSNum.fin 635 },
   { origin := "Vitória, ES", destination := "Salvador, BA", distanceKm := JSNum.fin 930 },
   { origin := "Maceió, AL", destination := "Aracaju, SE", distanceKm := JSNum.fin 260 },
   { origin := "Campina Grande, PB", destination := "João Pessoa, PB", distanceKm := JSNum.fin 120 }]

/-- The method `Set.prototype.add`, on a set held as the list of its elements in insertion
order. -/
def setAdd (set : List String) (x : String) : List String :=
  if x ∈ set then set else set ++ [x]

/-- The body of `getAllCities` over a given route array.  `localeCompare a b` stands for
`a.localeCompare(b, 'pt-BR')`, the collation of the platform. -/
def getAllCitiesIn (localeCompare : String → String → JSNum) (routes : List Route) :
    List String :=
  let set := routes.foldl (fun set r => setAdd (setAdd set r.origin) r.destination) []
  let arr := set
  Calculator.arraySort (fun a b => localeCompare a b) arr

/-- The function `RoutesDB.getAllCities()`. -/
def getAllCities (localeCompare : String → String → JSNum) : List String :=
  getAllCitiesIn localeCompare routes

/-- The `for` loop of `findDistance` over the routes still to visit, with `o` and `d` the
trimmed, lower-cased query names; `none` is `null`. -/
def findLoop (o d : String) : List Route → Option JSNum
  | [] => none
  | r :: rest =>
    let ro := toLowerCase (trim r.origin)
    let rd := toLowerCase (trim r.destination)
    if (ro = o ∧ rd = d) ∨ (ro = d ∧ rd = o) then some r.distanceKm
    else findLoop o d rest

/-- The body of `findDistance` over a given route array. -/
def findDistanceIn (routes : List Route) (origin destination : String) : Option JSNum :=
  if origin = "" ∨ destination = "" then none
  else
    let o := toLowerCase (trim origin)
    let d := toLowerCase (trim destination)
    findLoop o d routes

/-- The function `RoutesDB.findDistance(origin, destination)`. -/
def findDistance (origin destination : String) : Option JSNum :=
  findDistanceIn routes origin destination

end RoutesDB

/-! ## The route lookup, as the specification words it -/

/-- The trimmed, lower-cased endpoints of `r` equal the trimmed, lower-cased query names, in
either orientation. -/
def RouteMatches (r : RoutesDB.Route) (origin destination : String) : Prop :=
  (toLowerCase (trim r.origin) = toLowerCase (trim origin) ∧
    toLowerCase (trim r.destination) = toLowerCase (trim destination)) ∨
  (toLowerCase (trim r.origin) = toLowerCase (trim destination) ∧
    toLowerCase (trim r.destination) = toLowerCase (trim origin))

/-- The routes `r` and `s` connect the same unordered pair of cities, after trimming and
lower-casing. -/
def SamePair (r s : RoutesDB.Route) : Prop :=
  (toLowerCase (trim r.origin) = toLowerCase (trim s.origin) ∧
    toLowerCase (trim r.destination) = toLowerCase (trim s.destination)) ∨
  (toLowerCase (trim r.origin) = toLowerCase (trim s.destination) ∧
    toLowerCase (trim r.destination) = toLowerCase (trim s.origin))

/-- The string `t` differs from `s` only in letter case and in leading or trailing
whitespace: each is a core wrapped in characters that `trim` strips, and the two cores agree
character by character up to case (equal lower-case forms). -/
def DiffersInCaseAndOuterSpace (s t : String) : Prop :=
  ∃ pre core post pre2 core2 post2 : List Char,
    s.data = pre ++ core ++ post ∧ t.data = pre2 ++ core2 ++ post2 ∧
    (∀ c ∈ pre, isTrimChar c = true) ∧ (∀ c ∈ post, isTrimChar c = true) ∧
    (∀ c ∈ pre2, isTrimChar c = true) ∧ (∀ c ∈ post2, isTrimChar c = true) ∧
    List.Forall₂ (fun a b => toLowerChar a = toLowerChar b) core core2

instance (r : RoutesDB.Route) (origin destination : String) :
    Decidable (RouteMatches r origin destination) := by
  unfold RouteMatches
  exact inferInstance

instance (r s : RoutesDB.Route) : Decidable (SamePair r s) := by
  unfold SamePair
  exact inferInstance

/-- A comparator in the shape of `localeCompare`: negative, zero or positive according to
the order of the two strings by code points. -/
def codePointCompare (a b : String) : JSNum :=
  if a < b then JSNum.fin (-1) else if b < a then JSNum.fin 1 else JSNum.fin 0

/-! ## Rounding lemmas -/

theorem toFixedQ_nonneg_spec (k : Nat) (x : ℚ) (hx : 0 ≤ x) :
    IsRoundHalfAway k x (JSNum.toFixedQ k x) := by
  have hp : (0 : ℚ) < 10 ^ k := by positivity
  have hlt : ¬ x < 0 := not_lt.mpr hx
  set n : ℤ := ⌊x * 10 ^ k + 1 / 2⌋ with hn
  have hval : JSNum.toFixedQ k x = (n : ℚ) / 10 ^ k := by
    simp only [JSNum.toFixedQ, if_neg hlt, hn]
  have h1 : (n : ℚ) ≤ x * 10 ^ k + 1 / 2 := Int.floor_le _
  have h2 : x * 10 ^ k + 1 / 2 < (n : ℚ) + 1 := Int.lt_floor_add_one _
  have hdiff : (n : ℚ) / 10 ^ k - x = ((n : ℚ) - x * 10 ^ k) / 10 ^ k := by
    field_simp
    ring
  have hhalf : (1 : ℚ) / (2 * 10 ^ k) = (1 / 2) / 10 ^ k := by
    field_simp
  have hup : (n : ℚ) / 10 ^ k - x ≤ 1 / (2 * 10 ^ k) := by
    rw [hdiff, hhalf]
    exact div_le_div_of_nonneg_right (by linarith) hp.le
  have hlo : -(1 / (2 * 10 ^ k)) < (n : ℚ) / 10 ^ k - x := by
    rw [hdiff, hhalf, ← neg_div]
    exact div_lt_div_of_pos_right (by linarith) hp
  refine ⟨⟨n, hval⟩, ?_, ?_⟩
  · rw [hval, abs_le]
    exact ⟨hlo.le, hup⟩
  · rw [hval]
    intro habs
    have hpos : (0 : ℚ) < 1 / (2 * 10 ^ k) := by positivity
    have hge : 0 ≤ (n : ℚ) / 10 ^ k - x := by
      by_contra hneg
      rw [abs_of_neg (not_le.mp hneg)] at habs
      linarith
    rw [abs_of_nonneg hge] at habs
    have hr : x < (n : ℚ) / 10 ^ k := by linarith
    rw [abs_of_nonneg hx, abs_of_pos (lt_of_le_of_lt hx hr)]
    exact hr

theorem toFixedQ_neg (k : Nat) (x : ℚ) (hx : x < 0) :
    JSNum.toFixedQ k x = -JSNum.toFixedQ k (-x) := by
  have h : ¬ (-x < 0) := by linarith
  simp only [JSNum.toFixedQ, if_pos hx, if_neg h]

theorem isRoundHalfAway_neg (k : Nat) (x r : ℚ) (h : IsRoundHalfAway k x r) :
    IsRoundHalfAway k (-x) (-r) := by
  obtain ⟨⟨n, hn⟩, h1, h2⟩ := h
  have e : |(-r) - (-x)| = |r - x| := by
    rw [← abs_neg]; congr 1; ring
  refine ⟨⟨-n, ?_⟩, ?_, ?_⟩
  · rw [hn]; push_cast; ring
  · rw [e]; exact h1
  · rw [e, abs_neg, abs_neg]; exact h2

/-- The value of `Number(x.toFixed(k))` is `x` rounded to `k` decimals, half away from zero. -/
theorem toFixedQ_spec (k : Nat) (x : ℚ) : IsRoundHalfAway k x (JSNum.toFixedQ k x) := by
  rcases lt_or_le x 0 with hx | hx
  · rw [toFixedQ_neg k x hx]
    have h := isRoundHalfAway_neg k (-x) _ (toFixedQ_nonneg_spec k (-x) (by linarith))
    simpa using h
  · exact toFixedQ_nonneg_spec k x hx

theorem isRoundHalfAway_lt_absurd (k : Nat) (x : ℚ) (n₁ n₂ : ℤ) (hlt : n₁ < n₂)
    (h₁ : IsRoundHalfAway k x ((n₁ : ℚ) / 10 ^ k))
    (h₂ : IsRoundHalfAway k x ((n₂ : ℚ) / 10 ^ k)) : False := by
  obtain ⟨_, hb₁, ht₁⟩ := h₁
  obtain ⟨_, hb₂, ht₂⟩ := h₂
  have hp : (0 : ℚ) < 10 ^ k := by positivity
  have hh : (0 : ℚ) < 1 / (2 * 10 ^ k) := by positivity
  have hsum : (1 : ℚ) / (2 * 10 ^ k) + 1 / (2 * 10 ^ k) = 1 / 10 ^ k := by
    field_simp
    ring
  have hstep : (n₁ : ℚ) + 1 ≤ (n₂ : ℚ) := by exact_mod_cast hlt
  have hgap : (n₁ : ℚ) / 10 ^ k + 1 / 10 ^ k ≤ (n₂ : ℚ) / 10 ^ k := by
    rw [← add_div]
    exact div_le_div_of_nonneg_right hstep hp.le
  have hlo := (abs_le.mp hb₁).1
  have hhi := (abs_le.mp hb₂).2
  have e₁ : (n₁ : ℚ) / 10 ^ k - x = -(1 / (2 * 10 ^ k)) := by linarith
  have e₂ : (n₂ : ℚ) / 10 ^ k - x = 1 / (2 * 10 ^ k) := by linarith
  have t₁ := ht₁ (by rw [e₁, abs_neg, abs_of_pos hh])
  have t₂ := ht₂ (by rw [e₂, abs_of_pos hh])
  rcases le_or_lt 0 n₁ with hn | hn
  · have ha : (0 : ℚ) ≤ (n₁ : ℚ) / 10 ^ k := div_nonneg (by exact_mod_cast hn) hp.le
    rw [abs_of_nonneg ha, abs_of_nonneg (by linarith)] at t₁
    linarith
  · have hn2 : (n₂ : ℚ) ≤ 0 := by
      have : (n₂ : ℚ) / 10 ^ k = (n₁ : ℚ) / 10 ^ k + 1 / 10 ^ k := by linarith
      have h3 : (n₂ : ℚ) = (n₁ : ℚ) + 1 := by
        rw [← add_div] at this
        field_simp at this
        linarith
      have h4 : (n₁ : ℚ) + 1 ≤ 0 := by exact_mod_cast hn
      linarith
    have hb : (n₂ : ℚ) / 10 ^ k ≤ 0 := div_nonpos_of_nonpos_of_nonneg hn2 hp.le
    rw [abs_of_nonpos hb, abs_of_nonpos (by linarith)] at t₂
    linarith

/-- Rounding half away from zero determines its result. -/
theorem isRoundHalfAway_unique (k : Nat) (x r₁ r₂ : ℚ) (h₁ : IsRoundHalfAway k x r₁)
    (h₂ : IsRoundHalfAway k x r₂) : r₁ = r₂ := by
  obtain ⟨n₁, e₁⟩ := h₁.1
  obtain ⟨n₂, e₂⟩ := h₂.1
  subst e₁ e₂
  rcases lt_trichotomy n₁ n₂ with h | h | h
  · exact (isRoundHalfAway_lt_absurd k x n₁ n₂ h h₁ h₂).elim
  · rw [h]
  · exact (isRoundHalfAway_lt_absurd k x n₂ n₁ h h₂ h₁).elim

/-- The rounding predicate holds of exactly one number, the value of `toFixed`. -/
theorem isRoundHalfAway_iff (k : Nat) (x r : ℚ) :
    IsRoundHalfAway k x r ↔ r = JSNum.toFixedQ k x :=
  ⟨fun h => isRoundHalfAway_unique k x r _ h (toFixedQ_spec k x),
   fun h => h ▸ toFixedQ_spec k x⟩

theorem toFixedQ_zero (k : Nat) : JSNum.toFixedQ k 0 = 0 := by
  have h : ⌊(2 : ℚ)⁻¹⌋ = 0 := by
    rw [Int.floor_eq_iff]
    norm_num
  simp [JSNum.toFixedQ, h]

theorem toFixedQ_nonpos (k : Nat) (x : ℚ) (hx : x ≤ 0) : JSNum.toFixedQ k x ≤ 0 := by
  rcases hx.lt_or_eq with h | h
  · have hp : (0 : ℚ) < 10 ^ k := by positivity
    have hfl : (0 : ℤ) ≤ ⌊(-x) * 10 ^ k + 1 / 2⌋ := by
      apply Int.floor_nonneg.mpr
      have : 0 ≤ (-x) * 10 ^ k := mul_nonneg (by linarith) hp.le
      linarith
    have hq : (0 : ℚ) ≤ ((⌊(-x) * 10 ^ k + 1 / 2⌋ : ℤ) : ℚ) := by exact_mod_cast hfl
    simp only [JSNum.toFixedQ, if_pos h]
    have := div_nonneg hq hp.le
    linarith
  · rw [h, toFixedQ_zero]


/-! ## Binary64 rounding -/

theorem roundHalfEven_eq_of_lt (t : ℚ) (n : ℤ) (h1 : (n : ℚ) - 1 / 2 < t)
    (h2 : t < (n : ℚ) + 1 / 2) : JSNum.roundHalfEven t = n := by
  unfold JSNum.roundHalfEven
  rcases le_or_lt (n : ℚ) t with h | h
  · have hfl : ⌊t⌋ = n := by
      rw [Int.floor_eq_iff]
      exact ⟨h, by linarith⟩
    simp only [hfl]
    rw [if_pos (by linarith)]
  · have hfl : ⌊t⌋ = n - 1 := by
      rw [Int.floor_eq_iff]
      push_cast
      exact ⟨by linarith, by linarith⟩
    simp only [hfl]
    push_cast
    rw [if_neg (by linarith), if_pos (by linarith)]
    ring

theorem roundHalfEven_intCast (n : ℤ) : JSNum.roundHalfEven (n : ℚ) = n :=
  roundHalfEven_eq_of_lt _ n (by linarith) (by linarith)

theorem roundHalfEven_sub_abs (t : ℚ) : |(JSNum.roundHalfEven t : ℚ) - t| ≤ 1 / 2 := by
  have h1 : (⌊t⌋ : ℚ) ≤ t := Int.floor_le t
  have h2 : t < (⌊t⌋ : ℚ) + 1 := Int.lt_floor_add_one t
  unfold JSNum.roundHalfEven
  simp only
  split_ifs with ha hb hc
  · rw [abs_le]; constructor <;> linarith
  · rw [abs_le]; push_cast; constructor <;> linarith
  · rw [abs_le]; constructor <;> linarith
  · rw [abs_le]; push_cast; constructor <;> linarith

theorem floor_le_roundHalfEven (t : ℚ) : ⌊t⌋ ≤ JSNum.roundHalfEven t := by
  unfold JSNum.roundHalfEven
  simp only
  split_ifs <;> omega

theorem roundHalfEven_le_floor_add_one (t : ℚ) : JSNum.roundHalfEven t ≤ ⌊t⌋ + 1 := by
  unfold JSNum.roundHalfEven
  simp only
  split_ifs <;> omega

theorem le_roundHalfEven (t : ℚ) (k : ℤ) (h : (k : ℚ) ≤ t) : k ≤ JSNum.roundHalfEven t :=
  le_trans (Int.le_floor.mpr h) (floor_le_roundHalfEven t)

theorem roundHalfEven_le (t : ℚ) (k : ℤ) (h : t ≤ (k : ℚ)) : JSNum.roundHalfEven t ≤ k := by
  rcases h.lt_or_eq with hlt | heq
  · have hfl : ⌊t⌋ < k := Int.floor_lt.mpr hlt
    have := roundHalfEven_le_floor_add_one t
    omega
  · rw [heq, roundHalfEven_intCast]

theorem quantum_pos (x : ℚ) : (0 : ℚ) < 2 ^ (JSNum.binade x - 52) := by positivity

theorem binade_eq_of_bounds (x : ℚ) (e : ℤ) (he : -1022 ≤ e) (hlo : (2 : ℚ) ^ e ≤ |x|)
    (hhi : |x| < (2 : ℚ) ^ (e + 1)) : JSNum.binade x = e := by
  have hpos : (0 : ℚ) < |x| := lt_of_lt_of_le (by positivity) hlo
  have h1 : e ≤ Int.log 2 |x| := (Int.zpow_le_iff_le_log (by norm_num) hpos).mp (by exact_mod_cast hlo)
  have h2 : Int.log 2 |x| < e + 1 := (Int.lt_zpow_iff_log_lt (by norm_num) hpos).mp (by exact_mod_cast hhi)
  unfold JSNum.binade
  omega

theorem binade_eq_of_small (x : ℚ) (hpos : 0 < |x|) (h : |x| < (2 : ℚ) ^ (-1022 : ℤ)) :
    JSNum.binade x = -1022 := by
  unfold JSNum.binade
  have h2 : Int.log 2 |x| < -1022 :=
    (Int.lt_zpow_iff_log_lt (by norm_num) hpos).mp (by exact_mod_cast h)
  omega

theorem roundDouble_zero : JSNum.roundDouble 0 = JSNum.fin 0 := by
  have h : JSNum.roundHalfEven (0 : ℚ) = 0 := by
    simpa using roundHalfEven_intCast 0
  unfold JSNum.roundDouble
  simp only [zero_div, h, Int.cast_zero, zero_mul]
  rw [if_neg (by norm_num), if_neg (by norm_num)]

/-- The value computed before the overflow test lies within half a quantum of `x`. -/
theorem roundDouble_err (x : ℚ) :
    |(JSNum.roundHalfEven (x / 2 ^ (JSNum.binade x - 52)) : ℚ) * 2 ^ (JSNum.binade x - 52) - x|
      ≤ 2 ^ (JSNum.binade x - 52) / 2 := by
  have hq := quantum_pos x
  have h := roundHalfEven_sub_abs (x / 2 ^ (JSNum.binade x - 52))
  have e : (JSNum.roundHalfEven (x / 2 ^ (JSNum.binade x - 52)) : ℚ) * 2 ^ (JSNum.binade x - 52) - x
      = ((JSNum.roundHalfEven (x / 2 ^ (JSNum.binade x - 52)) : ℚ) - x / 2 ^ (JSNum.binade x - 52))
          * 2 ^ (JSNum.binade x - 52) := by
    field_simp
  rw [e, abs_mul, abs_of_pos hq]
  calc |(JSNum.roundHalfEven (x / 2 ^ (JSNum.binade x - 52)) : ℚ) - x / 2 ^ (JSNum.binade x - 52)|
        * 2 ^ (JSNum.binade x - 52)
      ≤ 1 / 2 * 2 ^ (JSNum.binade x - 52) := mul_le_mul_of_nonneg_right h hq.le
    _ = 2 ^ (JSNum.binade x - 52) / 2 := by ring

theorem two_zpow_binade_le (x : ℚ) (hx : x ≠ 0) :
    (2 : ℚ) ^ JSNum.binade x ≤ |x| + 2 ^ (-1022 : ℤ) := by
  have hpos : (0 : ℚ) < |x| := abs_pos.mpr hx
  have hlog : (2 : ℚ) ^ Int.log 2 |x| ≤ |x| := by
    exact_mod_cast Int.zpow_log_le_self (b := 2) (by norm_num) hpos
  unfold JSNum.binade
  rcases le_total (Int.log 2 |x|) (-1022) with h | h
  · rw [max_eq_right h]
    linarith
  · rw [max_eq_left h]
    have : (0 : ℚ) < 2 ^ (-1022 : ℤ) := by positivity
    linarith

theorem quantum_half_le (x : ℚ) (hx : x ≠ 0) :
    (2 : ℚ) ^ (JSNum.binade x - 52) / 2 ≤ |x| / 2 ^ 53 + 1 / 2 ^ 1075 := by
  have h := two_zpow_binade_le x hx
  have e : (2 : ℚ) ^ (JSNum.binade x - 52) / 2 = 2 ^ JSNum.binade x / 2 ^ 53 := by
    rw [zpow_sub₀ (by norm_num : (2 : ℚ) ≠ 0)]
    norm_num
    ring
  have e2 : (1 : ℚ) / 2 ^ 1075 = 2 ^ (-1022 : ℤ) / 2 ^ 53 := by
    rw [zpow_neg, zpow_ofNat]
    norm_num
  rw [e, e2, ← add_div]
  exact div_le_div_of_nonneg_right h (by positivity)

/-- A value well inside the finite range rounds to a finite number, with relative error at
most `2^-53` (absolute error at most `2^-1075` in the subnormal range). -/
theorem roundDouble_finite (x : ℚ) (hx : |x| ≤ 2 ^ 1024 * (99 / 100)) :
    ∃ y : ℚ, JSNum.roundDouble x = JSNum.fin y ∧ |y - x| ≤ |x| / 2 ^ 53 + 1 / 2 ^ 1075 := by
  rcases eq_or_ne x 0 with rfl | hne
  · exact ⟨0, roundDouble_zero, by norm_num⟩
  · have herr := (roundDouble_err x).trans (quantum_half_le x hne)
    refine ⟨(JSNum.roundHalfEven (x / 2 ^ (JSNum.binade x - 52)) : ℚ) * 2 ^ (JSNum.binade x - 52), ?_, herr⟩
    have hb := abs_le.mp herr
    have hxb := abs_le.mp hx
    have hax : |x| ≤ 2 ^ 1024 * (99 / 100) := hx
    have hnn := abs_nonneg x
    unfold JSNum.roundDouble
    simp only
    rw [if_neg, if_neg]
    · intro hc
      have h1 := hb.1
      have : |x| / 2 ^ 53 ≤ 2 ^ 1024 * (99 / 100) / 2 ^ 53 :=
        div_le_div_of_nonneg_right hax (by positivity)
      norm_num at this hc hxb ⊢
      linarith [hxb.1]
    · intro hc
      have h2 := hb.2
      have : |x| / 2 ^ 53 ≤ 2 ^ 1024 * (99 / 100) / 2 ^ 53 :=
        div_le_div_of_nonneg_right hax (by positivity)
      norm_num at this hc hxb ⊢
      linarith [hxb.2]

theorem roundDouble_ne_nan (x : ℚ) : JSNum.roundDouble x ≠ JSNum.nan := by
  unfold JSNum.roundDouble
  simp only
  split_ifs <;> simp

theorem roundDouble_nonneg (x y : ℚ) (hx : 0 ≤ x) (h : JSNum.roundDouble x = JSNum.fin y) : 0 ≤ y := by
  have hq := quantum_pos x
  have hn : (0 : ℤ) ≤ JSNum.roundHalfEven (x / 2 ^ (JSNum.binade x - 52)) :=
    le_roundHalfEven _ 0 (by simpa using div_nonneg hx hq.le)
  have hy : (0 : ℚ) ≤ (JSNum.roundHalfEven (x / 2 ^ (JSNum.binade x - 52)) : ℚ) * 2 ^ (JSNum.binade x - 52) :=
    mul_nonneg (by exact_mod_cast hn) hq.le
  unfold JSNum.roundDouble at h
  simp only at h
  split_ifs at h
  injection h with h
  rw [← h]
  exact hy

theorem roundDouble_nonpos (x y : ℚ) (hx : x ≤ 0) (h : JSNum.roundDouble x = JSNum.fin y) : y ≤ 0 := by
  have hq := quantum_pos x
  have hn : JSNum.roundHalfEven (x / 2 ^ (JSNum.binade x - 52)) ≤ 0 :=
    roundHalfEven_le _ 0 (by simpa using div_nonpos_of_nonpos_of_nonneg hx hq.le)
  have hy : (JSNum.roundHalfEven (x / 2 ^ (JSNum.binade x - 52)) : ℚ) * 2 ^ (JSNum.binade x - 52) ≤ 0 :=
    mul_nonpos_of_nonpos_of_nonneg (by exact_mod_cast hn) hq.le
  unfold JSNum.roundDouble at h
  simp only at h
  split_ifs at h
  injection h with h
  rw [← h]
  exact hy

/-- A non-positive value never rounds to a positive number. -/
theorem roundDouble_gt_zero_of_nonpos (x : ℚ) (hx : x ≤ 0) :
    (JSNum.roundDouble x).gt (JSNum.fin 0) = false := by
  cases h : JSNum.roundDouble x with
  | fin y =>
    have := roundDouble_nonpos x y hx h
    simp [JSNum.gt, not_lt.mpr this]
  | pinf =>
    exfalso
    have hq := quantum_pos x
    have hn : JSNum.roundHalfEven (x / 2 ^ (JSNum.binade x - 52)) ≤ 0 :=
      roundHalfEven_le _ 0 (by simpa using div_nonpos_of_nonpos_of_nonneg hx hq.le)
    have hy : (JSNum.roundHalfEven (x / 2 ^ (JSNum.binade x - 52)) : ℚ) * 2 ^ (JSNum.binade x - 52) ≤ 0 :=
      mul_nonpos_of_nonpos_of_nonneg (by exact_mod_cast hn) hq.le
    unfold JSNum.roundDouble at h
    simp only at h
    split_ifs at h with h1
    have : (0 : ℚ) < 2 ^ 1024 := pow_pos (by norm_num) 1024
    linarith
  | ninf => rfl
  | nan => rfl

/-- Every finite result is a multiple of the least subnormal `2^-1074`. -/
theorem roundDouble_grid (x y : ℚ) (h : JSNum.roundDouble x = JSNum.fin y) :
    ∃ k : ℤ, y = (k : ℚ) / 2 ^ 1074 := by
  have hb : -1022 ≤ JSNum.binade x := le_max_right _ _
  obtain ⟨m, hm⟩ : ∃ m : ℕ, JSNum.binade x - 52 = (m : ℤ) - 1074 :=
    ⟨(JSNum.binade x + 1022).toNat, by omega⟩
  have hq : (2 : ℚ) ^ (JSNum.binade x - 52) = 2 ^ m / 2 ^ 1074 := by
    rw [hm, zpow_sub₀ (by norm_num : (2 : ℚ) ≠ 0), zpow_natCast]
    norm_num
  unfold JSNum.roundDouble at h
  simp only at h
  split_ifs at h
  injection h with h
  refine ⟨JSNum.roundHalfEven (x / 2 ^ (JSNum.binade x - 52)) * 2 ^ m, ?_⟩
  rw [← h, hq]
  push_cast
  ring

/-- A value of at least the least subnormal rounds to a positive number (or overflows). -/
theorem roundDouble_gt_zero_of_ge (x : ℚ) (hx : (1 : ℚ) / 2 ^ 1074 ≤ x) :
    (JSNum.roundDouble x).gt (JSNum.fin 0) = true := by
  have hxpos : 0 < x := lt_of_lt_of_le (by positivity) hx
  have hq := quantum_pos x
  have hqle : (2 : ℚ) ^ (JSNum.binade x - 52) ≤ x := by
    have hlog : (2 : ℚ) ^ Int.log 2 |x| ≤ |x| := by
      exact_mod_cast Int.zpow_log_le_self (b := 2) (by norm_num) (abs_pos.mpr hxpos.ne')
    rw [abs_of_pos hxpos] at hlog
    unfold JSNum.binade
    rw [abs_of_pos hxpos]
    rcases le_total (Int.log 2 x) (-1022) with h | h
    · rw [max_eq_right h]
      have : (2 : ℚ) ^ ((-1022 : ℤ) - 52) = 1 / 2 ^ 1074 := by norm_num
      rw [this]
      exact hx
    · rw [max_eq_left h]
      have h52 : (2 : ℚ) ^ (Int.log 2 x - 52) ≤ 2 ^ Int.log 2 x :=
        zpow_le_zpow_right₀ (by norm_num) (by omega)
      exact h52.trans hlog
  have hn : (1 : ℤ) ≤ JSNum.roundHalfEven (x / 2 ^ (JSNum.binade x - 52)) :=
    le_roundHalfEven _ 1 (by
      rw [le_div_iff₀ hq]
      simpa using hqle)
  have hy : (0 : ℚ) < (JSNum.roundHalfEven (x / 2 ^ (JSNum.binade x - 52)) : ℚ) * 2 ^ (JSNum.binade x - 52) :=
    mul_pos (by exact_mod_cast hn) hq
  unfold JSNum.roundDouble
  simp only
  split_ifs with h1 h2
  · rfl
  · exfalso
    have : (0 : ℚ) < 2 ^ 1024 := pow_pos (by norm_num) 1024
    linarith
  · simp [JSNum.gt, hy]

theorem mantissa_bounds (t : ℚ) (n : ℤ) (ht0 : 0 < t) (ht : t < 2 ^ (53 : ℤ))
    (hn1 : (n : ℚ) - 1 / 2 < t) (hn2 : t < (n : ℚ) + 1 / 2) :
    (0 : ℚ) ≤ n ∧ (n : ℚ) ≤ 2 ^ (53 : ℤ) := by
  have h53 : (2 : ℚ) ^ (53 : ℤ) = ((9007199254740992 : ℤ) : ℚ) := by norm_num
  rw [h53] at ht ⊢
  have h0 : (-1 : ℤ) < n := by
    have : ((-1 : ℤ) : ℚ) < n := by push_cast; linarith
    exact_mod_cast this
  have h1 : n < 9007199254740992 + 1 := by
    have : (n : ℚ) < ((9007199254740992 + 1 : ℤ) : ℚ) := by push_cast; linarith
    exact_mod_cast this
  constructor
  · have : (0 : ℤ) ≤ n := by omega
    exact_mod_cast this
  · have : n ≤ 9007199254740992 := by omega
    exact_mod_cast this

theorem two_zpow_1024 : (2 : ℚ) ^ (1024 : ℤ) = 2 ^ 1024 := by
  rw [← zpow_natCast]
  rfl

theorem two_zpow_lt_overflow (e : ℤ) (he : e ≤ 1022) : (2 : ℚ) ^ (e + 1) < 2 ^ 1024 := by
  have h1 : (2 : ℚ) ^ (e + 1) ≤ 2 ^ (1023 : ℤ) := zpow_le_zpow_right₀ (by norm_num) (by omega)
  have h2 : (2 : ℚ) ^ (1023 : ℤ) < 2 ^ (1024 : ℤ) := zpow_lt_zpow_right₀ (by norm_num) (by norm_num)
  have h3 : (2 : ℚ) ^ (1024 : ℤ) = 2 ^ 1024 := two_zpow_1024
  linarith

/-- Evaluation of `JSNum.roundDouble` at a positive value from its JSNum.binade and mantissa. -/
theorem roundDouble_eval_pos (x y : ℚ) (e n : ℤ) (he : -1022 ≤ e) (he2 : e ≤ 1022)
    (hlo : (2 : ℚ) ^ e ≤ x) (hhi : x < (2 : ℚ) ^ (e + 1))
    (hn1 : (n : ℚ) - 1 / 2 < x / 2 ^ (e - 52)) (hn2 : x / 2 ^ (e - 52) < (n : ℚ) + 1 / 2)
    (hy : y = (n : ℚ) * 2 ^ (e - 52)) :
    JSNum.roundDouble x = JSNum.fin y := by
  have hxpos : 0 < x := lt_of_lt_of_le (by positivity) hlo
  have hq : (0 : ℚ) < 2 ^ (e - 52) := by positivity
  have hb : JSNum.binade x = e :=
    binade_eq_of_bounds x e he (by rwa [abs_of_pos hxpos]) (by rwa [abs_of_pos hxpos])
  have hsplit : (2 : ℚ) ^ (e + 1) = 2 ^ (53 : ℤ) * 2 ^ (e - 52) := by
    rw [← zpow_add₀ (by norm_num : (2 : ℚ) ≠ 0)]
    congr 1
    ring
  have ht : x / 2 ^ (e - 52) < 2 ^ (53 : ℤ) := by
    rw [div_lt_iff₀ hq, ← hsplit]
    exact hhi
  obtain ⟨hn0, hn53⟩ := mantissa_bounds _ n (div_pos hxpos hq) ht hn1 hn2
  have hy0 : 0 ≤ y := by
    rw [hy]
    exact mul_nonneg hn0 hq.le
  have hy1 : y ≤ 2 ^ (e + 1) := by
    rw [hy, hsplit]
    exact mul_le_mul_of_nonneg_right hn53 hq.le
  have hov := two_zpow_lt_overflow e he2
  have hpos1024 : (0 : ℚ) < 2 ^ 1024 := pow_pos (by norm_num) 1024
  unfold JSNum.roundDouble
  simp only [hb, roundHalfEven_eq_of_lt _ n hn1 hn2, ← hy]
  rw [if_neg (by linarith), if_neg (by linarith)]

theorem roundHalfEven_neg_of_lt (t : ℚ) (n : ℤ) (h1 : (n : ℚ) - 1 / 2 < t)
    (h2 : t < (n : ℚ) + 1 / 2) : JSNum.roundHalfEven (-t) = -n :=
  roundHalfEven_eq_of_lt _ _ (by push_cast; linarith) (by push_cast; linarith)

/-- Evaluation of `JSNum.roundDouble` at a negative value: the mirror image of its value at the
positive one. -/
theorem roundDouble_eval_neg (x y : ℚ) (e n : ℤ) (he : -1022 ≤ e) (he2 : e ≤ 1022)
    (hlo : (2 : ℚ) ^ e ≤ x) (hhi : x < (2 : ℚ) ^ (e + 1))
    (hn1 : (n : ℚ) - 1 / 2 < x / 2 ^ (e - 52)) (hn2 : x / 2 ^ (e - 52) < (n : ℚ) + 1 / 2)
    (hy : y = (n : ℚ) * 2 ^ (e - 52)) :
    JSNum.roundDouble (-x) = JSNum.fin (-y) := by
  have hxpos : 0 < x := lt_of_lt_of_le (by positivity) hlo
  have hq : (0 : ℚ) < 2 ^ (e - 52) := by positivity
  have hb : JSNum.binade (-x) = e :=
    binade_eq_of_bounds (-x) e he (by rwa [abs_neg, abs_of_pos hxpos])
      (by rwa [abs_neg, abs_of_pos hxpos])
  have hsplit : (2 : ℚ) ^ (e + 1) = 2 ^ (53 : ℤ) * 2 ^ (e - 52) := by
    rw [← zpow_add₀ (by norm_num : (2 : ℚ) ≠ 0)]
    congr 1
    ring
  have ht : x / 2 ^ (e - 52) < 2 ^ (53 : ℤ) := by
    rw [div_lt_iff₀ hq, ← hsplit]
    exact hhi
  obtain ⟨hn0, hn53⟩ := mantissa_bounds _ n (div_pos hxpos hq) ht hn1 hn2
  have hy0 : 0 ≤ y := by
    rw [hy]
    exact mul_nonneg hn0 hq.le
  have hy1 : y ≤ 2 ^ (e + 1) := by
    rw [hy, hsplit]
    exact mul_le_mul_of_nonneg_right hn53 hq.le
  have hov := two_zpow_lt_overflow e he2
  have hpos1024 : (0 : ℚ) < 2 ^ 1024 := pow_pos (by norm_num) 1024
  have hr : JSNum.roundHalfEven (-x / 2 ^ (e - 52)) = -n := by
    rw [neg_div]
    exact roundHalfEven_neg_of_lt _ n hn1 hn2
  unfold JSNum.roundDouble
  simp only [hb, hr]
  have hval : ((-n : ℤ) : ℚ) * 2 ^ (e - 52) = -y := by
    rw [hy]
    push_cast
    ring
  rw [hval, if_neg (by linarith), if_neg (by linarith)]

/-- A value of at least `2^1024` overflows to `Infinity`. -/
theorem roundDouble_overflow (x : ℚ) (hx : (2 : ℚ) ^ (1024 : ℤ) ≤ x) :
    JSNum.roundDouble x = JSNum.pinf := by
  have hxpos : 0 < x := lt_of_lt_of_le (by positivity) hx
  have hq := quantum_pos x
  have hlog : (1024 : ℤ) ≤ Int.log 2 |x| := by
    apply (Int.zpow_le_iff_le_log (by norm_num) (abs_pos.mpr hxpos.ne')).mp
    rw [abs_of_pos hxpos]
    simpa using hx
  have hb : (1024 : ℤ) ≤ JSNum.binade x := le_trans hlog (le_max_left _ _)
  have hbx : (2 : ℚ) ^ JSNum.binade x ≤ x := by
    have h1 : (2 : ℚ) ^ Int.log 2 |x| ≤ |x| := by
      exact_mod_cast Int.zpow_log_le_self (b := 2) (by norm_num) (abs_pos.mpr hxpos.ne')
    have h2 : JSNum.binade x = Int.log 2 |x| := by
      unfold JSNum.binade
      exact max_eq_left (by omega)
    rw [h2]
    rw [abs_of_pos hxpos] at h1 ⊢
    exact h1
  have hsplit : (2 : ℚ) ^ JSNum.binade x = 2 ^ (52 : ℤ) * 2 ^ (JSNum.binade x - 52) := by
    rw [← zpow_add₀ (by norm_num : (2 : ℚ) ≠ 0)]
    congr 1
    ring
  have h52 : (2 : ℚ) ^ (52 : ℤ) = ((4503599627370496 : ℤ) : ℚ) := by norm_num
  have hn : (4503599627370496 : ℤ) ≤ JSNum.roundHalfEven (x / 2 ^ (JSNum.binade x - 52)) :=
    le_roundHalfEven _ _ (by
      rw [le_div_iff₀ hq, ← h52, ← hsplit]
      exact hbx)
  have hy : (2 : ℚ) ^ 1024
      ≤ (JSNum.roundHalfEven (x / 2 ^ (JSNum.binade x - 52)) : ℚ) * 2 ^ (JSNum.binade x - 52) := by
    have h1 : ((4503599627370496 : ℤ) : ℚ) * 2 ^ (JSNum.binade x - 52)
        ≤ (JSNum.roundHalfEven (x / 2 ^ (JSNum.binade x - 52)) : ℚ) * 2 ^ (JSNum.binade x - 52) :=
      mul_le_mul_of_nonneg_right (by exact_mod_cast hn) hq.le
    rw [← h52, ← hsplit] at h1
    have h3 : (2 : ℚ) ^ (1024 : ℤ) ≤ 2 ^ JSNum.binade x := zpow_le_zpow_right₀ (by norm_num) hb
    have h4 : (2 : ℚ) ^ (1024 : ℤ) = 2 ^ 1024 := two_zpow_1024
    linarith
  unfold JSNum.roundDouble
  simp only
  rw [if_pos hy]

theorem roundHalfEven_eq_of_le (t : ℚ) (n : ℤ) (h1 : (n : ℚ) - 1 / 2 ≤ t)
    (h2 : t ≤ (n : ℚ) + 1 / 2) (h3 : t = (n : ℚ) - 1 / 2 ∨ t = (n : ℚ) + 1 / 2 → n % 2 = 0) :
    JSNum.roundHalfEven t = n := by
  rcases h1.lt_or_eq with h1s | h1e
  · rcases h2.lt_or_eq with h2s | h2e
    · exact roundHalfEven_eq_of_lt t n h1s h2s
    · have hev := h3 (Or.inr h2e)
      have hfl : ⌊t⌋ = n := by
        rw [Int.floor_eq_iff]
        exact ⟨by linarith, by linarith⟩
      unfold JSNum.roundHalfEven
      simp only [hfl]
      rw [if_neg (by linarith), if_neg (by linarith), if_pos hev]
  · have hev := h3 (Or.inl h1e.symm)
    have hfl : ⌊t⌋ = n - 1 := by
      rw [Int.floor_eq_iff]
      push_cast
      exact ⟨by linarith, by linarith⟩
    have hodd : ¬ (n - 1) % 2 = 0 := by omega
    unfold JSNum.roundHalfEven
    simp only [hfl]
    push_cast
    rw [if_neg (by linarith), if_neg (by linarith), if_neg hodd]
    ring

/-- The value of `roundDouble` from the binade of `x` and the rounded mantissa. -/
theorem roundDouble_of_mantissa (x y : ℚ) (e n : ℤ) (he : -1022 ≤ e) (he2 : e ≤ 1022)
    (hlo : (2 : ℚ) ^ e ≤ |x|) (hhi : |x| < (2 : ℚ) ^ (e + 1))
    (hr : JSNum.roundHalfEven (x / 2 ^ (e - 52)) = n) (hy : y = (n : ℚ) * 2 ^ (e - 52)) :
    JSNum.roundDouble x = JSNum.fin y := by
  have hq : (0 : ℚ) < 2 ^ (e - 52) := by positivity
  have hb : JSNum.binade x = e := binade_eq_of_bounds x e he hlo hhi
  have hsplit : (2 : ℚ) ^ (e + 1) = 2 ^ (53 : ℤ) * 2 ^ (e - 52) := by
    rw [← zpow_add₀ (by norm_num : (2 : ℚ) ≠ 0)]
    congr 1
    ring
  have h53 : (2 : ℚ) ^ (53 : ℤ) = ((9007199254740992 : ℤ) : ℚ) := by norm_num
  have hxb := abs_lt.mp hhi
  have ht1 : x / 2 ^ (e - 52) ≤ ((9007199254740992 : ℤ) : ℚ) := by
    rw [div_le_iff₀ hq, ← h53, ← hsplit]
    exact hxb.2.le
  have ht2 : ((-9007199254740992 : ℤ) : ℚ) ≤ x / 2 ^ (e - 52) := by
    rw [le_div_iff₀ hq]
    have : ((-9007199254740992 : ℤ) : ℚ) = -((9007199254740992 : ℤ) : ℚ) := by push_cast; ring
    rw [this, neg_mul, ← h53, ← hsplit]
    exact hxb.1.le
  have hn1 : n ≤ 9007199254740992 := hr ▸ roundHalfEven_le _ _ ht1
  have hn2 : -9007199254740992 ≤ n := hr ▸ le_roundHalfEven _ _ ht2
  have hy1 : y ≤ 2 ^ (e + 1) := by
    rw [hy, hsplit, h53]
    exact mul_le_mul_of_nonneg_right (by exact_mod_cast hn1) hq.le
  have hy2 : -(2 : ℚ) ^ (e + 1) ≤ y := by
    rw [hy, hsplit, h53, ← neg_mul]
    exact mul_le_mul_of_nonneg_right (by exact_mod_cast hn2) hq.le
  have hov := two_zpow_lt_overflow e he2
  unfold JSNum.roundDouble
  simp only [hb, hr, ← hy]
  rw [if_neg (by linarith), if_neg (by linarith)]

/-- Evaluation of `roundDouble` at a positive value that may lie half-way between two
binary64 values. -/
theorem roundDouble_eval_pos_tie (x y : ℚ) (e n : ℤ) (he : -1022 ≤ e) (he2 : e ≤ 1022)
    (hlo : (2 : ℚ) ^ e ≤ x) (hhi : x < (2 : ℚ) ^ (e + 1))
    (hn1 : (n : ℚ) - 1 / 2 ≤ x / 2 ^ (e - 52)) (hn2 : x / 2 ^ (e - 52) ≤ (n : ℚ) + 1 / 2)
    (hn3 : x / 2 ^ (e - 52) = (n : ℚ) - 1 / 2 ∨ x / 2 ^ (e - 52) = (n : ℚ) + 1 / 2 →
      n % 2 = 0)
    (hy : y = (n : ℚ) * 2 ^ (e - 52)) :
    JSNum.roundDouble x = JSNum.fin y := by
  have hxpos : 0 < x := lt_of_lt_of_le (by positivity) hlo
  exact roundDouble_of_mantissa x y e n he he2 (by rwa [abs_of_pos hxpos])
    (by rwa [abs_of_pos hxpos]) (roundHalfEven_eq_of_le _ n hn1 hn2 hn3) hy

/-- Evaluation of `roundDouble` at a negative value that may lie half-way between two
binary64 values, from the binade and mantissa of its absolute value. -/
theorem roundDouble_eval_neg_tie (x y : ℚ) (e n : ℤ) (he : -1022 ≤ e) (he2 : e ≤ 1022)
    (hlo : (2 : ℚ) ^ e ≤ -x) (hhi : -x < (2 : ℚ) ^ (e + 1))
    (hn1 : (n : ℚ) - 1 / 2 ≤ -x / 2 ^ (e - 52)) (hn2 : -x / 2 ^ (e - 52) ≤ (n : ℚ) + 1 / 2)
    (hn3 : -x / 2 ^ (e - 52) = (n : ℚ) - 1 / 2 ∨ -x / 2 ^ (e - 52) = (n : ℚ) + 1 / 2 →
      n % 2 = 0)
    (hy : y = -((n : ℚ) * 2 ^ (e - 52))) :
    JSNum.roundDouble x = JSNum.fin y := by
  have hxneg : x < 0 := by
    have : (0 : ℚ) < 2 ^ e := by positivity
    linarith
  have hneg : x / 2 ^ (e - 52) = -(-x / 2 ^ (e - 52)) := by ring
  have hr : JSNum.roundHalfEven (x / 2 ^ (e - 52)) = -n := by
    apply roundHalfEven_eq_of_le
    · push_cast
      linarith
    · push_cast
      linarith
    · intro h
      have hpar : n % 2 = 0 := by
        apply hn3
        push_cast at h
        rcases h with h | h
        · right
          linarith
        · left
          linarith
      omega
  exact roundDouble_of_mantissa x y e (-n) he he2 (by rwa [abs_of_neg hxneg])
    (by rwa [abs_of_neg hxneg]) hr (by rw [hy]; push_cast; ring)

theorem roundDouble_eq_zero (x : ℚ) (h : x = 0) : JSNum.roundDouble x = JSNum.fin 0 := by
  rw [h]
  exact roundDouble_zero

/-- Evaluation of `roundDouble` at a negative value, from the binade and mantissa of its
absolute value. -/
theorem roundDouble_eval_neg_of (x y : ℚ) (e n : ℤ) (he : -1022 ≤ e) (he2 : e ≤ 1022)
    (hlo : (2 : ℚ) ^ e ≤ -x) (hhi : -x < (2 : ℚ) ^ (e + 1))
    (hn1 : (n : ℚ) - 1 / 2 < -x / 2 ^ (e - 52)) (hn2 : -x / 2 ^ (e - 52) < (n : ℚ) + 1 / 2)
    (hy : y = -((n : ℚ) * 2 ^ (e - 52))) :
    JSNum.roundDouble x = JSNum.fin y := by
  have h := roundDouble_eval_neg (-x) ((n : ℚ) * 2 ^ (e - 52)) e n he he2 hlo hhi hn1 hn2 rfl
  rw [neg_neg] at h
  rw [h, hy]

theorem roundDouble_onGrid (x : ℚ) : (JSNum.roundDouble x).OnGrid := by
  cases h : JSNum.roundDouble x with
  | fin y => exact roundDouble_grid x y h
  | pinf => trivial
  | ninf => trivial
  | nan => exact absurd h (roundDouble_ne_nan x)

theorem toFixed_onGrid (f : Nat) (x : JSNum) (hx : x ≠ JSNum.nan) :
    (JSNum.toFixed f x).OnGrid := by
  cases x with
  | fin q => exact roundDouble_onGrid _
  | pinf => trivial
  | ninf => trivial
  | nan => exact absurd rfl hx

theorem toFixed_eval (f : Nat) (x r : ℚ) (h : JSNum.toFixedQ f x = r) :
    JSNum.toFixed f (JSNum.fin x) = JSNum.roundDouble r := by
  rw [← h]
  rfl

/-! ## Reading the factor table -/

theorem factor_car : JSNum.roundDouble (12 / 100) = JSNum.fin (1080863910568919 / 9007199254740992) :=
  roundDouble_eval_pos _ _ (-4) 8646911284551352 (by norm_num) (by norm_num) (by norm_num) (by
    norm_num) (by norm_num) (by norm_num) (by norm_num)

theorem factor_bus : JSNum.roundDouble (89 / 1000) = JSNum.fin (3206562934687793 / 36028797018963968) :=
  roundDouble_eval_pos _ _ (-4) 6413125869375586 (by norm_num) (by norm_num) (by norm_num) (by
    norm_num) (by norm_num) (by norm_num) (by norm_num)

theorem factor_truck : JSNum.roundDouble (96 / 100) = JSNum.fin (1080863910568919 / 1125899906842624) :=
  roundDouble_eval_pos _ _ (-1) 8646911284551352 (by norm_num) (by norm_num) (by norm_num) (by
    norm_num) (by norm_num) (by norm_num) (by norm_num)

theorem calculateEmission_of_factor (c : Config) (t : JSObject) (d f : ℚ) (m : String)
    (ht : c.EMISSION_FACTORS = some t) (h : getProp t m = JSVal.num (JSNum.fin f)) :
    Calculator.calculateEmission (some c) (JSNum.fin d) m
      = JSNum.toFixed 2 (JSNum.roundDouble (d * f)) := by
  simp [Calculator.calculateEmission, ht, h, JSVal.toNumber, JSNum.mul]

theorem calculateEmission_of_undefined (c : Config) (t : JSObject) (d : JSNum) (m : String)
    (ht : c.EMISSION_FACTORS = some t) (h : getProp t m = JSVal.undefined) :
    Calculator.calculateEmission (some c) d m = JSNum.fin 0 := by
  simp [Calculator.calculateEmission, ht, h]

theorem getProp_bicycle : getProp EMISSION_FACTORS "bicycle" = JSVal.num (JSNum.fin 0) := by
  rfl

theorem getProp_car :
    getProp EMISSION_FACTORS "car" = JSVal.num (JSNum.fin (1080863910568919 / 9007199254740992)) := by
  rw [← factor_car]
  rfl

theorem getProp_bus :
    getProp EMISSION_FACTORS "bus" = JSVal.num (JSNum.fin (3206562934687793 / 36028797018963968)) := by
  rw [← factor_bus]
  rfl

theorem getProp_truck :
    getProp EMISSION_FACTORS "truck" = JSVal.num (JSNum.fin (1080863910568919 / 1125899906842624)) := by
  rw [← factor_truck]
  rfl

/-- Every key of the shipped factor table reads as a finite factor between 0 and 0.96. -/
theorem getProp_known (m : String) (hm : m ∈ objectKeys EMISSION_FACTORS) :
    ∃ f : ℚ, 0 ≤ f ∧ f ≤ 96 / 100 ∧
      getProp EMISSION_FACTORS m = JSVal.num (JSNum.fin f) := by
  have hkeys : objectKeys EMISSION_FACTORS = ["bicycle", "car", "bus", "truck"] := rfl
  rw [hkeys] at hm
  simp only [List.mem_cons, List.mem_singleton, List.not_mem_nil, or_false] at hm
  rcases hm with rfl | rfl | rfl | rfl
  · exact ⟨0, le_refl _, by norm_num, getProp_bicycle⟩
  · exact ⟨_, by norm_num, by norm_num, getProp_car⟩
  · exact ⟨_, by norm_num, by norm_num, getProp_bus⟩
  · exact ⟨_, by norm_num, by norm_num, getProp_truck⟩

/-- Evaluation of `calculateEmission` from the rounded product and the printed decimal. -/
theorem emission_eval (d f p r : ℚ) (m : String)
    (hf : getProp EMISSION_FACTORS m = JSVal.num (JSNum.fin f))
    (hp : JSNum.roundDouble (d * f) = JSNum.fin p) (hr : JSNum.toFixedQ 2 p = r) :
    Calculator.calculateEmission (some CONFIG) (JSNum.fin d) m = JSNum.roundDouble r := by
  rw [calculateEmission_of_factor CONFIG _ d f m rfl hf, hp]
  exact toFixed_eval 2 p r hr

theorem isRoundHalfAway_two_abs (p r : ℚ) (h : IsRoundHalfAway 2 p r) : |r - p| ≤ 1 / 200 := by
  have h2 := h.2.1
  norm_num at h2
  exact h2

/-- The emission of a known mode at a distance in the finite range: the product is rounded
to a finite binary64 value `p`, `toFixed` prints `p` to 2 decimals as `r`, and `r` is read
back as a finite binary64 value. -/
theorem emission_chain (d f : ℚ) (m : String)
    (hf : getProp EMISSION_FACTORS m = JSVal.num (JSNum.fin f)) (hf0 : 0 ≤ f)
    (hf1 : f ≤ 96 / 100) (hd : |d| < 2 ^ 1024) :
    ∃ p y : ℚ, JSNum.roundDouble (d * f) = JSNum.fin p ∧
      |p - d * f| ≤ |d * f| / 2 ^ 53 + 1 / 2 ^ 1075 ∧
      Calculator.calculateEmission (some CONFIG) (JSNum.fin d) m
        = JSNum.roundDouble (JSNum.toFixedQ 2 p) ∧
      JSNum.roundDouble (JSNum.toFixedQ 2 p) = JSNum.fin y ∧
      |y - JSNum.toFixedQ 2 p| ≤ |JSNum.toFixedQ 2 p| / 2 ^ 53 + 1 / 2 ^ 1075 := by
  have hdf : |d * f| ≤ |d| * (96 / 100) := by
    rw [abs_mul, abs_of_nonneg hf0]
    exact mul_le_mul_of_nonneg_left hf1 (abs_nonneg d)
  have hdn := abs_nonneg d
  have hx : |d * f| ≤ 2 ^ 1024 * (99 / 100) := by
    norm_num at hd ⊢
    linarith
  obtain ⟨p, hp, hperr⟩ := roundDouble_finite (d * f) hx
  have hr := isRoundHalfAway_two_abs p _ (toFixedQ_spec 2 p)
  have hpabs : |p| ≤ |d * f| + (|d * f| / 2 ^ 53 + 1 / 2 ^ 1075) := by
    have := abs_sub_abs_le_abs_sub p (d * f)
    linarith
  have hrabs : |JSNum.toFixedQ 2 p| ≤ |p| + 1 / 200 := by
    have := abs_sub_abs_le_abs_sub (JSNum.toFixedQ 2 p) p
    linarith
  have hx2 : |JSNum.toFixedQ 2 p| ≤ 2 ^ 1024 * (99 / 100) := by
    have h53 : |d * f| / 2 ^ 53 ≤ |d| * (96 / 100) / 2 ^ 53 :=
      div_le_div_of_nonneg_right hdf (by positivity)
    norm_num at hd hpabs hrabs h53 hdf ⊢
    linarith
  obtain ⟨y, hy, hyerr⟩ := roundDouble_finite _ hx2
  exact ⟨p, y, hp, hperr, emission_eval d f p _ m hf hp rfl, hy, hyerr⟩

/-! ## `calculateEmission` -/

theorem roundDouble_ne_of_lit (a b x y : ℚ) (ha : JSNum.roundDouble a = JSNum.fin x)
    (hb : JSNum.roundDouble b = JSNum.fin y) (hxy : x ≠ y) :
    JSNum.roundDouble a ≠ JSNum.roundDouble b := by
  rw [ha, hb]
  intro h
  injection h with h
  exact hxy h

/-- C1 fails as stated.  `calculateEmission(5, 'bus')` is 0.44, while 5 times 0.089 is 0.445
and rounds to 0.45: the stored factor is the binary64 value just below 0.089.  And
`calculateEmission(3.125, 'car')` is 0.38, while the exact product of 3.125 and the stored
factor lies below 0.375 and rounds to 0.37: the binary64 product is rounded up to 0.375. -/
theorem calculateEmission_known_counterexample :
    (Calculator.calculateEmission (some CONFIG) (JSNum.fin 5) "bus"
        = JSNum.roundDouble (44 / 100) ∧
      IsRoundHalfAway 2 (5 * (89 / 1000)) (45 / 100) ∧
      JSNum.roundDouble (44 / 100) ≠ JSNum.roundDouble (45 / 100)) ∧
    (Calculator.calculateEmission (some CONFIG) (JSNum.fin (25 / 8)) "car"
        = JSNum.roundDouble (38 / 100) ∧
      getProp EMISSION_FACTORS "car" = JSVal.num (JSNum.fin (1080863910568919 / 9007199254740992)) ∧
      IsRoundHalfAway 2 (25 / 8 * (1080863910568919 / 9007199254740992)) (37 / 100) ∧
      JSNum.roundDouble (38 / 100) ≠ JSNum.roundDouble (37 / 100)) := by
  refine ⟨⟨?_, ?_, ?_⟩, ⟨?_, getProp_car, ?_, ?_⟩⟩
  · exact
    emission_eval 5 _ (4008203668359741 / 9007199254740992) _ "bus" getProp_bus
      (roundDouble_eval_pos_tie _ _ (-2) 8016407336719482 (by norm_num) (by norm_num) (by
      norm_num) (by norm_num) (by norm_num) (by norm_num) (by norm_num) (by norm_num)) (by
      norm_num [JSNum.toFixedQ])
  · exact (isRoundHalfAway_iff 2 _ _).mpr (by norm_num [JSNum.toFixedQ])
  · exact roundDouble_ne_of_lit _ _ (7926335344172073 / 18014398509481984) (8106479329266893 / 18014398509481984)
      (roundDouble_eval_pos _ _ (-2) 7926335344172073 (by norm_num) (by norm_num) (by norm_num)
        (by norm_num) (by norm_num) (by norm_num) (by norm_num))
      (roundDouble_eval_pos _ _ (-2) 8106479329266893 (by norm_num) (by norm_num) (by norm_num)
        (by norm_num) (by norm_num) (by norm_num) (by norm_num))
      (by norm_num)
  · exact
    emission_eval (25 / 8) _ (3 / 8) _ "car" getProp_car (roundDouble_eval_pos _ _ (-2)
      6755399441055744 (by norm_num) (by norm_num) (by norm_num) (by norm_num) (by norm_num) (by
      norm_num) (by norm_num)) (by norm_num [JSNum.toFixedQ])
  · exact (isRoundHalfAway_iff 2 _ _).mpr (by norm_num [JSNum.toFixedQ])
  · exact roundDouble_ne_of_lit _ _ (3422735716801577 / 9007199254740992) (3332663724254167 / 9007199254740992)
      (roundDouble_eval_pos _ _ (-2) 6845471433603154 (by norm_num) (by norm_num) (by norm_num)
        (by norm_num) (by norm_num) (by norm_num) (by norm_num))
      (roundDouble_eval_pos _ _ (-2) 6665327448508334 (by norm_num) (by norm_num) (by norm_num)
        (by norm_num) (by norm_num) (by norm_num) (by norm_num))
      (by norm_num)

/-- C1, amended: for every distance `d > 0` in the finite range and every key `m` of the
factor table, `calculateEmission(d, m)` is `Number(p.toFixed(2))`, where `p` is the binary64
product of `d` and the stored factor: `p` lies within one rounding error of the exact
product, `toFixed` rounds `p` to 2 decimals half away from zero, and that decimal is read
back as a finite binary64 value. -/
theorem calculateEmission_binary64 (d : ℚ) (hd : 0 < d) (hmax : d < 2 ^ 1024) (m : String)
    (hm : m ∈ objectKeys EMISSION_FACTORS) :
    ∃ f p r y : ℚ, getProp EMISSION_FACTORS m = JSVal.num (JSNum.fin f) ∧
      JSNum.mul (JSNum.fin d) (JSNum.fin f) = JSNum.fin p ∧
      |p - d * f| ≤ |d * f| / 2 ^ 53 + 1 / 2 ^ 1075 ∧
      IsRoundHalfAway 2 p r ∧
      Calculator.calculateEmission (some CONFIG) (JSNum.fin d) m = JSNum.roundDouble r ∧
      JSNum.roundDouble r = JSNum.fin y ∧ |y - r| ≤ |r| / 2 ^ 53 + 1 / 2 ^ 1075 := by
  obtain ⟨f, hf0, hf1, hf⟩ := getProp_known m hm
  obtain ⟨p, y, hp, hperr, hres, hy, hyerr⟩ :=
    emission_chain d f m hf hf0 hf1 (by rwa [abs_of_pos hd])
  exact ⟨f, p, _, y, hf, hp, hperr, toFixedQ_spec 2 p, hres, hy, hyerr⟩

/-- C1, amended, at `d = 430`, `m = 'bus'`: the emission is 38.27. -/
theorem calculateEmission_binary64_witness :
    (0 : ℚ) < 430 ∧ (430 : ℚ) < 2 ^ 1024 ∧
    objectKeys EMISSION_FACTORS = ["bicycle", "car", "bus", "truck"] ∧
    Calculator.calculateEmission (some CONFIG) (JSNum.fin 430) "bus"
      = JSNum.roundDouble (3827 / 100) ∧
    ∃ f p r y : ℚ, getProp EMISSION_FACTORS "bus" = JSVal.num (JSNum.fin f) ∧
      JSNum.mul (JSNum.fin 430) (JSNum.fin f) = JSNum.fin p ∧
      |p - 430 * f| ≤ |430 * f| / 2 ^ 53 + 1 / 2 ^ 1075 ∧
      IsRoundHalfAway 2 p r ∧
      Calculator.calculateEmission (some CONFIG) (JSNum.fin 430) "bus"
        = JSNum.roundDouble r ∧
      JSNum.roundDouble r = JSNum.fin y ∧ |y - r| ≤ |r| / 2 ^ 53 + 1 / 2 ^ 1075 := by
  refine ⟨by norm_num, by norm_num, rfl, ?_,
    calculateEmission_binary64 430 (by norm_num) (by norm_num) "bus" (by decide)⟩
  exact
    emission_eval 430 _ (2693011839679201 / 70368744177664) _ "bus" getProp_bus
      (roundDouble_eval_pos _ _ 5 5386023679358402 (by norm_num) (by norm_num) (by norm_num) (by
      norm_num) (by norm_num) (by norm_num) (by norm_num)) (by norm_num [JSNum.toFixedQ])

/-- C2: `'toString'` is not a key of the factor table, yet `calculateEmission(100,
'toString')` is `NaN` and not 0: the read `EMISSION_FACTORS['toString']` finds the function
inherited from `Object.prototype`, which is neither `undefined` nor `null`. -/
theorem calculateEmission_inherited_name :
    "toString" ∉ objectKeys EMISSION_FACTORS ∧
    Calculator.calculateEmission (some CONFIG) (JSNum.fin 100) "toString" = JSNum.nan ∧
    Calculator.calculateEmission (some CONFIG) (JSNum.fin 100) "plane" = JSNum.fin 0 := by
  refine ⟨by decide, ?_, ?_⟩
  · have h : getProp EMISSION_FACTORS "toString" = JSVal.object := by rfl
    simp [Calculator.calculateEmission, CONFIG, h, JSVal.toNumber, JSNum.mul, JSNum.toFixed]
  · have h : getProp EMISSION_FACTORS "plane" = JSVal.undefined := by rfl
    exact calculateEmission_of_undefined CONFIG _ _ "plane" rfl h

/-- C3 fails as stated: `calculateEmission(-10, 'car')` is -1.2, not 0. -/
theorem calculateEmission_nonpos_counterexample :
    (-10 : ℚ) ≤ 0 ∧
    Calculator.calculateEmission (some CONFIG) (JSNum.fin (-10)) "car"
      = JSNum.roundDouble (-(12 / 10)) ∧
    Calculator.calculateEmission (some CONFIG) (JSNum.fin (-10)) "car" ≠ JSNum.fin 0 := by
  have h : Calculator.calculateEmission (some CONFIG) (JSNum.fin (-10)) "car"
      = JSNum.roundDouble (-(12 / 10)) :=
    emission_eval (-10) _ (-(5404319552844595 / 4503599627370496)) _ "car" getProp_car
      (roundDouble_eval_neg_of _ _ 0 5404319552844595 (by norm_num) (by norm_num) (by norm_num)
      (by norm_num) (by norm_num) (by norm_num) (by norm_num)) (by norm_num [JSNum.toFixedQ])
  refine ⟨by norm_num, h, ?_⟩
  rw [h, show JSNum.roundDouble (-(12 / 10)) = JSNum.fin (-(5404319552844595 / 4503599627370496)) from roundDouble_eval_neg_of _ _ 0 5404319552844595 (by norm_num) (by norm_num) (by norm_num) (by norm_num) (by norm_num) (by norm_num) (by norm_num)]
  intro hc
  injection hc with hc
  norm_num at hc

/-- C3, amended: for every distance `d ≤ 0` in the finite range, `calculateEmission(d, m)` is
0 when `m` names no property of the factor table; for a key `m` of the table it is
`Number(p.toFixed(2))` with `p` the binary64 product of `d` and the stored factor, which is
never positive, and it is 0 when `d = 0` or the factor is 0. -/
theorem calculateEmission_nonpos (d : ℚ) (hd : d ≤ 0) (hmin : -2 ^ 1024 < d) (m : String) :
    (getProp EMISSION_FACTORS m = JSVal.undefined →
      Calculator.calculateEmission (some CONFIG) (JSNum.fin d) m = JSNum.fin 0) ∧
    (m ∈ objectKeys EMISSION_FACTORS →
      ∃ f p r y : ℚ, getProp EMISSION_FACTORS m = JSVal.num (JSNum.fin f) ∧
        JSNum.mul (JSNum.fin d) (JSNum.fin f) = JSNum.fin p ∧
        |p - d * f| ≤ |d * f| / 2 ^ 53 + 1 / 2 ^ 1075 ∧
        IsRoundHalfAway 2 p r ∧
        Calculator.calculateEmission (some CONFIG) (JSNum.fin d) m = JSNum.fin y ∧
        JSNum.roundDouble r = JSNum.fin y ∧ p ≤ 0 ∧ r ≤ 0 ∧ y ≤ 0 ∧
        (d = 0 ∨ f = 0 → y = 0)) := by
  refine ⟨fun h => calculateEmission_of_undefined CONFIG _ _ m rfl h, fun hm => ?_⟩
  obtain ⟨f, hf0, hf1, hf⟩ := getProp_known m hm
  have habs : |d| < 2 ^ 1024 := by
    rw [abs_of_nonpos hd]
    linarith
  obtain ⟨p, y, hp, hperr, hres, hy, _⟩ := emission_chain d f m hf hf0 hf1 habs
  have hp0 : p ≤ 0 := roundDouble_nonpos _ p (mul_nonpos_of_nonpos_of_nonneg hd hf0) hp
  have hr0 : JSNum.toFixedQ 2 p ≤ 0 := toFixedQ_nonpos 2 p hp0
  have hy0 : y ≤ 0 := roundDouble_nonpos _ y hr0 hy
  refine ⟨f, p, _, y, hf, hp, hperr, toFixedQ_spec 2 p, hres.trans hy, hy, hp0, hr0, hy0, ?_⟩
  intro h
  have hz : d * f = 0 := by
    rcases h with h | h <;> simp [h]
  rw [hz, roundDouble_zero] at hp
  have hp2 : (0 : ℚ) = p := JSNum.fin.inj hp
  rw [← hp2, toFixedQ_zero, roundDouble_zero] at hy
  exact (JSNum.fin.inj hy).symm

/-- C3, amended, at `d = -10`: `'plane'` gives 0 and `'car'` gives a non-positive value. -/
theorem calculateEmission_nonpos_witness :
    (-10 : ℚ) ≤ 0 ∧ -2 ^ 1024 < (-10 : ℚ) ∧
    Calculator.calculateEmission (some CONFIG) (JSNum.fin (-10)) "plane" = JSNum.fin 0 ∧
    ∃ f p r y : ℚ, getProp EMISSION_FACTORS "car" = JSVal.num (JSNum.fin f) ∧
      JSNum.mul (JSNum.fin (-10)) (JSNum.fin f) = JSNum.fin p ∧
      |p - -10 * f| ≤ |-10 * f| / 2 ^ 53 + 1 / 2 ^ 1075 ∧
      IsRoundHalfAway 2 p r ∧
      Calculator.calculateEmission (some CONFIG) (JSNum.fin (-10)) "car" = JSNum.fin y ∧
      JSNum.roundDouble r = JSNum.fin y ∧ p ≤ 0 ∧ r ≤ 0 ∧ y ≤ 0 ∧
      ((-10 : ℚ) = 0 ∨ f = 0 → y = 0) :=
  ⟨by norm_num, by norm_num,
   (calculateEmission_nonpos (-10) (by norm_num) (by norm_num) "plane").1 (by rfl),
   (calculateEmission_nonpos (-10) (by norm_num) (by norm_num) "car").2 (by decide)⟩

/-! ## `Array.prototype.sort` -/

theorem arraySort_perm {α : Type} (cmp : α → α → JSNum) (l : List α) :
    (Calculator.arraySort cmp l).Perm l :=
  List.perm_insertionSort _ l

/-- Stability: a sublist whose entries are pairwise in order stays a sublist. -/
theorem arraySort_stable {α : Type} (cmp : α → α → JSNum) (l c : List α)
    (hr : c.Pairwise (fun a b => (cmp a b).gt (JSNum.fin 0) = false)) (hc : c.Sublist l) :
    c.Sublist (Calculator.arraySort cmp l) :=
  List.sublist_insertionSort hr hc

theorem byEmission_same (a b : Calculator.ModeResult) (h : a.emission = b.emission) :
    (Calculator.byEmission a b).gt (JSNum.fin 0) = false := by
  unfold Calculator.byEmission
  rw [h]
  cases b.emission <;> simp [JSNum.sub, JSNum.gt, roundDouble_zero]

/-- Entries of equal emission are left in the order they had before the sort. -/
theorem arraySort_filter_emission (l : List Calculator.ModeResult) (e : JSNum) :
    (Calculator.arraySort Calculator.byEmission l).filter (fun r => decide (r.emission = e))
      = l.filter (fun r => decide (r.emission = e)) := by
  have hpw : (l.filter (fun r => decide (r.emission = e))).Pairwise
      (fun a b => (Calculator.byEmission a b).gt (JSNum.fin 0) = false) := by
    have htriv : (l.filter (fun r => decide (r.emission = e))).Pairwise (fun _ _ => True) :=
      List.pairwise_of_forall (fun _ _ => trivial)
    refine List.Pairwise.imp_of_mem ?_ htriv
    intro a b ha hb _
    have ha2 := (List.mem_filter.mp ha).2
    have hb2 := (List.mem_filter.mp hb).2
    simp only [decide_eq_true_eq] at ha2 hb2
    exact byEmission_same a b (ha2.trans hb2.symm)
  have hsub := arraySort_stable Calculator.byEmission l _ hpw (List.filter_sublist l)
  have hsub2 := hsub.filter (fun r => decide (r.emission = e))
  rw [List.filter_filter] at hsub2
  simp only [Bool.and_self] at hsub2
  have hlen := ((arraySort_perm Calculator.byEmission l).filter
    (fun r => decide (r.emission = e))).length_eq
  exact (hsub2.eq_of_length hlen.symm).symm

/-- The difference of two binary64 values has the sign of their order: it never rounds
to zero unless they are equal. -/
theorem sub_gt_zero_fin (x y : ℚ) (hx : (JSNum.fin x).OnGrid) (hy : (JSNum.fin y).OnGrid) :
    ((JSNum.sub (JSNum.fin x) (JSNum.fin y)).gt (JSNum.fin 0) = false) ↔ x ≤ y := by
  show ((JSNum.roundDouble (x - y)).gt (JSNum.fin 0) = false) ↔ x ≤ y
  constructor
  · intro h
    by_contra hlt
    have hlt : y < x := not_le.mp hlt
    obtain ⟨k, hk⟩ := hx
    obtain ⟨j, hj⟩ := hy
    have hp : (0 : ℚ) < 2 ^ 1074 := pow_pos (by norm_num) 1074
    have hkj : j < k := by
      have : (j : ℚ) / 2 ^ 1074 < (k : ℚ) / 2 ^ 1074 := by rw [← hk, ← hj]; exact hlt
      have := (div_lt_div_iff_of_pos_right hp).mp this
      exact_mod_cast this
    have hge : (1 : ℚ) / 2 ^ 1074 ≤ x - y := by
      rw [hk, hj, ← sub_div]
      apply div_le_div_of_nonneg_right _ hp.le
      have : (j : ℚ) + 1 ≤ k := by exact_mod_cast hkj
      linarith
    rw [roundDouble_gt_zero_of_ge _ hge] at h
    exact absurd h (by simp)
  · intro h
    exact roundDouble_gt_zero_of_nonpos _ (by linarith)

theorem byEmission_onGrid (a b : Calculator.ModeResult) (ha : a.emission.OnGrid)
    (hb : b.emission.OnGrid) :
    ((Calculator.byEmission a b).gt (JSNum.fin 0) = false)
      ↔ JSNum.le a.emission b.emission = true := by
  unfold Calculator.byEmission
  cases hae : a.emission with
  | fin x =>
    cases hbe : b.emission with
    | fin y =>
      rw [hae] at ha
      rw [hbe] at hb
      rw [sub_gt_zero_fin x y ha hb]
      simp [JSNum.le]
    | pinf => simp [JSNum.sub, JSNum.gt, JSNum.le]
    | ninf => simp [JSNum.sub, JSNum.gt, JSNum.le]
    | nan => rw [hbe] at hb; exact absurd hb (by simp [JSNum.OnGrid])
  | pinf =>
    cases hbe : b.emission with
    | fin y => simp [JSNum.sub, JSNum.gt, JSNum.le]
    | pinf => simp [JSNum.sub, JSNum.gt, JSNum.le]
    | ninf => simp [JSNum.sub, JSNum.gt, JSNum.le]
    | nan => rw [hbe] at hb; exact absurd hb (by simp [JSNum.OnGrid])
  | ninf =>
    cases hbe : b.emission with
    | fin y => simp [JSNum.sub, JSNum.gt, JSNum.le]
    | pinf => simp [JSNum.sub, JSNum.gt, JSNum.le]
    | ninf => simp [JSNum.sub, JSNum.gt, JSNum.le]
    | nan => rw [hbe] at hb; exact absurd hb (by simp [JSNum.OnGrid])
  | nan => rw [hae] at ha; exact absurd ha (by simp [JSNum.OnGrid])

theorem le_or_nan_total (x y : JSNum) :
    (x = JSNum.nan ∨ JSNum.le x y = true) ∨ (y = JSNum.nan ∨ JSNum.le y x = true) := by
  cases x <;> cases y <;> simp [JSNum.le, le_total]

theorem le_or_nan_trans (x y z : JSNum) (h1 : x = JSNum.nan ∨ JSNum.le x y = true)
    (h2 : y = JSNum.nan ∨ JSNum.le y z = true) : x = JSNum.nan ∨ JSNum.le x z = true := by
  cases x <;> cases y <;> cases z <;> simp_all [JSNum.le]
  exact le_trans h1 h2

/-- On entries whose emissions are binary64 values the sort leaves the list in non-decreasing
order. -/
theorem arraySort_sorted (l : List Calculator.ModeResult)
    (hgrid : ∀ a ∈ l, a.emission.OnGrid) :
    (Calculator.arraySort Calculator.byEmission l).Sorted
      (fun a b => JSNum.le a.emission b.emission = true) := by
  let s : Calculator.ModeResult → Calculator.ModeResult → Prop :=
    fun a b => a.emission = JSNum.nan ∨ JSNum.le a.emission b.emission = true
  haveI : IsTotal Calculator.ModeResult s := ⟨fun a b => le_or_nan_total _ _⟩
  haveI : IsTrans Calculator.ModeResult s := ⟨fun a b c hab hbc => le_or_nan_trans _ _ _ hab hbc⟩
  have hnan : ∀ a ∈ l, a.emission ≠ JSNum.nan := by
    intro a ha h
    have := hgrid a ha
    rw [h] at this
    exact this
  have heq : Calculator.arraySort Calculator.byEmission l = l.insertionSort s := by
    have h := List.map_insertionSort
      (fun a b => (Calculator.byEmission a b).gt (JSNum.fin 0) = false) s id l ?_
    · simpa using h
    · intro a ha b hb
      show ((Calculator.byEmission a b).gt (JSNum.fin 0) = false) ↔ s a b
      rw [byEmission_onGrid a b (hgrid a ha) (hgrid b hb)]
      simp [s, hnan a ha]
  rw [heq]
  have hs : (l.insertionSort s).Sorted s := List.sorted_insertionSort s l
  refine List.Pairwise.imp_of_mem ?_ hs
  intro a b ha hb hab
  have ha2 := hnan a ((List.mem_insertionSort s).mp ha)
  rcases hab with h | h
  · exact absurd h ha2
  · exact h

/-! ## `calculateAllModes` -/

/-- With the shipped configuration the car baseline exists, and the result is the sorted list
of the entries built for the four keys in declaration order. -/
theorem calculateAllModes_shipped (x : JSNum) :
    Calculator.calculateAllModes (some CONFIG) x
      = Calculator.arraySort Calculator.byEmission
          ((objectKeys EMISSION_FACTORS).map (Calculator.modeEntry (some CONFIG) x
            (some (Calculator.calculateEmission (some CONFIG) x "car")))) := by
  have hcar : "car" ∈ objectKeys EMISSION_FACTORS := by decide
  simp only [Calculator.calculateAllModes, CONFIG, if_pos hcar]

theorem mem_calculateAllModes_shipped (x : JSNum) (r : Calculator.ModeResult) :
    r ∈ Calculator.calculateAllModes (some CONFIG) x ↔
      ∃ m ∈ objectKeys EMISSION_FACTORS, Calculator.modeEntry (some CONFIG) x
        (some (Calculator.calculateEmission (some CONFIG) x "car")) m = r := by
  rw [calculateAllModes_shipped, (arraySort_perm _ _).mem_iff, List.mem_map]

theorem calculateEmission_onGrid (d : ℚ) (m : String) (hm : m ∈ objectKeys EMISSION_FACTORS) :
    (Calculator.calculateEmission (some CONFIG) (JSNum.fin d) m).OnGrid := by
  obtain ⟨f, _, _, hf⟩ := getProp_known m hm
  rw [calculateEmission_of_factor CONFIG _ d f m rfl hf]
  exact toFixed_onGrid 2 _ (roundDouble_ne_nan _)

theorem emission_eval_fin (d f p r y : ℚ) (m : String)
    (hf : getProp EMISSION_FACTORS m = JSVal.num (JSNum.fin f))
    (hp : JSNum.roundDouble (d * f) = JSNum.fin p) (hr : JSNum.toFixedQ 2 p = r)
    (hy : JSNum.roundDouble r = JSNum.fin y) :
    Calculator.calculateEmission (some CONFIG) (JSNum.fin d) m = JSNum.fin y :=
  (emission_eval d f p r m hf hp hr).trans hy

/-- Evaluation of one entry of `calculateAllModes` when the car baseline is not zero. -/
theorem modeEntry_eval (d : ℚ) (m : String) (e c q p r y : ℚ)
    (he : Calculator.calculateEmission (some CONFIG) (JSNum.fin d) m = JSNum.fin e)
    (hc0 : c ≠ 0) (hq : JSNum.roundDouble (e / c) = JSNum.fin q)
    (hp : JSNum.roundDouble (q * 100) = JSNum.fin p) (hr : JSNum.toFixedQ 2 p = r)
    (hy : JSNum.roundDouble r = JSNum.fin y) :
    Calculator.modeEntry (some CONFIG) (JSNum.fin d) (some (JSNum.fin c)) m
      = { mode := m, emission := JSNum.fin e, percentageVsCar := some (JSNum.fin y) } := by
  have hdiv : JSNum.div (JSNum.fin e) (JSNum.fin c) = JSNum.fin q := by
    simp only [JSNum.div, if_neg hc0]
    exact hq
  have hmul : JSNum.mul (JSNum.fin q) (JSNum.fin 100) = JSNum.fin p := hp
  have hfix : JSNum.toFixed 2 (JSNum.fin p) = JSNum.fin y := (toFixed_eval 2 p r hr).trans hy
  have hne : JSNum.fin c ≠ JSNum.fin 0 := fun h => hc0 (JSNum.fin.inj h)
  simp only [Calculator.modeEntry, he, if_pos hne, hdiv, hmul, hfix]

theorem modeEntry_zero_baseline (x : JSNum) (m : String) :
    Calculator.modeEntry (some CONFIG) x (some (JSNum.fin 0)) m
      = { mode := m, emission := Calculator.calculateEmission (some CONFIG) x m,
          percentageVsCar := none } := by
  simp [Calculator.modeEntry]

theorem orderedInsert_pos {α : Type} (r : α → α → Prop) [DecidableRel r] (a b : α)
    (l : List α) (h : r a b) : List.orderedInsert r a (b :: l) = a :: b :: l := by
  simp [List.orderedInsert, h]

theorem orderedInsert_neg {α : Type} (r : α → α → Prop) [DecidableRel r] (a b : α)
    (l : List α) (h : ¬ r a b) :
    List.orderedInsert r a (b :: l) = b :: List.orderedInsert r a l := by
  simp [List.orderedInsert, h]

theorem byEmission_fin_le (a b : Calculator.ModeResult) (x y : ℚ)
    (ha : a.emission = JSNum.fin x) (hb : b.emission = JSNum.fin y) (h : x ≤ y) :
    (Calculator.byEmission a b).gt (JSNum.fin 0) = false := by
  unfold Calculator.byEmission
  rw [ha, hb]
  exact roundDouble_gt_zero_of_nonpos _ (by linarith)

theorem byEmission_fin_gt (a b : Calculator.ModeResult) (x y : ℚ)
    (ha : a.emission = JSNum.fin x) (hb : b.emission = JSNum.fin y)
    (h : y + 1 / 2 ^ 1074 ≤ x) :
    ¬ (Calculator.byEmission a b).gt (JSNum.fin 0) = false := by
  unfold Calculator.byEmission
  rw [ha, hb]
  have := roundDouble_gt_zero_of_ge (x - y) (by linarith)
  show ¬ (JSNum.roundDouble (x - y)).gt (JSNum.fin 0) = false
  rw [this]
  simp

/-- The sort of four entries `b, c, u, t` whose emissions are ordered `b ≤ u < c ≤ t`. -/
theorem arraySort_four (b c u t : Calculator.ModeResult) (xb xc xu xt : ℚ)
    (hb : b.emission = JSNum.fin xb) (hc : c.emission = JSNum.fin xc)
    (hu : u.emission = JSNum.fin xu) (ht : t.emission = JSNum.fin xt)
    (h1 : xb ≤ xu) (h2 : xu + 1 / 2 ^ 1074 ≤ xc) (h3 : xc ≤ xt) (h4 : xu ≤ xt) :
    Calculator.arraySort Calculator.byEmission [b, c, u, t] = [b, u, c, t] := by
  show List.orderedInsert _ b (List.orderedInsert _ c (List.orderedInsert _ u [t])) = _
  rw [orderedInsert_pos _ u t [] (byEmission_fin_le u t xu xt hu ht h4),
    orderedInsert_neg _ c u [t] (byEmission_fin_gt c u xc xu hc hu h2),
    orderedInsert_pos _ c t [] (byEmission_fin_le c t xc xt hc ht h3),
    orderedInsert_pos _ b u [c, t] (byEmission_fin_le b u xb xu hb hu h1)]

theorem arraySort_of_same_emission (l : List Calculator.ModeResult)
    (h : ∀ a ∈ l, ∀ b ∈ l, a.emission = b.emission) :
    Calculator.arraySort Calculator.byEmission l = l := by
  apply List.Sorted.insertionSort_eq
  have htriv : l.Pairwise (fun _ _ => True) := List.pairwise_of_forall (fun _ _ => trivial)
  refine List.Pairwise.imp_of_mem ?_ htriv
  intro a b ha hb _
  exact byEmission_same a b (h a ha b hb)

theorem calculateEmission_car_430 :
    Calculator.calculateEmission (some CONFIG) (JSNum.fin 430) "car"
      = JSNum.fin (7262054399134925 / 140737488355328) :=
    emission_eval_fin 430 _ (7262054399134925 / 140737488355328) (258 / 5) (7262054399134925 /
      140737488355328) "car" getProp_car (roundDouble_eval_pos _ _ 5 7262054399134925 (by
      norm_num) (by norm_num) (by norm_num) (by norm_num) (by norm_num) (by norm_num) (by
      norm_num)) (by norm_num [JSNum.toFixedQ]) (roundDouble_eval_pos _ _ 5 7262054399134925 (by
      norm_num) (by norm_num) (by norm_num) (by norm_num) (by norm_num) (by norm_num) (by
      norm_num))

theorem calculateAllModes_at_430 :
    Calculator.calculateAllModes (some CONFIG) (JSNum.fin 430)
      = [{ mode := "bicycle", emission := JSNum.fin 0, percentageVsCar := some (JSNum.fin 0) },
         { mode := "bus", emission := JSNum.fin (5386023679358403 / 140737488355328), percentageVsCar := some (JSNum.fin (5219249755657339 / 70368744177664)) },
         { mode := "car", emission := JSNum.fin (7262054399134925 / 140737488355328), percentageVsCar := some (JSNum.fin 100) },
         { mode := "truck", emission := JSNum.fin (7262054399134925 / 17592186044416), percentageVsCar := some (JSNum.fin 800) }] := by
  rw [calculateAllModes_shipped, calculateEmission_car_430]
  have hk : objectKeys EMISSION_FACTORS = ["bicycle", "car", "bus", "truck"] := rfl
  rw [hk]
  simp only [List.map]
  rw [show Calculator.modeEntry (some CONFIG) (JSNum.fin 430)
        (some (JSNum.fin (7262054399134925 / 140737488355328))) "bicycle" = _ from
    modeEntry_eval 430 "bicycle" 0 (7262054399134925 / 140737488355328) 0 0 0 0
      (
      emission_eval_fin 430 _ 0 0 0 "bicycle" getProp_bicycle (roundDouble_eq_zero _ (by
        norm_num)) (by norm_num [JSNum.toFixedQ]) (roundDouble_eq_zero _ (by norm_num)))
      (by norm_num) (roundDouble_eq_zero _ (by norm_num)) (roundDouble_eq_zero _ (by norm_num))
        (by norm_num [JSNum.toFixedQ]) (roundDouble_eq_zero _ (by norm_num)),
    show Calculator.modeEntry (some CONFIG) (JSNum.fin 430)
        (some (JSNum.fin (7262054399134925 / 140737488355328))) "car" = _ from
    modeEntry_eval 430 "car" (7262054399134925 / 140737488355328) (7262054399134925 / 140737488355328) 1 100 100 100
      (
      emission_eval_fin 430 _ (7262054399134925 / 140737488355328) (258 / 5) (7262054399134925 /
        140737488355328) "car" getProp_car (roundDouble_eval_pos _ _ 5 7262054399134925 (by
        norm_num) (by norm_num) (by norm_num) (by norm_num) (by norm_num) (by norm_num) (by
        norm_num)) (by norm_num [JSNum.toFixedQ]) (roundDouble_eval_pos _ _ 5 7262054399134925
        (by norm_num) (by norm_num) (by norm_num) (by norm_num) (by norm_num) (by norm_num) (by
        norm_num)))
      (by norm_num) (roundDouble_eval_pos _ _ 0 4503599627370496 (by norm_num) (by norm_num) (by
        norm_num) (by norm_num) (by norm_num) (by norm_num) (by norm_num)) (roundDouble_eval_pos
        _ _ 6 7036874417766400 (by norm_num) (by norm_num) (by norm_num) (by norm_num) (by
        norm_num) (by norm_num) (by norm_num)) (by norm_num [JSNum.toFixedQ])
        (roundDouble_eval_pos _ _ 6 7036874417766400 (by norm_num) (by norm_num) (by norm_num)
        (by norm_num) (by norm_num) (by norm_num) (by norm_num)),
    show Calculator.modeEntry (some CONFIG) (JSNum.fin 430)
        (some (JSNum.fin (7262054399134925 / 140737488355328))) "bus" = _ from
    modeEntry_eval 430 "bus" (5386023679358403 / 140737488355328) (7262054399134925 / 140737488355328) (1670084861816559 / 2251799813685248) (5219015193176747 / 70368744177664) (7417 / 100) (5219249755657339 / 70368744177664)
      (
      emission_eval_fin 430 _ (2693011839679201 / 70368744177664) (3827 / 100) (5386023679358403
        / 140737488355328) "bus" getProp_bus (roundDouble_eval_pos _ _ 5 5386023679358402 (by
        norm_num) (by norm_num) (by norm_num) (by norm_num) (by norm_num) (by norm_num) (by
        norm_num)) (by norm_num [JSNum.toFixedQ]) (roundDouble_eval_pos _ _ 5 5386023679358403
        (by norm_num) (by norm_num) (by norm_num) (by norm_num) (by norm_num) (by norm_num) (by
        norm_num)))
      (by norm_num) (roundDouble_eval_pos _ _ (-1) 6680339447266236 (by norm_num) (by norm_num)
        (by norm_num) (by norm_num) (by norm_num) (by norm_num) (by norm_num))
        (roundDouble_eval_pos _ _ 6 5219015193176747 (by norm_num) (by norm_num) (by norm_num)
        (by norm_num) (by norm_num) (by norm_num) (by norm_num)) (by norm_num [JSNum.toFixedQ])
        (roundDouble_eval_pos _ _ 6 5219249755657339 (by norm_num) (by norm_num) (by norm_num)
        (by norm_num) (by norm_num) (by norm_num) (by norm_num)),
    show Calculator.modeEntry (some CONFIG) (JSNum.fin 430)
        (some (JSNum.fin (7262054399134925 / 140737488355328))) "truck" = _ from
    modeEntry_eval 430 "truck" (7262054399134925 / 17592186044416) (7262054399134925 / 140737488355328) 8 800 800 800
      (
      emission_eval_fin 430 _ (7262054399134925 / 17592186044416) (2064 / 5) (7262054399134925 /
        17592186044416) "truck" getProp_truck (roundDouble_eval_pos _ _ 8 7262054399134925 (by
        norm_num) (by norm_num) (by norm_num) (by norm_num) (by norm_num) (by norm_num) (by
        norm_num)) (by norm_num [JSNum.toFixedQ]) (roundDouble_eval_pos _ _ 8 7262054399134925
        (by norm_num) (by norm_num) (by norm_num) (by norm_num) (by norm_num) (by norm_num) (by
        norm_num)))
      (by norm_num) (roundDouble_eval_pos _ _ 3 4503599627370496 (by norm_num) (by norm_num) (by
        norm_num) (by norm_num) (by norm_num) (by norm_num) (by norm_num)) (roundDouble_eval_pos
        _ _ 9 7036874417766400 (by norm_num) (by norm_num) (by norm_num) (by norm_num) (by
        norm_num) (by norm_num) (by norm_num)) (by norm_num [JSNum.toFixedQ])
        (roundDouble_eval_pos _ _ 9 7036874417766400 (by norm_num) (by norm_num) (by norm_num)
        (by norm_num) (by norm_num) (by norm_num) (by norm_num))]
  exact arraySort_four _ _ _ _ _ _ _ _ rfl rfl rfl rfl (by norm_num) (by norm_num)
    (by norm_num) (by norm_num)

theorem calculateEmission_zero (m : String) (hm : m ∈ objectKeys EMISSION_FACTORS) :
    Calculator.calculateEmission (some CONFIG) (JSNum.fin 0) m = JSNum.fin 0 := by
  obtain ⟨f, _, _, hf⟩ := getProp_known m hm
  exact emission_eval_fin 0 f 0 0 0 m hf (roundDouble_eq_zero _ (by norm_num))
    (toFixedQ_zero 2) roundDouble_zero

theorem calculateAllModes_at_0 :
    Calculator.calculateAllModes (some CONFIG) (JSNum.fin 0)
      = [{ mode := "bicycle", emission := JSNum.fin 0, percentageVsCar := none },
         { mode := "car", emission := JSNum.fin 0, percentageVsCar := none },
         { mode := "bus", emission := JSNum.fin 0, percentageVsCar := none },
         { mode := "truck", emission := JSNum.fin 0, percentageVsCar := none }] := by
  rw [calculateAllModes_shipped, calculateEmission_zero "car" (by decide)]
  have hk : objectKeys EMISSION_FACTORS = ["bicycle", "car", "bus", "truck"] := rfl
  rw [hk]
  simp only [List.map, modeEntry_zero_baseline]
  rw [calculateEmission_zero "bicycle" (by decide), calculateEmission_zero "car" (by decide),
    calculateEmission_zero "bus" (by decide), calculateEmission_zero "truck" (by decide)]
  apply arraySort_of_same_emission
  intro a ha b hb
  simp only [List.mem_cons, List.mem_singleton, List.not_mem_nil, or_false] at ha hb
  rcases ha with rfl | rfl | rfl | rfl <;> rcases hb with rfl | rfl | rfl | rfl <;> rfl

/-- C4: for every distance `d`, `calculateAllModes(d)` has exactly one entry per key of
`EMISSION_FACTORS` (bicycle, car, bus, truck); the emission of each entry is
`calculateEmission(d, entry.mode)`; the entries are in non-decreasing order of emission; and
the entries of any one emission value appear in declaration order.  At `d = 430` the order is
bicycle, bus, car, truck, and at `d = 0` it is bicycle, car, bus, truck. -/
theorem calculateAllModes_sorted (d : ℚ) :
    objectKeys EMISSION_FACTORS = ["bicycle", "car", "bus", "truck"] ∧
    ((Calculator.calculateAllModes (some CONFIG) (JSNum.fin d)).map (fun r => r.mode)).Perm
      ["bicycle", "car", "bus", "truck"] ∧
    (∀ r ∈ Calculator.calculateAllModes (some CONFIG) (JSNum.fin d),
      r.emission = Calculator.calculateEmission (some CONFIG) (JSNum.fin d) r.mode) ∧
    (Calculator.calculateAllModes (some CONFIG) (JSNum.fin d)).Sorted
      (fun a b => JSNum.le a.emission b.emission = true) ∧
    (∀ e : JSNum,
      (((Calculator.calculateAllModes (some CONFIG) (JSNum.fin d)).filter
        (fun r => decide (r.emission = e))).map (fun r => r.mode)).Sublist
          ["bicycle", "car", "bus", "truck"]) ∧
    (Calculator.calculateAllModes (some CONFIG) (JSNum.fin 430)).map (fun r => r.mode)
      = ["bicycle", "bus", "car", "truck"] ∧
    (Calculator.calculateAllModes (some CONFIG) (JSNum.fin 0)).map (fun r => r.mode)
      = ["bicycle", "car", "bus", "truck"] := by
  have hkeys : objectKeys EMISSION_FACTORS = ["bicycle", "car", "bus", "truck"] := rfl
  have hmodes : ((objectKeys EMISSION_FACTORS).map (Calculator.modeEntry (some CONFIG)
      (JSNum.fin d) (some (Calculator.calculateEmission (some CONFIG) (JSNum.fin d)
        "car")))).map (fun r => r.mode) = objectKeys EMISSION_FACTORS := by
    rw [List.map_map]
    exact List.map_id _
  refine ⟨hkeys, ?_, ?_, ?_, ?_, ?_, ?_⟩
  · rw [calculateAllModes_shipped, ← hkeys]
    exact ((arraySort_perm _ _).map _).trans (List.Perm.of_eq hmodes)
  · intro r hr
    obtain ⟨m, _, rfl⟩ := (mem_calculateAllModes_shipped _ r).mp hr
    rfl
  · rw [calculateAllModes_shipped]
    apply arraySort_sorted
    intro a ha
    obtain ⟨m, hm, rfl⟩ := List.mem_map.mp ha
    exact calculateEmission_onGrid d m hm
  · intro e
    rw [calculateAllModes_shipped, arraySort_filter_emission, ← hkeys]
    have h := ((List.filter_sublist (p := fun r => decide (r.emission = e))
      ((objectKeys EMISSION_FACTORS).map (Calculator.modeEntry (some CONFIG) (JSNum.fin d)
        (some (Calculator.calculateEmission (some CONFIG) (JSNum.fin d) "car")))))).map
          (fun r => r.mode)
    rw [hmodes] at h
    exact h
  · rw [calculateAllModes_at_430]
    rfl
  · rw [calculateAllModes_at_0]
    rfl

theorem isRoundHalfAway_two_ge (p r : ℚ) (h : IsRoundHalfAway 2 p r) (hr : r ≠ 0) :
    1 / 100 ≤ |r| := by
  obtain ⟨n, hn⟩ := h.1
  have hn0 : n ≠ 0 := by
    rintro rfl
    apply hr
    rw [hn]
    simp
  have h1 : (1 : ℚ) ≤ |(n : ℚ)| := by
    have : (1 : ℤ) ≤ |n| := Int.one_le_abs hn0
    exact_mod_cast this
  rw [hn, abs_div]
  have h100 : |((10 : ℚ) ^ 2)| = 100 := by norm_num
  rw [h100]
  linarith

/-- The emission of a known mode is at most `|d| + 1` in absolute value. -/
theorem emission_abs_le (d f : ℚ) (m : String)
    (hf : getProp EMISSION_FACTORS m = JSVal.num (JSNum.fin f)) (hf0 : 0 ≤ f)
    (hf1 : f ≤ 96 / 100) (hd : |d| < 2 ^ 1024) :
    ∃ e : ℚ, Calculator.calculateEmission (some CONFIG) (JSNum.fin d) m = JSNum.fin e ∧
      |e| ≤ |d| + 1 := by
  obtain ⟨p, y, hp, hperr, hres, hy, hyerr⟩ := emission_chain d f m hf hf0 hf1 hd
  refine ⟨y, hres.trans hy, ?_⟩
  have hdf : |d * f| ≤ |d| * (96 / 100) := by
    rw [abs_mul, abs_of_nonneg hf0]
    exact mul_le_mul_of_nonneg_left hf1 (abs_nonneg d)
  have hdn := abs_nonneg d
  have hr := isRoundHalfAway_two_abs p _ (toFixedQ_spec 2 p)
  have h1 := abs_sub_abs_le_abs_sub p (d * f)
  have h2 := abs_sub_abs_le_abs_sub (JSNum.toFixedQ 2 p) p
  have h3 := abs_sub_abs_le_abs_sub y (JSNum.toFixedQ 2 p)
  have h53 : |d * f| / 2 ^ 53 ≤ |d| * (96 / 100) / 2 ^ 53 :=
    div_le_div_of_nonneg_right hdf (by positivity)
  have hrn := abs_nonneg (JSNum.toFixedQ 2 p)
  have hpn := abs_nonneg p
  norm_num at hperr hyerr h53 hdf hr ⊢
  linarith

/-- The car emission is finite; when it is not zero it is at least 0.0099 in absolute
value, and at least `0.11 |d| - 0.006`. -/
theorem car_emission_bounds (d : ℚ) (hd : |d| < 2 ^ 1024) :
    ∃ c : ℚ, Calculator.calculateEmission (some CONFIG) (JSNum.fin d) "car" = JSNum.fin c ∧
      (c ≠ 0 → 99 / 10000 ≤ |c| ∧ 11 / 100 * |d| - 6 / 1000 ≤ |c|) := by
  obtain ⟨p, y, hp, hperr, hres, hy, hyerr⟩ :=
    emission_chain d _ "car" getProp_car (by norm_num) (by norm_num) hd
  refine ⟨y, hres.trans hy, fun hy0 => ?_⟩
  have hr0 : JSNum.toFixedQ 2 p ≠ 0 := by
    intro h0
    rw [h0, roundDouble_zero] at hy
    exact hy0 (JSNum.fin.inj hy).symm
  have hr1 := isRoundHalfAway_two_ge p _ (toFixedQ_spec 2 p) hr0
  have hr := isRoundHalfAway_two_abs p _ (toFixedQ_spec 2 p)
  have hdf : |d * (1080863910568919 / 9007199254740992)| = |d| * (1080863910568919 / 9007199254740992) := by
    rw [abs_mul, abs_of_pos (by norm_num : (0 : ℚ) < 1080863910568919 / 9007199254740992)]
  rw [hdf] at hperr
  have hdn := abs_nonneg d
  have h1 := abs_sub_abs_le_abs_sub (d * (1080863910568919 / 9007199254740992)) p
  rw [hdf, abs_sub_comm] at h1
  have h2 := abs_sub_abs_le_abs_sub p (JSNum.toFixedQ 2 p)
  rw [abs_sub_comm] at h2
  have h3 := abs_sub_abs_le_abs_sub (JSNum.toFixedQ 2 p) y
  rw [abs_sub_comm] at h3
  have hrn := abs_nonneg (JSNum.toFixedQ 2 p)
  have hpn := abs_nonneg p
  norm_num at hperr hyerr hr hr1 h1 ⊢
  constructor <;> linarith

/-- C5 fails as stated: at `d = 333.34375` the bus entry has emission 29.67 and the car
emission is 40, and the entry's `percentageVsCar` is 74.17, while 29.67 / 40 * 100 rounded to
2 decimals is 74.18, both for the decimal 29.67 and for the binary64 value that stands for
it.  The binary64 quotient, multiplied by 100, lands just below 74.175. -/
theorem calculateAllModes_percentage_counterexample :
    ∃ r ∈ Calculator.calculateAllModes (some CONFIG) (JSNum.fin (10667 / 32)),
      r.mode = "bus" ∧
      r.emission = JSNum.roundDouble (2967 / 100) ∧
      Calculator.calculateEmission (some CONFIG) (JSNum.fin (10667 / 32)) "car"
        = JSNum.fin 40 ∧
      r.percentageVsCar = some (JSNum.roundDouble (7417 / 100)) ∧
      JSNum.roundDouble (2967 / 100) = JSNum.fin (2087840639751291 / 70368744177664) ∧
      IsRoundHalfAway 2 ((2087840639751291 / 70368744177664) / 40 * 100) (7418 / 100) ∧
      IsRoundHalfAway 2 (2967 / 100 / 40 * 100) (7418 / 100) ∧
      JSNum.roundDouble (7417 / 100) ≠ JSNum.roundDouble (7418 / 100) := by
  have hcar : Calculator.calculateEmission (some CONFIG) (JSNum.fin (10667 / 32)) "car"
      = JSNum.fin 40 :=
    emission_eval_fin (10667 / 32) _ (1407418864018391 / 35184372088832) 40 40 "car" getProp_car
      (roundDouble_eval_pos _ _ 5 5629675456073564 (by norm_num) (by norm_num) (by norm_num) (by
      norm_num) (by norm_num) (by norm_num) (by norm_num)) (by norm_num [JSNum.toFixedQ])
      (roundDouble_eval_pos _ _ 5 5629499534213120 (by norm_num) (by norm_num) (by norm_num) (by
      norm_num) (by norm_num) (by norm_num) (by norm_num))
  have hE : JSNum.roundDouble (2967 / 100) = JSNum.fin (2087840639751291 / 70368744177664) :=
    roundDouble_eval_pos _ _ 4 8351362559005164 (by norm_num) (by norm_num) (by norm_num) (by
      norm_num) (by norm_num) (by norm_num) (by norm_num)
  have h17 : JSNum.roundDouble (7417 / 100) = JSNum.fin (5219249755657339 / 70368744177664) :=
    roundDouble_eval_pos _ _ 6 5219249755657339 (by norm_num) (by norm_num) (by norm_num) (by
      norm_num) (by norm_num) (by norm_num) (by norm_num)
  have h18 : JSNum.roundDouble (7418 / 100) = JSNum.fin (1304988360774779 / 17592186044416) :=
    roundDouble_eval_pos _ _ 6 5219953443099116 (by norm_num) (by norm_num) (by norm_num) (by
      norm_num) (by norm_num) (by norm_num) (by norm_num)
  have hentry : Calculator.modeEntry (some CONFIG) (JSNum.fin (10667 / 32))
      (some (JSNum.fin 40)) "bus"
      = { mode := "bus", emission := JSNum.fin (2087840639751291 / 70368744177664),
          percentageVsCar := some (JSNum.fin (5219249755657339 / 70368744177664)) } :=
    modeEntry_eval (10667 / 32) "bus" (2087840639751291 / 70368744177664) 40 (6681090047204131 / 9007199254740992) (5219601599378227 / 70368744177664) (7417 / 100) (5219249755657339 / 70368744177664)
      (
      emission_eval_fin (10667 / 32) _ (8350685259842453 / 281474976710656) (2967 / 100)
        (2087840639751291 / 70368744177664) "bus" getProp_bus (roundDouble_eval_pos _ _ 4
        8350685259842453 (by norm_num) (by norm_num) (by norm_num) (by norm_num) (by norm_num)
        (by norm_num) (by norm_num)) (by norm_num [JSNum.toFixedQ]) (roundDouble_eval_pos _ _ 4
        8351362559005164 (by norm_num) (by norm_num) (by norm_num) (by norm_num) (by norm_num)
        (by norm_num) (by norm_num)))
      (by norm_num) (roundDouble_eval_pos _ _ (-1) 6681090047204131 (by norm_num) (by norm_num)
        (by norm_num) (by norm_num) (by norm_num) (by norm_num) (by norm_num))
        (roundDouble_eval_pos _ _ 6 5219601599378227 (by norm_num) (by norm_num) (by norm_num)
        (by norm_num) (by norm_num) (by norm_num) (by norm_num)) (by norm_num [JSNum.toFixedQ])
        (roundDouble_eval_pos _ _ 6 5219249755657339 (by norm_num) (by norm_num) (by norm_num)
        (by norm_num) (by norm_num) (by norm_num) (by norm_num))
  refine ⟨Calculator.modeEntry (some CONFIG) (JSNum.fin (10667 / 32))
    (some (Calculator.calculateEmission (some CONFIG) (JSNum.fin (10667 / 32)) "car")) "bus",
    (mem_calculateAllModes_shipped _ _).mpr ⟨"bus", by decide, rfl⟩, ?_⟩
  rw [hcar, hentry, hE, h17]
  refine ⟨rfl, rfl, rfl, rfl, rfl, ?_, ?_, ?_⟩
  · exact (isRoundHalfAway_iff 2 _ _).mpr (by norm_num [JSNum.toFixedQ])
  · exact (isRoundHalfAway_iff 2 _ _).mpr (by norm_num [JSNum.toFixedQ])
  · rw [h18]
    intro h
    have := JSNum.fin.inj h
    norm_num at this

/-- C5, amended: for every distance `d` in the finite range and every entry of
`calculateAllModes(d)`, `percentageVsCar` is `null` when `calculateEmission(d, 'car')` is 0;
otherwise the entry's emission is divided by the car emission and multiplied by 100 in
binary64 arithmetic, both results being finite, and `percentageVsCar` is that product
rounded to 2 decimals half away from zero and read back as a binary64 value.  The car
emission is always finite.  When the factor table has no `car` key every entry has `null`.
At `d = 430` bus has 74.17 and car has 100; at `d = 0` every entry has `null`. -/
theorem calculateAllModes_percentage (d : ℚ) (hd : |d| < 2 ^ 1024) :
    (∀ r ∈ Calculator.calculateAllModes (some CONFIG) (JSNum.fin d),
      (Calculator.calculateEmission (some CONFIG) (JSNum.fin d) "car" = JSNum.fin 0 →
        r.percentageVsCar = none) ∧
      (∀ c : ℚ, Calculator.calculateEmission (some CONFIG) (JSNum.fin d) "car" = JSNum.fin c →
        c ≠ 0 →
        ∃ e q p s : ℚ, r.emission = JSNum.fin e ∧
          JSNum.div (JSNum.fin e) (JSNum.fin c) = JSNum.fin q ∧
          |q - e / c| ≤ |e / c| / 2 ^ 53 + 1 / 2 ^ 1075 ∧
          JSNum.mul (JSNum.fin q) (JSNum.fin 100) = JSNum.fin p ∧
          |p - q * 100| ≤ |q * 100| / 2 ^ 53 + 1 / 2 ^ 1075 ∧
          IsRoundHalfAway 2 p s ∧
          r.percentageVsCar = some (JSNum.roundDouble s))) ∧
    (∃ c : ℚ, Calculator.calculateEmission (some CONFIG) (JSNum.fin d) "car" = JSNum.fin c) ∧
    (∀ (cfg : Config) (t : JSObject) (x : JSNum), cfg.EMISSION_FACTORS = some t →
      "car" ∉ objectKeys t →
      ∀ r ∈ Calculator.calculateAllModes (some cfg) x, r.percentageVsCar = none) ∧
    (Calculator.calculateAllModes (some CONFIG) (JSNum.fin 430)).map
        (fun r => (r.mode, r.percentageVsCar))
      = [("bicycle", some (JSNum.fin 0)), ("bus", some (JSNum.roundDouble (7417 / 100))),
         ("car", some (JSNum.fin 100)), ("truck", some (JSNum.fin 800))] ∧
    (Calculator.calculateAllModes (some CONFIG) (JSNum.fin 0)).map
        (fun r => (r.mode, r.percentageVsCar))
      = [("bicycle", none), ("car", none), ("bus", none), ("truck", none)] := by
  obtain ⟨c0, hc0eq, hc0bounds⟩ := car_emission_bounds d hd
  refine ⟨?_, ⟨c0, hc0eq⟩, ?_, ?_, ?_⟩
  · intro r hr
    obtain ⟨m, hm, rfl⟩ := (mem_calculateAllModes_shipped _ r).mp hr
    obtain ⟨f, hf0, hf1, hf⟩ := getProp_known m hm
    constructor
    · intro h0
      simp [Calculator.modeEntry, h0]
    · intro c hc hcne
      have hcc : c0 = c := JSNum.fin.inj (hc0eq.symm.trans hc)
      subst hcc
      obtain ⟨hcl, hcd⟩ := hc0bounds hcne
      obtain ⟨e, he, hebound⟩ := emission_abs_le d f m hf hf0 hf1 hd
      have hcpos : 0 < |c0| := abs_pos.mpr hcne
      have hdn := abs_nonneg d
      have hquot : |e / c0| ≤ 3000 := by
        rw [abs_div, div_le_iff₀ hcpos]
        rcases le_total |d| 20 with h20 | h20 <;> linarith
      obtain ⟨q, hq, hqerr⟩ := roundDouble_finite (e / c0) (by
        have : (3000 : ℚ) ≤ 2 ^ 1024 * (99 / 100) := by norm_num
        linarith)
      have hqabs : |q| ≤ 3001 := by
        have h1 := abs_sub_abs_le_abs_sub q (e / c0)
        have hq0 := abs_nonneg (e / c0)
        norm_num at hqerr ⊢
        linarith
      have hq100 : |q * 100| ≤ 300100 := by
        rw [abs_mul]
        norm_num
        linarith
      obtain ⟨p, hp, hperr⟩ := roundDouble_finite (q * 100) (by
        have : (300100 : ℚ) ≤ 2 ^ 1024 * (99 / 100) := by norm_num
        linarith)
      have hdiv : JSNum.div (JSNum.fin e) (JSNum.fin c0) = JSNum.fin q := by
        simp only [JSNum.div, if_neg hcne]
        exact hq
      have hmul : JSNum.mul (JSNum.fin q) (JSNum.fin 100) = JSNum.fin p := hp
      have hne : JSNum.fin c0 ≠ JSNum.fin 0 := fun h => hcne (JSNum.fin.inj h)
      refine ⟨e, q, p, JSNum.toFixedQ 2 p, ?_, hdiv, hqerr, hmul, hperr, toFixedQ_spec 2 p, ?_⟩
      · simp only [Calculator.modeEntry, he]
      · simp only [Calculator.modeEntry, he, hc, if_pos hne, hdiv, hmul]
        rfl
  · intro cfg t x ht hcar r hr
    simp only [Calculator.calculateAllModes, ht, if_neg hcar] at hr
    rw [(arraySort_perm _ _).mem_iff] at hr
    obtain ⟨m, _, rfl⟩ := List.mem_map.mp hr
    rfl
  · rw [calculateAllModes_at_430,
      show JSNum.roundDouble (7417 / 100) = JSNum.fin (5219249755657339 / 70368744177664) from
        roundDouble_eval_pos _ _ 6 5219249755657339 (by norm_num) (by norm_num) (by norm_num) (by
          norm_num) (by norm_num) (by norm_num) (by norm_num)]
    rfl
  · rw [calculateAllModes_at_0]
    rfl

/-- C5, amended, at `d = 430`. -/
theorem calculateAllModes_percentage_witness :
    |(430 : ℚ)| < 2 ^ 1024 ∧
    (∃ c : ℚ,
      Calculator.calculateEmission (some CONFIG) (JSNum.fin 430) "car" = JSNum.fin c) ∧
    (Calculator.calculateAllModes (some CONFIG) (JSNum.fin 430)).map
        (fun r => (r.mode, r.percentageVsCar))
      = [("bicycle", some (JSNum.fin 0)), ("bus", some (JSNum.roundDouble (7417 / 100))),
         ("car", some (JSNum.fin 100)), ("truck", some (JSNum.fin 800))] := by
  have habs : |(430 : ℚ)| < 2 ^ 1024 := by
    rw [abs_of_pos (by norm_num)]
    norm_num
  have h := calculateAllModes_percentage 430 habs
  exact ⟨habs, h.2.1, h.2.2.2.1⟩

/-! ## `calculateSavings` -/

theorem calculateSavings_fin_pos (e b : ℚ) (hb : 0 < b) :
    Calculator.calculateSavings (JSNum.fin e) (JSNum.fin b)
      = { savedKg := JSNum.toFixed 2 (JSNum.roundDouble (b - e))
          percentage := some (JSNum.toFixed 2
            (JSNum.mul (JSNum.div (JSNum.roundDouble (b - e)) (JSNum.fin b))
              (JSNum.fin 100))) } := by
  simp [Calculator.calculateSavings, JSNum.sub, JSNum.gt, hb]

theorem calculateSavings_fin_nonpos (e b : ℚ) (hb : b ≤ 0) :
    Calculator.calculateSavings (JSNum.fin e) (JSNum.fin b)
      = { savedKg := JSNum.toFixed 2 (JSNum.roundDouble (b - e)), percentage := none } := by
  simp [Calculator.calculateSavings, JSNum.sub, JSNum.gt, not_lt.mpr hb]

/-- Evaluation of `calculateSavings` for a positive baseline when every step is finite. -/
theorem savings_eval (e b s q p r1 r2 : ℚ) (hb : 0 < b)
    (hs : JSNum.roundDouble (b - e) = JSNum.fin s)
    (hq : JSNum.roundDouble (s / b) = JSNum.fin q)
    (hp : JSNum.roundDouble (q * 100) = JSNum.fin p)
    (h1 : JSNum.toFixedQ 2 s = r1) (h2 : JSNum.toFixedQ 2 p = r2) :
    Calculator.calculateSavings (JSNum.fin e) (JSNum.fin b)
      = { savedKg := JSNum.roundDouble r1, percentage := some (JSNum.roundDouble r2) } := by
  have hdiv : JSNum.div (JSNum.fin s) (JSNum.fin b) = JSNum.fin q := by
    simp only [JSNum.div, if_neg hb.ne']
    exact hq
  have hmul : JSNum.mul (JSNum.fin q) (JSNum.fin 100) = JSNum.fin p := hp
  rw [calculateSavings_fin_pos e b hb, hs, hdiv, hmul, toFixed_eval 2 s r1 h1,
    toFixed_eval 2 p r2 h2]

theorem toFixed_ne_nan (k : Nat) (x : JSNum) (hx : x ≠ JSNum.nan) :
    JSNum.toFixed k x ≠ JSNum.nan := by
  cases x with
  | fin q => exact roundDouble_ne_nan _
  | pinf => simp [JSNum.toFixed]
  | ninf => simp [JSNum.toFixed]
  | nan => exact absurd rfl hx

theorem div_pos_ne_nan (x : JSNum) (b : ℚ) (hb : 0 < b) (hx : x ≠ JSNum.nan) :
    JSNum.div x (JSNum.fin b) ≠ JSNum.nan := by
  cases x with
  | fin q =>
    simp only [JSNum.div, if_neg hb.ne']
    exact roundDouble_ne_nan _
  | pinf => simp [JSNum.div, not_lt.mpr hb.le]
  | ninf => simp [JSNum.div, not_lt.mpr hb.le]
  | nan => exact absurd rfl hx

theorem mul_hundred_ne_nan (x : JSNum) (hx : x ≠ JSNum.nan) :
    JSNum.mul x (JSNum.fin 100) ≠ JSNum.nan := by
  cases x with
  | fin q => exact roundDouble_ne_nan _
  | pinf => simp [JSNum.mul]
  | ninf => simp [JSNum.mul]
  | nan => exact absurd rfl hx

theorem calculateSavings_bus_vs_car :
    Calculator.calculateSavings (JSNum.roundDouble (3827 / 100)) (JSNum.roundDouble (516 / 10))
      = { savedKg := JSNum.roundDouble (1333 / 100),
          percentage := some (JSNum.roundDouble (2583 / 100)) } := by
  rw [show JSNum.roundDouble (3827 / 100) = JSNum.fin (5386023679358403 / 140737488355328) from
      roundDouble_eval_pos _ _ 5 5386023679358403 (by norm_num) (by norm_num) (by norm_num) (by
        norm_num) (by norm_num) (by norm_num) (by norm_num),
    show JSNum.roundDouble (516 / 10) = JSNum.fin (7262054399134925 / 140737488355328) from
      roundDouble_eval_pos _ _ 5 7262054399134925 (by norm_num) (by norm_num) (by norm_num) (by
        norm_num) (by norm_num) (by norm_num) (by norm_num)]
  exact
    savings_eval (5386023679358403 / 140737488355328) (7262054399134925 / 140737488355328)
      (938015359888261 / 70368744177664) (581714951868689 / 2251799813685248) (1817859224589653 /
      70368744177664) (1333 / 100) (2583 / 100) (by norm_num) (roundDouble_eval_pos _ _ 3
      7504122879106088 (by norm_num) (by norm_num) (by norm_num) (by norm_num) (by norm_num) (by
      norm_num) (by norm_num)) (roundDouble_eval_pos _ _ (-2) 4653719614949512 (by norm_num) (by
      norm_num) (by norm_num) (by norm_num) (by norm_num) (by norm_num) (by norm_num))
      (roundDouble_eval_pos_tie _ _ 4 7271436898358612 (by norm_num) (by norm_num) (by norm_num)
      (by norm_num) (by norm_num) (by norm_num) (by norm_num) (by norm_num)) (by norm_num
      [JSNum.toFixedQ]) (by norm_num [JSNum.toFixedQ])

/-- C6 fails as stated: for `e = 2^-100` and `b = 0.125` the returned `savedKg` is 0.13,
while `b - e` lies below 0.125 and rounds to 0.12: the binary64 difference is 0.125 itself,
a tie that `toFixed` rounds up. -/
theorem calculateSavings_savedKg_counterexample :
    (0 : ℚ) < 1 / 8 ∧
    (Calculator.calculateSavings (JSNum.fin (1 / 2 ^ 100)) (JSNum.fin (1 / 8))).savedKg
      = JSNum.roundDouble (13 / 100) ∧
    IsRoundHalfAway 2 (1 / 8 - 1 / 2 ^ 100) (12 / 100) ∧
    JSNum.roundDouble (13 / 100) ≠ JSNum.roundDouble (12 / 100) := by
  refine ⟨by norm_num, ?_, ?_, ?_⟩
  · rw [calculateSavings_fin_pos _ _ (by norm_num),
      show JSNum.roundDouble (1 / 8 - 1 / 2 ^ 100) = JSNum.fin (1 / 8) from
        roundDouble_eval_pos _ _ (-4) 9007199254740992 (by norm_num) (by norm_num) (by norm_num)
          (by norm_num) (by norm_num) (by norm_num) (by norm_num)]
    exact toFixed_eval 2 _ _ (by norm_num [JSNum.toFixedQ])
  · exact (isRoundHalfAway_iff 2 _ _).mpr (by norm_num [JSNum.toFixedQ])
  · exact roundDouble_ne_of_lit _ _ (1170935903116329 / 9007199254740992) (1080863910568919 / 9007199254740992)
      (roundDouble_eval_pos _ _ (-3) 4683743612465316 (by norm_num) (by norm_num) (by norm_num)
        (by norm_num) (by norm_num) (by norm_num) (by norm_num))
      (roundDouble_eval_pos _ _ (-4) 8646911284551352 (by norm_num) (by norm_num) (by norm_num)
        (by norm_num) (by norm_num) (by norm_num) (by norm_num))
      (by norm_num)

/-- C6, amended: for every emission `e` and baseline `b > 0` whose difference is in the
finite range, `calculateSavings(e, b).savedKg` is `Number(p.toFixed(2))`, where `p` is the
binary64 difference `b - e`: `p` lies within one rounding error of the exact difference,
`toFixed` rounds `p` to 2 decimals half away from zero, and that decimal is read back as a
finite binary64 value.  `calculateSavings(e, 0).percentage` is `null` for every `e`. -/
theorem calculateSavings_savedKg (e b : ℚ) (hb : 0 < b) (hfin : |b - e| ≤ 2 ^ 1023) :
    (∃ p r y : ℚ, JSNum.sub (JSNum.fin b) (JSNum.fin e) = JSNum.fin p ∧
      |p - (b - e)| ≤ |b - e| / 2 ^ 53 + 1 / 2 ^ 1075 ∧
      IsRoundHalfAway 2 p r ∧
      (Calculator.calculateSavings (JSNum.fin e) (JSNum.fin b)).savedKg
        = JSNum.roundDouble r ∧
      JSNum.roundDouble r = JSNum.fin y) ∧
    (Calculator.calculateSavings (JSNum.fin e) (JSNum.fin 0)).percentage = none := by
  constructor
  · have hx : |b - e| ≤ 2 ^ 1024 * (99 / 100) := by
      norm_num at hfin ⊢
      linarith
    obtain ⟨p, hp, hperr⟩ := roundDouble_finite (b - e) hx
    have hr := isRoundHalfAway_two_abs p _ (toFixedQ_spec 2 p)
    have h1 := abs_sub_abs_le_abs_sub p (b - e)
    have h2 := abs_sub_abs_le_abs_sub (JSNum.toFixedQ 2 p) p
    have hn := abs_nonneg (b - e)
    have hx2 : |JSNum.toFixedQ 2 p| ≤ 2 ^ 1024 * (99 / 100) := by
      norm_num at hfin hperr hr ⊢
      linarith
    obtain ⟨y, hy, _⟩ := roundDouble_finite _ hx2
    refine ⟨p, _, y, hp, hperr, toFixedQ_spec 2 p, ?_, hy⟩
    rw [calculateSavings_fin_pos e b hb, hp]
    rfl
  · rw [calculateSavings_fin_nonpos e 0 (le_refl 0)]

/-- C6, amended, at `e = 0.25`, `b = 0.125`: the difference -0.125 rounds away from zero, to
-0.13. -/
theorem calculateSavings_savedKg_witness :
    (0 : ℚ) < 1 / 8 ∧ |(1 / 8 : ℚ) - 1 / 4| ≤ 2 ^ 1023 ∧
    (Calculator.calculateSavings (JSNum.fin (1 / 4)) (JSNum.fin (1 / 8))).savedKg
      = JSNum.roundDouble (-(13 / 100)) ∧
    ((∃ p r y : ℚ, JSNum.sub (JSNum.fin (1 / 8)) (JSNum.fin (1 / 4)) = JSNum.fin p ∧
        |p - (1 / 8 - 1 / 4)| ≤ |(1 / 8 : ℚ) - 1 / 4| / 2 ^ 53 + 1 / 2 ^ 1075 ∧
        IsRoundHalfAway 2 p r ∧
        (Calculator.calculateSavings (JSNum.fin (1 / 4)) (JSNum.fin (1 / 8))).savedKg
          = JSNum.roundDouble r ∧
        JSNum.roundDouble r = JSNum.fin y) ∧
      (Calculator.calculateSavings (JSNum.fin (1 / 4)) (JSNum.fin 0)).percentage = none) := by
  have habs : |(1 / 8 : ℚ) - 1 / 4| ≤ 2 ^ 1023 := by
    rw [abs_of_neg (by norm_num)]
    norm_num
  refine ⟨by norm_num, habs, ?_,
    calculateSavings_savedKg (1 / 4) (1 / 8) (by norm_num) habs⟩
  rw [calculateSavings_fin_pos _ _ (by norm_num),
    show JSNum.roundDouble (1 / 8 - 1 / 4) = JSNum.fin (-(1 / 8)) from
      roundDouble_eval_neg_of _ _ (-3) 4503599627370496 (by norm_num) (by norm_num) (by norm_num)
        (by norm_num) (by norm_num) (by norm_num) (by norm_num)]
  exact toFixed_eval 2 _ _ (by norm_num [JSNum.toFixedQ])

/-- C7 fails as stated.  For `e = 0.001`, `b = 3` the returned `savedKg` is 3 and the
returned percentage is 99.97, which is not `savedKg / b * 100 = 100` rounded to 2 decimals:
the percentage is computed from the unrounded difference.  And for the finite inputs
`e = -1`, `b = 2^-1020` the returned percentage is `Infinity`: the quotient `2^1020`
overflows when it is multiplied by 100. -/
theorem calculateSavings_percentage_counterexample :
    (JSNum.roundDouble (1 / 1000) = JSNum.fin (1152921504606847 / 1152921504606846976) ∧
      (Calculator.calculateSavings (JSNum.fin (1152921504606847 / 1152921504606846976)) (JSNum.fin 3)).savedKg
        = JSNum.fin 3 ∧
      (Calculator.calculateSavings (JSNum.fin (1152921504606847 / 1152921504606846976)) (JSNum.fin 3)).percentage
        = some (JSNum.roundDouble (9997 / 100)) ∧
      ¬ IsRoundHalfAway 2 ((3 : ℚ) / 3 * 100) (9997 / 100) ∧
      JSNum.roundDouble (9997 / 100) ≠ JSNum.fin 100) ∧
    ((0 : ℚ) < 1 / 2 ^ 1020 ∧
      (Calculator.calculateSavings (JSNum.fin (-1)) (JSNum.fin (1 / 2 ^ 1020))).percentage
        = some JSNum.pinf) := by
  have hA : Calculator.calculateSavings (JSNum.fin (1152921504606847 / 1152921504606846976)) (JSNum.fin 3)
      = { savedKg := JSNum.roundDouble 3,
          percentage := some (JSNum.roundDouble (9997 / 100)) } :=
    savings_eval (1152921504606847 / 1152921504606846976) 3 (6753147641242059 / 2251799813685248)
      (2251049213747353 / 2251799813685248) (3517264396480239 / 35184372088832) 3 (9997 / 100)
      (by norm_num) (roundDouble_eval_pos _ _ 1 6753147641242059 (by norm_num) (by norm_num) (by
      norm_num) (by norm_num) (by norm_num) (by norm_num) (by norm_num)) (roundDouble_eval_pos _
      _ (-1) 9004196854989412 (by norm_num) (by norm_num) (by norm_num) (by norm_num) (by
      norm_num) (by norm_num) (by norm_num)) (roundDouble_eval_pos _ _ 6 7034528792960478 (by
      norm_num) (by norm_num) (by norm_num) (by norm_num) (by norm_num) (by norm_num) (by
      norm_num)) (by norm_num [JSNum.toFixedQ]) (by norm_num [JSNum.toFixedQ])
  have h3 : JSNum.roundDouble 3 = JSNum.fin 3 :=
    roundDouble_eval_pos _ _ 1 6755399441055744 (by norm_num) (by norm_num) (by norm_num) (by
      norm_num) (by norm_num) (by norm_num) (by norm_num)
  refine ⟨⟨?_, ?_, ?_, ?_, ?_⟩, by positivity, ?_⟩
  · exact
      roundDouble_eval_pos _ _ (-10) 4611686018427388 (by norm_num) (by norm_num) (by norm_num)
        (by norm_num) (by norm_num) (by norm_num) (by norm_num)
  · rw [hA]
    exact h3
  · rw [hA]
  · rintro ⟨_, h, _⟩
    norm_num [abs_of_neg] at h
  · rw [show JSNum.roundDouble (9997 / 100) = JSNum.fin (3517381677720535 / 35184372088832) from
        roundDouble_eval_pos _ _ 6 7034763355441070 (by norm_num) (by norm_num) (by norm_num) (by
          norm_num) (by norm_num) (by norm_num) (by norm_num)]
    intro h
    have := JSNum.fin.inj h
    norm_num at this
  · rw [calculateSavings_fin_pos _ _ (by positivity),
      show JSNum.roundDouble (1 / 2 ^ 1020 - -1) = JSNum.fin 1 from
        roundDouble_eval_pos _ _ 0 4503599627370496 (by norm_num) (by norm_num) (by norm_num) (by
          norm_num) (by norm_num) (by norm_num) (by norm_num)]
    have hdiv : JSNum.div (JSNum.fin 1) (JSNum.fin (1 / 2 ^ 1020))
        = JSNum.fin (2 ^ 1020) := by
      have hne : (1 : ℚ) / 2 ^ 1020 ≠ 0 := by positivity
      simp only [JSNum.div, if_neg hne]
      exact
        roundDouble_eval_pos _ _ 1020 4503599627370496 (by norm_num) (by norm_num) (by norm_num)
          (by norm_num) (by norm_num) (by norm_num) (by norm_num)
    have hmul : JSNum.mul (JSNum.fin (2 ^ 1020)) (JSNum.fin 100) = JSNum.pinf :=
      roundDouble_overflow _ (by norm_num)
    rw [hdiv, hmul]
    rfl

/-- C7, amended: `calculateSavings(e, b).percentage` is `null` when `b ≤ 0`.  When `b > 0`
it is a number and never `NaN`; it is computed from the unrounded difference: whenever the
binary64 difference `s` of `b` and `e`, the quotient `q` of `s` by `b` and the product `p`
of `q` and 100 are finite, it is `p` rounded to 2 decimals half away from zero and read back
as a binary64 value. -/
theorem calculateSavings_percentage (e b : ℚ) :
    (b ≤ 0 → (Calculator.calculateSavings (JSNum.fin e) (JSNum.fin b)).percentage = none) ∧
    (0 < b → ∃ P : JSNum,
      (Calculator.calculateSavings (JSNum.fin e) (JSNum.fin b)).percentage = some P ∧
      P ≠ JSNum.nan ∧
      ∀ s q p : ℚ, JSNum.sub (JSNum.fin b) (JSNum.fin e) = JSNum.fin s →
        JSNum.div (JSNum.fin s) (JSNum.fin b) = JSNum.fin q →
        JSNum.mul (JSNum.fin q) (JSNum.fin 100) = JSNum.fin p →
        ∃ r : ℚ, IsRoundHalfAway 2 p r ∧ P = JSNum.roundDouble r) := by
  constructor
  · intro hb
    rw [calculateSavings_fin_nonpos e b hb]
  · intro hb
    rw [calculateSavings_fin_pos e b hb]
    refine ⟨_, rfl, ?_, ?_⟩
    · exact toFixed_ne_nan 2 _ (mul_hundred_ne_nan _
        (div_pos_ne_nan _ b hb (roundDouble_ne_nan _)))
    · intro s q p hs hq hp
      have hs2 : JSNum.roundDouble (b - e) = JSNum.fin s := hs
      rw [hs2, hq, hp]
      exact ⟨_, toFixedQ_spec 2 p, rfl⟩

/-- C7, amended, at `b = -1` (no percentage) and at `e = 0.001`, `b = 3`, where every step
is finite and the percentage is 99.97. -/
theorem calculateSavings_percentage_witness :
    (Calculator.calculateSavings (JSNum.fin 5) (JSNum.fin (-1))).percentage = none ∧
    (∃ s q p : ℚ,
      JSNum.sub (JSNum.fin 3) (JSNum.fin (1152921504606847 / 1152921504606846976)) = JSNum.fin s ∧
      JSNum.div (JSNum.fin s) (JSNum.fin 3) = JSNum.fin q ∧
      JSNum.mul (JSNum.fin q) (JSNum.fin 100) = JSNum.fin p ∧
      JSNum.toFixedQ 2 p = 9997 / 100) ∧
    ∃ P : JSNum,
      (Calculator.calculateSavings (JSNum.fin (1152921504606847 / 1152921504606846976)) (JSNum.fin 3)).percentage
        = some P ∧
      P ≠ JSNum.nan ∧
      ∀ s q p : ℚ, JSNum.sub (JSNum.fin 3) (JSNum.fin (1152921504606847 / 1152921504606846976)) = JSNum.fin s →
        JSNum.div (JSNum.fin s) (JSNum.fin 3) = JSNum.fin q →
        JSNum.mul (JSNum.fin q) (JSNum.fin 100) = JSNum.fin p →
        ∃ r : ℚ, IsRoundHalfAway 2 p r ∧ P = JSNum.roundDouble r := by
  refine ⟨(calculateSavings_percentage 5 (-1)).1 (by norm_num), ?_,
    (calculateSavings_percentage (1152921504606847 / 1152921504606846976) 3).2 (by norm_num)⟩
  refine ⟨(6753147641242059 / 2251799813685248), (2251049213747353 / 2251799813685248), (3517264396480239 / 35184372088832), ?_, ?_, ?_, ?_⟩
  · exact
      roundDouble_eval_pos _ _ 1 6753147641242059 (by norm_num) (by norm_num) (by norm_num) (by
        norm_num) (by norm_num) (by norm_num) (by norm_num)
  · have hne : (3 : ℚ) ≠ 0 := by norm_num
    simp only [JSNum.div, if_neg hne]
    exact
      roundDouble_eval_pos _ _ (-1) 9004196854989412 (by norm_num) (by norm_num) (by norm_num)
        (by norm_num) (by norm_num) (by norm_num) (by norm_num)
  · exact
      roundDouble_eval_pos _ _ 6 7034528792960478 (by norm_num) (by norm_num) (by norm_num) (by
        norm_num) (by norm_num) (by norm_num) (by norm_num)
  · norm_num [JSNum.toFixedQ]

/-- C8 fails as stated: the percentage of `calculateSavings(38.27, 51.6)` is 25.83, not
25.84. -/
theorem pipeline_example_counterexample :
    (Calculator.calculateSavings (JSNum.roundDouble (3827 / 100))
        (JSNum.roundDouble (516 / 10))).percentage
      = some (JSNum.roundDouble (2583 / 100)) ∧
    (Calculator.calculateSavings (JSNum.roundDouble (3827 / 100))
        (JSNum.roundDouble (516 / 10))).percentage
      ≠ some (JSNum.roundDouble (2584 / 100)) := by
  rw [calculateSavings_bus_vs_car]
  refine ⟨rfl, ?_⟩
  intro h
  have h2 : JSNum.roundDouble (2583 / 100) = JSNum.roundDouble (2584 / 100) :=
    Option.some.inj h
  exact roundDouble_ne_of_lit _ _ (1817624662109061 / 70368744177664) (7273313398203351 / 281474976710656)
    (roundDouble_eval_pos _ _ 4 7270498648436244 (by norm_num) (by norm_num) (by norm_num) (by
      norm_num) (by norm_num) (by norm_num) (by norm_num))
    (roundDouble_eval_pos _ _ 4 7273313398203351 (by norm_num) (by norm_num) (by norm_num) (by
      norm_num) (by norm_num) (by norm_num) (by norm_num))
    (by norm_num) h2

/-- C8, amended: with distance 430 and mode bus, `calculateEmission(430, 'bus')` is 38.27,
`calculateEmission(430, 'car')` is 51.6, and `calculateSavings` of the two returns
`savedKg = 13.33` and `percentage = 25.83`. -/
theorem pipeline_example :
    Calculator.calculateEmission (some CONFIG) (JSNum.fin 430) "bus"
      = JSNum.roundDouble (3827 / 100) ∧
    Calculator.calculateEmission (some CONFIG) (JSNum.fin 430) "car"
      = JSNum.roundDouble (516 / 10) ∧
    Calculator.calculateSavings
        (Calculator.calculateEmission (some CONFIG) (JSNum.fin 430) "bus")
        (Calculator.calculateEmission (some CONFIG) (JSNum.fin 430) "car")
      = { savedKg := JSNum.roundDouble (1333 / 100),
          percentage := some (JSNum.roundDouble (2583 / 100)) } := by
  have hbus : Calculator.calculateEmission (some CONFIG) (JSNum.fin 430) "bus"
      = JSNum.roundDouble (3827 / 100) :=
    emission_eval 430 _ (2693011839679201 / 70368744177664) (3827 / 100) "bus" getProp_bus
      (roundDouble_eval_pos _ _ 5 5386023679358402 (by norm_num) (by norm_num) (by norm_num) (by
      norm_num) (by norm_num) (by norm_num) (by norm_num)) (by norm_num [JSNum.toFixedQ])
  have hcar : Calculator.calculateEmission (some CONFIG) (JSNum.fin 430) "car"
      = JSNum.roundDouble (516 / 10) :=
    emission_eval 430 _ (7262054399134925 / 140737488355328) (516 / 10) "car" getProp_car
      (roundDouble_eval_pos _ _ 5 7262054399134925 (by norm_num) (by norm_num) (by norm_num) (by
      norm_num) (by norm_num) (by norm_num) (by norm_num)) (by norm_num [JSNum.toFixedQ])
  refine ⟨hbus, hcar, ?_⟩
  rw [hbus, hcar, calculateSavings_bus_vs_car]

/-! ## `calculateCarbonCredits` and `estimateCreditPrice` -/

theorem calculateCarbonCredits_eq (x : JSNum) :
    Calculator.calculateCarbonCredits (some CONFIG) x
      = JSNum.toFixed 4 (JSNum.div x (JSNum.fin 1000)) := by
  simp [Calculator.calculateCarbonCredits, CONFIG, CARBON_CREDIT, JSVal.truthy, JSNum.truthy,
    JSVal.toNumber]

theorem div_thousand (e : ℚ) :
    JSNum.div (JSNum.fin e) (JSNum.fin 1000) = JSNum.roundDouble (e / 1000) := by
  have hne : (1000 : ℚ) ≠ 0 := by norm_num
  simp only [JSNum.div, if_neg hne]

theorem isRoundHalfAway_four_abs (p r : ℚ) (h : IsRoundHalfAway 4 p r) :
    |r - p| ≤ 1 / 20000 := by
  have h2 := h.2.1
  norm_num at h2
  exact h2

theorem calculateCarbonCredits_zero :
    Calculator.calculateCarbonCredits (some CONFIG) (JSNum.fin 0) = JSNum.fin 0 := by
  rw [calculateCarbonCredits_eq, div_thousand, roundDouble_eq_zero (0 / 1000) (by norm_num),
    toFixed_eval 4 0 0 (by norm_num [JSNum.toFixedQ])]
  exact roundDouble_zero

theorem calculateCarbonCredits_thousand :
    Calculator.calculateCarbonCredits (some CONFIG) (JSNum.fin 1000) = JSNum.fin 1 := by
  rw [calculateCarbonCredits_eq, div_thousand,
    show JSNum.roundDouble (1000 / 1000) = JSNum.fin 1 from
      roundDouble_eval_pos _ _ 0 4503599627370496 (by norm_num) (by norm_num) (by norm_num) (by
        norm_num) (by norm_num) (by norm_num) (by norm_num),
    toFixed_eval 4 1 1 (by norm_num [JSNum.toFixedQ])]
  exact
    roundDouble_eval_pos _ _ 0 4503599627370496 (by norm_num) (by norm_num) (by norm_num) (by
      norm_num) (by norm_num) (by norm_num) (by norm_num)

/-- C9 fails as stated: at the emission 0.45 the returned credits are 0.0004, while
0.45 / 1000 rounded to 4 decimals is 0.0005, both for the decimal 0.45 and for the exact
value of the binary64 number 0.45.  The binary64 quotient lies below 0.00045. -/
theorem calculateCarbonCredits_shipped_counterexample :
    JSNum.roundDouble (45 / 100) = JSNum.fin (8106479329266893 / 18014398509481984) ∧
    Calculator.calculateCarbonCredits (some CONFIG) (JSNum.fin (8106479329266893 / 18014398509481984))
      = JSNum.roundDouble (4 / 10000) ∧
    IsRoundHalfAway 4 (8106479329266893 / 18014398509481984 / 1000) (5 / 10000) ∧
    IsRoundHalfAway 4 (45 / 100 / 1000) (5 / 10000) ∧
    JSNum.roundDouble (4 / 10000) ≠ JSNum.roundDouble (5 / 10000) := by
  refine ⟨?_, ?_, ?_, ?_, ?_⟩
  · exact
      roundDouble_eval_pos _ _ (-2) 8106479329266893 (by norm_num) (by norm_num) (by norm_num)
        (by norm_num) (by norm_num) (by norm_num) (by norm_num)
  · rw [calculateCarbonCredits_eq, div_thousand,
      show JSNum.roundDouble (8106479329266893 / 18014398509481984 / 1000) = JSNum.fin (4150517416584649 / 9223372036854775808) from
        roundDouble_eval_pos _ _ (-12) 8301034833169298 (by norm_num) (by norm_num) (by norm_num)
          (by norm_num) (by norm_num) (by norm_num) (by norm_num)]
    exact toFixed_eval 4 _ _ (by norm_num [JSNum.toFixedQ])
  · exact (isRoundHalfAway_iff 4 _ _).mpr (by norm_num [JSNum.toFixedQ])
  · exact (isRoundHalfAway_iff 4 _ _).mpr (by norm_num [JSNum.toFixedQ])
  · exact roundDouble_ne_of_lit _ _ (7378697629483821 / 18446744073709551616) (1152921504606847 / 2305843009213693952)
      (roundDouble_eval_pos _ _ (-12) 7378697629483821 (by norm_num) (by norm_num) (by norm_num)
        (by norm_num) (by norm_num) (by norm_num) (by norm_num))
      (roundDouble_eval_pos _ _ (-11) 4611686018427388 (by norm_num) (by norm_num) (by norm_num)
        (by norm_num) (by norm_num) (by norm_num) (by norm_num))
      (by norm_num)

/-- C9, amended: for every emission mass `e` in the finite range, `calculateCarbonCredits(e)`
is `Number(q.toFixed(4))`, where `q` is the binary64 quotient of `e` by 1000: `q` lies within
one rounding error of `e / 1000`, `toFixed` rounds `q` to 4 decimals half away from zero, and
that decimal is read back as a finite binary64 value.  `calculateCarbonCredits(0) = 0` and
`calculateCarbonCredits(1000) = 1`; and with the shipped configuration the guard of the zero
fallback is false (the record and its truthy constant 1000 are present), so every call
divides by 1000. -/
theorem calculateCarbonCredits_shipped (e : ℚ) (he : |e| < 2 ^ 1024) :
    (∃ q r y : ℚ, JSNum.div (JSNum.fin e) (JSNum.fin 1000) = JSNum.fin q ∧
      |q - e / 1000| ≤ |e / 1000| / 2 ^ 53 + 1 / 2 ^ 1075 ∧
      IsRoundHalfAway 4 q r ∧
      Calculator.calculateCarbonCredits (some CONFIG) (JSNum.fin e) = JSNum.roundDouble r ∧
      JSNum.roundDouble r = JSNum.fin y) ∧
    Calculator.calculateCarbonCredits (some CONFIG) (JSNum.fin 0) = JSNum.fin 0 ∧
    Calculator.calculateCarbonCredits (some CONFIG) (JSNum.fin 1000) = JSNum.fin 1 ∧
    (CONFIG.CARBON_CREDIT = some CARBON_CREDIT ∧
      CARBON_CREDIT.KG_PER_CREDIT.truthy = true ∧
      CARBON_CREDIT.KG_PER_CREDIT.toNumber = JSNum.fin 1000) ∧
    (∀ x : JSNum, Calculator.calculateCarbonCredits (some CONFIG) x
      = JSNum.toFixed 4 (JSNum.div x (JSNum.fin 1000))) := by
  refine ⟨?_, calculateCarbonCredits_zero, calculateCarbonCredits_thousand, ⟨rfl, ?_, rfl⟩,
    calculateCarbonCredits_eq⟩
  · have he1 : |e / 1000| = |e| / 1000 := by
      rw [abs_div, abs_of_pos (by norm_num : (0 : ℚ) < 1000)]
    have hn := abs_nonneg e
    have hx : |e / 1000| ≤ 2 ^ 1024 * (99 / 100) := by
      rw [he1]
      norm_num at he ⊢
      linarith
    obtain ⟨q, hq, hqerr⟩ := roundDouble_finite (e / 1000) hx
    have hr := isRoundHalfAway_four_abs q _ (toFixedQ_spec 4 q)
    have h1 := abs_sub_abs_le_abs_sub q (e / 1000)
    have h2 := abs_sub_abs_le_abs_sub (JSNum.toFixedQ 4 q) q
    have hx2 : |JSNum.toFixedQ 4 q| ≤ 2 ^ 1024 * (99 / 100) := by
      rw [he1] at hqerr h1
      norm_num at he hqerr hr ⊢
      linarith
    obtain ⟨y, hy, _⟩ := roundDouble_finite _ hx2
    refine ⟨q, _, y, (div_thousand e).trans hq, hqerr, toFixedQ_spec 4 q, ?_, hy⟩
    rw [calculateCarbonCredits_eq, div_thousand, hq]
    rfl
  · simp [CARBON_CREDIT, JSVal.truthy, JSNum.truthy]

/-- C9, amended, at `e = 1000`: one credit. -/
theorem calculateCarbonCredits_shipped_witness :
    |(1000 : ℚ)| < 2 ^ 1024 ∧
    Calculator.calculateCarbonCredits (some CONFIG) (JSNum.fin 1000) = JSNum.fin 1 := by
  have h : |(1000 : ℚ)| < 2 ^ 1024 := by
    rw [abs_of_pos (by norm_num)]
    norm_num
  exact ⟨h, (calculateCarbonCredits_shipped 1000 h).2.2.1⟩

theorem estimateCreditPrice_eq (x : JSNum) :
    Calculator.estimateCreditPrice (some CONFIG) x
      = { min := JSNum.toFixed 2 (JSNum.mul x (JSNum.fin 50))
          max := JSNum.toFixed 2 (JSNum.mul x (JSNum.fin 150))
          average := JSNum.toFixed 2
            (JSNum.div (JSNum.add (JSNum.mul x (JSNum.fin 50)) (JSNum.mul x (JSNum.fin 150)))
              (JSNum.fin 2)) } := by
  simp [Calculator.estimateCreditPrice, CONFIG, CARBON_CREDIT, Calculator.orZero, JSVal.truthy,
    JSNum.truthy, JSVal.toNumber]

theorem div_two (s : ℚ) :
    JSNum.div (JSNum.fin s) (JSNum.fin 2) = JSNum.roundDouble (s / 2) := by
  have hne : (2 : ℚ) ≠ 0 := by norm_num
  simp only [JSNum.div, if_neg hne]

/-- Evaluation of `estimateCreditPrice` when every step is finite. -/
theorem price_eval (c a b s v r1 r2 r3 : ℚ)
    (ha : JSNum.roundDouble (c * 50) = JSNum.fin a)
    (hb : JSNum.roundDouble (c * 150) = JSNum.fin b)
    (hs : JSNum.roundDouble (a + b) = JSNum.fin s)
    (hv : JSNum.roundDouble (s / 2) = JSNum.fin v)
    (h1 : JSNum.toFixedQ 2 a = r1) (h2 : JSNum.toFixedQ 2 b = r2)
    (h3 : JSNum.toFixedQ 2 v = r3) :
    Calculator.estimateCreditPrice (some CONFIG) (JSNum.fin c)
      = { min := JSNum.roundDouble r1, max := JSNum.roundDouble r2,
          average := JSNum.roundDouble r3 } := by
  have hmin : JSNum.mul (JSNum.fin c) (JSNum.fin 50) = JSNum.fin a := ha
  have hmax : JSNum.mul (JSNum.fin c) (JSNum.fin 150) = JSNum.fin b := hb
  have hadd : JSNum.add (JSNum.fin a) (JSNum.fin b) = JSNum.fin s := hs
  rw [estimateCreditPrice_eq, hmin, hmax, hadd, div_two, hv, toFixed_eval 2 a r1 h1,
    toFixed_eval 2 b r2 h2, toFixed_eval 2 v r3 h3]

/-- C10 fails as stated: at the credit count 0.0005 the returned `max` is 0.07, while
0.0005 * 150 rounded to 2 decimals is 0.08, both for the decimal 0.0005 and for the exact
value of the binary64 number 0.0005.  The binary64 product lies below 0.075. -/
theorem estimateCreditPrice_shipped_counterexample :
    JSNum.roundDouble (5 / 10000) = JSNum.fin (1152921504606847 / 2305843009213693952) ∧
    (Calculator.estimateCreditPrice (some CONFIG) (JSNum.fin (1152921504606847 / 2305843009213693952))).max
      = JSNum.roundDouble (7 / 100) ∧
    IsRoundHalfAway 2 (1152921504606847 / 2305843009213693952 * 150) (8 / 100) ∧
    IsRoundHalfAway 2 (5 / 10000 * 150) (8 / 100) ∧
    JSNum.roundDouble (7 / 100) ≠ JSNum.roundDouble (8 / 100) := by
  refine ⟨?_, ?_, ?_, ?_, ?_⟩
  · exact
      roundDouble_eval_pos _ _ (-11) 4611686018427388 (by norm_num) (by norm_num) (by norm_num)
        (by norm_num) (by norm_num) (by norm_num) (by norm_num)
  · have hm : JSNum.mul (JSNum.fin (1152921504606847 / 2305843009213693952)) (JSNum.fin 150)
        = JSNum.fin (5404319552844595 / 72057594037927936) :=
      roundDouble_eval_pos _ _ (-4) 5404319552844595 (by norm_num) (by norm_num) (by norm_num)
        (by norm_num) (by norm_num) (by norm_num) (by norm_num)
    rw [estimateCreditPrice_eq]
    show JSNum.toFixed 2 (JSNum.mul (JSNum.fin (1152921504606847 / 2305843009213693952)) (JSNum.fin 150)) = _
    rw [hm]
    exact toFixed_eval 2 _ _ (by norm_num [JSNum.toFixedQ])
  · exact (isRoundHalfAway_iff 2 _ _).mpr (by norm_num [JSNum.toFixedQ])
  · exact (isRoundHalfAway_iff 2 _ _).mpr (by norm_num [JSNum.toFixedQ])
  · exact roundDouble_ne_of_lit _ _ (1261007895663739 / 18014398509481984) (5764607523034235 / 72057594037927936)
      (roundDouble_eval_pos _ _ (-4) 5044031582654956 (by norm_num) (by norm_num) (by norm_num)
        (by norm_num) (by norm_num) (by norm_num) (by norm_num))
      (roundDouble_eval_pos _ _ (-4) 5764607523034235 (by norm_num) (by norm_num) (by norm_num)
        (by norm_num) (by norm_num) (by norm_num) (by norm_num))
      (by norm_num)

/-- C10, amended: for every credit count `c` with `|c| ≤ 2^1000`, the binary64 products
`a` of `c` and 50 and `b` of `c` and 150, their binary64 sum `s` and its half `v` are finite,
each within one rounding error of the exact operation on its operands, and
`estimateCreditPrice(c)` returns `min`, `max` and `average` equal to `a`, `b` and `v` rounded
to 2 decimals half away from zero and read back as binary64 values; the average is taken
over the unrounded `a` and `b`.  `estimateCreditPrice(1)` is `{50, 150, 100}` and
`estimateCreditPrice(0.0001)` is `{0.01, 0.02, 0.01}`. -/
theorem estimateCreditPrice_shipped (c : ℚ) (hc : |c| ≤ 2 ^ 1000) :
    (∃ a b s v rmin rmax ravg : ℚ,
      JSNum.mul (JSNum.fin c) (JSNum.fin 50) = JSNum.fin a ∧
      |a - c * 50| ≤ |c * 50| / 2 ^ 53 + 1 / 2 ^ 1075 ∧
      JSNum.mul (JSNum.fin c) (JSNum.fin 150) = JSNum.fin b ∧
      |b - c * 150| ≤ |c * 150| / 2 ^ 53 + 1 / 2 ^ 1075 ∧
      JSNum.add (JSNum.fin a) (JSNum.fin b) = JSNum.fin s ∧
      |s - (a + b)| ≤ |a + b| / 2 ^ 53 + 1 / 2 ^ 1075 ∧
      JSNum.div (JSNum.fin s) (JSNum.fin 2) = JSNum.fin v ∧
      |v - s / 2| ≤ |s / 2| / 2 ^ 53 + 1 / 2 ^ 1075 ∧
      IsRoundHalfAway 2 a rmin ∧ IsRoundHalfAway 2 b rmax ∧ IsRoundHalfAway 2 v ravg ∧
      Calculator.estimateCreditPrice (some CONFIG) (JSNum.fin c)
        = { min := JSNum.roundDouble rmin, max := JSNum.roundDouble rmax,
            average := JSNum.roundDouble ravg }) ∧
    Calculator.estimateCreditPrice (some CONFIG) (JSNum.fin 1)
      = { min := JSNum.fin 50, max := JSNum.fin 150, average := JSNum.fin 100 } ∧
    (JSNum.roundDouble (1 / 10000) = JSNum.fin (7378697629483821 / 73786976294838206464) ∧
      Calculator.estimateCreditPrice (some CONFIG) (JSNum.fin (7378697629483821 / 73786976294838206464))
        = { min := JSNum.roundDouble (1 / 100), max := JSNum.roundDouble (2 / 100),
            average := JSNum.roundDouble (1 / 100) }) := by
  refine ⟨?_, ?_, ?_, ?_⟩
  · have hc50 : |c * 50| = |c| * 50 := by
      rw [abs_mul, abs_of_pos (by norm_num : (0 : ℚ) < 50)]
    have hc150 : |c * 150| = |c| * 150 := by
      rw [abs_mul, abs_of_pos (by norm_num : (0 : ℚ) < 150)]
    have hn := abs_nonneg c
    have hx50 : |c * 50| ≤ 2 ^ 1024 * (99 / 100) := by
      rw [hc50]
      norm_num at hc ⊢
      linarith
    have hx150 : |c * 150| ≤ 2 ^ 1024 * (99 / 100) := by
      rw [hc150]
      norm_num at hc ⊢
      linarith
    obtain ⟨a, ha, haerr⟩ := roundDouble_finite (c * 50) hx50
    obtain ⟨b, hb, hberr⟩ := roundDouble_finite (c * 150) hx150
    have haabs : |a| ≤ |c| * 51 + 1 := by
      have := abs_sub_abs_le_abs_sub a (c * 50)
      rw [hc50] at haerr this
      norm_num at haerr ⊢
      linarith
    have hbabs : |b| ≤ |c| * 151 + 1 := by
      have := abs_sub_abs_le_abs_sub b (c * 150)
      rw [hc150] at hberr this
      norm_num at hberr ⊢
      linarith
    have hab : |a + b| ≤ |c| * 202 + 2 := by
      have := abs_add a b
      linarith
    have hxs : |a + b| ≤ 2 ^ 1024 * (99 / 100) := by
      norm_num at hc ⊢
      linarith
    obtain ⟨s, hs, hserr⟩ := roundDouble_finite (a + b) hxs
    have hsabs : |s| ≤ |c| * 203 + 3 := by
      have := abs_sub_abs_le_abs_sub s (a + b)
      norm_num at hserr ⊢
      linarith
    have hs2 : |s / 2| = |s| / 2 := by
      rw [abs_div, abs_of_pos (by norm_num : (0 : ℚ) < 2)]
    have hxv : |s / 2| ≤ 2 ^ 1024 * (99 / 100) := by
      rw [hs2]
      norm_num at hc ⊢
      linarith
    obtain ⟨v, hv, hverr⟩ := roundDouble_finite (s / 2) hxv
    exact ⟨a, b, s, v, _, _, _, ha, haerr, hb, hberr, hs, hserr, (div_two s).trans hv, hverr,
      toFixedQ_spec 2 a, toFixedQ_spec 2 b, toFixedQ_spec 2 v,
      price_eval c a b s v _ _ _ ha hb hs hv rfl rfl rfl⟩
  · rw [
        price_eval 1 50 150 200 100 50 150 100 (roundDouble_eval_pos _ _ 5 7036874417766400 (by
          norm_num) (by norm_num) (by norm_num) (by norm_num) (by norm_num) (by norm_num) (by
          norm_num)) (roundDouble_eval_pos _ _ 7 5277655813324800 (by norm_num) (by norm_num) (by
          norm_num) (by norm_num) (by norm_num) (by norm_num) (by norm_num))
          (roundDouble_eval_pos _ _ 7 7036874417766400 (by norm_num) (by norm_num) (by norm_num)
          (by norm_num) (by norm_num) (by norm_num) (by norm_num)) (roundDouble_eval_pos _ _ 6
          7036874417766400 (by norm_num) (by norm_num) (by norm_num) (by norm_num) (by norm_num)
          (by norm_num) (by norm_num)) (by norm_num [JSNum.toFixedQ]) (by norm_num
          [JSNum.toFixedQ]) (by norm_num [JSNum.toFixedQ]),
      show JSNum.roundDouble 50 = JSNum.fin 50 from
        roundDouble_eval_pos _ _ 5 7036874417766400 (by norm_num) (by norm_num) (by norm_num) (by
          norm_num) (by norm_num) (by norm_num) (by norm_num),
      show JSNum.roundDouble 150 = JSNum.fin 150 from
        roundDouble_eval_pos _ _ 7 5277655813324800 (by norm_num) (by norm_num) (by norm_num) (by
          norm_num) (by norm_num) (by norm_num) (by norm_num),
      show JSNum.roundDouble 100 = JSNum.fin 100 from
        roundDouble_eval_pos _ _ 6 7036874417766400 (by norm_num) (by norm_num) (by norm_num) (by
          norm_num) (by norm_num) (by norm_num) (by norm_num)]
  · exact
      roundDouble_eval_pos _ _ (-14) 7378697629483821 (by norm_num) (by norm_num) (by norm_num)
        (by norm_num) (by norm_num) (by norm_num) (by norm_num)
  · exact
      price_eval (7378697629483821 / 73786976294838206464) (5764607523034235 /
        1152921504606846976) (8646911284551353 / 576460752303423488) (5764607523034235 /
        288230376151711744) (5764607523034235 / 576460752303423488) (1 / 100) (2 / 100) (1 / 100)
        (roundDouble_eval_pos _ _ (-8) 5764607523034235 (by norm_num) (by norm_num) (by norm_num)
        (by norm_num) (by norm_num) (by norm_num) (by norm_num)) (roundDouble_eval_pos _ _ (-7)
        8646911284551353 (by norm_num) (by norm_num) (by norm_num) (by norm_num) (by norm_num)
        (by norm_num) (by norm_num)) (roundDouble_eval_pos _ _ (-6) 5764607523034235 (by
        norm_num) (by norm_num) (by norm_num) (by norm_num) (by norm_num) (by norm_num) (by
        norm_num)) (roundDouble_eval_pos _ _ (-7) 5764607523034235 (by norm_num) (by norm_num)
        (by norm_num) (by norm_num) (by norm_num) (by norm_num) (by norm_num)) (by norm_num
        [JSNum.toFixedQ]) (by norm_num [JSNum.toFixedQ]) (by norm_num [JSNum.toFixedQ])

/-- C10, amended, at `c = 1`: prices 50, 150 and 100. -/
theorem estimateCreditPrice_shipped_witness :
    |(1 : ℚ)| ≤ 2 ^ 1000 ∧
    Calculator.estimateCreditPrice (some CONFIG) (JSNum.fin 1)
      = { min := JSNum.fin 50, max := JSNum.fin 150, average := JSNum.fin 100 } := by
  have h : |(1 : ℚ)| ≤ 2 ^ 1000 := by
    rw [abs_one]
    exact one_le_pow₀ (by norm_num)
  exact ⟨h, (estimateCreditPrice_shipped 1 h).2.1⟩

/-! ## `trim` and `toLowerCase` -/

theorem lowerTable_not_trimmed :
    ∀ p ∈ lowerTable, isTrimChar p.1 = false ∧ isTrimChar p.2 = false := by
  decide

/-- Lower-casing maps no character onto or away from the characters that `trim` strips. -/
theorem isTrimChar_toLowerChar (c : Char) : isTrimChar (toLowerChar c) = isTrimChar c := by
  unfold toLowerChar
  cases h : lowerTable.lookup c with
  | none => rfl
  | some b =>
    obtain ⟨_, _, hmem, _⟩ := List.lookup_eq_some_iff.mp h
    have hb := lowerTable_not_trimmed (c, b) (by simp [hmem])
    simp [hb.1, hb.2]

theorem trimChars_pad (pre core post : List Char) (hpre : ∀ c ∈ pre, isTrimChar c = true)
    (hpost : ∀ c ∈ post, isTrimChar c = true) :
    trimChars (pre ++ core ++ post) = trimChars core := by
  have hrev : ∀ c ∈ post.reverse, isTrimChar c = true := fun c hc =>
    hpost c (List.mem_reverse.mp hc)
  unfold trimChars
  rw [List.append_assoc, List.dropWhile_append_of_pos hpre, List.dropWhile_append]
  split
  · next hemp =>
    rw [List.isEmpty_iff] at hemp
    rw [hemp, (List.dropWhile_eq_nil_iff).mpr hpost]
  · rw [List.reverse_append, List.dropWhile_append_of_pos hrev]

theorem trimChars_map_toLowerChar (l : List Char) :
    trimChars (l.map toLowerChar) = (trimChars l).map toLowerChar := by
  have hcomp : isTrimChar ∘ toLowerChar = isTrimChar := funext isTrimChar_toLowerChar
  unfold trimChars
  rw [List.dropWhile_map, hcomp, ← List.map_reverse, List.dropWhile_map, hcomp,
    List.map_reverse]

theorem map_toLowerChar_of_forall₂ (l₁ l₂ : List Char)
    (h : List.Forall₂ (fun a b => toLowerChar a = toLowerChar b) l₁ l₂) :
    l₁.map toLowerChar = l₂.map toLowerChar := by
  induction h with
  | nil => rfl
  | cons hab _ ih => simp [hab, ih]

/-- Strings that differ only in case and outer whitespace have one trimmed, lower-cased
form. -/
theorem normalize_eq_of_differs (s t : String) (h : DiffersInCaseAndOuterSpace s t) :
    toLowerCase (trim s) = toLowerCase (trim t) := by
  obtain ⟨pre, core, post, pre2, core2, post2, hs, ht, h1, h2, h3, h4, hcore⟩ := h
  unfold toLowerCase trim
  simp only [hs, ht, trimChars_pad _ _ _ h1 h2, trimChars_pad _ _ _ h3 h4]
  rw [← trimChars_map_toLowerChar, ← trimChars_map_toLowerChar,
    map_toLowerChar_of_forall₂ core core2 hcore]

/-! ## The loop of `findDistance` -/

theorem findLoop_comm (o d : String) (rs : List RoutesDB.Route) :
    RoutesDB.findLoop o d rs = RoutesDB.findLoop d o rs := by
  induction rs with
  | nil => rfl
  | cons r rest ih =>
    simp only [RoutesDB.findLoop, ih]
    by_cases h : (toLowerCase (trim r.origin) = o ∧ toLowerCase (trim r.destination) = d) ∨
        (toLowerCase (trim r.origin) = d ∧ toLowerCase (trim r.destination) = o)
    · rw [if_pos h, if_pos h.symm]
    · rw [if_neg h, if_neg (fun h2 => h h2.symm)]

/-- The loop returns `null` when no route of the array matches, and otherwise the distance
of the first matching route. -/
theorem findLoop_spec (origin destination : String) (rs : List RoutesDB.Route) :
    (RoutesDB.findLoop (toLowerCase (trim origin)) (toLowerCase (trim destination)) rs = none ∧
      ∀ r ∈ rs, ¬ RouteMatches r origin destination) ∨
    (∃ pre r post, rs = pre ++ r :: post ∧ RouteMatches r origin destination ∧
      (∀ s ∈ pre, ¬ RouteMatches s origin destination) ∧
      RoutesDB.findLoop (toLowerCase (trim origin)) (toLowerCase (trim destination)) rs
        = some r.distanceKm) := by
  induction rs with
  | nil => exact Or.inl ⟨rfl, fun _ h => absurd h (List.not_mem_nil _)⟩
  | cons r rest ih =>
    by_cases h : RouteMatches r origin destination
    · refine Or.inr ⟨[], r, rest, rfl, h, fun _ hs => absurd hs (List.not_mem_nil _), ?_⟩
      simp only [RoutesDB.findLoop]
      exact if_pos h
    · have hstep : RoutesDB.findLoop (toLowerCase (trim origin))
          (toLowerCase (trim destination)) (r :: rest)
          = RoutesDB.findLoop (toLowerCase (trim origin))
              (toLowerCase (trim destination)) rest := by
        simp only [RoutesDB.findLoop]
        exact if_neg h
      rcases ih with ⟨hn, hall⟩ | ⟨pre, m, post, hrs, hm, hpre, hval⟩
      · refine Or.inl ⟨hstep.trans hn, ?_⟩
        intro s hs
        rcases List.mem_cons.mp hs with rfl | hs
        · exact h
        · exact hall s hs
      · refine Or.inr ⟨r :: pre, m, post, by rw [hrs]; rfl, hm, ?_, hstep.trans hval⟩
        intro s hs
        rcases List.mem_cons.mp hs with rfl | hs
        · exact h
        · exact hpre s hs

/-! ## The route table -/

theorem routes_names_nonempty :
    ∀ r ∈ RoutesDB.routes,
      toLowerCase (trim r.origin) ≠ "" ∧ toLowerCase (trim r.destination) ≠ "" := by
  decide

theorem routes_pairwise_distinct :
    RoutesDB.routes.Pairwise (fun r s => ¬ SamePair r s) := by
  decide

theorem routes_match_unique (origin destination : String) (r s : RoutesDB.Route)
    (hr : r ∈ RoutesDB.routes) (hs : s ∈ RoutesDB.routes)
    (hmr : RouteMatches r origin destination) (hms : RouteMatches s origin destination) :
    r = s := by
  by_contra hne
  have hsymm : Symmetric (fun r s : RoutesDB.Route => ¬ SamePair r s) := by
    intro a b hab hba
    apply hab
    rcases hba with ⟨h1, h2⟩ | ⟨h1, h2⟩
    · exact Or.inl ⟨h1.symm, h2.symm⟩
    · exact Or.inr ⟨h2.symm, h1.symm⟩
  apply routes_pairwise_distinct.forall hsymm hr hs hne
  rcases hmr with ⟨h1, h2⟩ | ⟨h1, h2⟩ <;> rcases hms with ⟨h3, h4⟩ | ⟨h3, h4⟩
  · exact Or.inl ⟨h1.trans h3.symm, h2.trans h4.symm⟩
  · exact Or.inr ⟨h1.trans h4.symm, h2.trans h3.symm⟩
  · exact Or.inr ⟨h1.trans h4.symm, h2.trans h3.symm⟩
  · exact Or.inl ⟨h1.trans h3.symm, h2.trans h4.symm⟩

theorem trim_toLowerCase_empty : toLowerCase (trim "") = "" := by
  decide

/-- On the shipped table the guard on empty names changes nothing: the loop finds no route
for an empty name. -/
theorem findDistance_eq_findLoop (origin destination : String) :
    RoutesDB.findDistance origin destination
      = RoutesDB.findLoop (toLowerCase (trim origin)) (toLowerCase (trim destination))
          RoutesDB.routes := by
  unfold RoutesDB.findDistance RoutesDB.findDistanceIn
  split
  · next hempty =>
    rcases findLoop_spec origin destination RoutesDB.routes with ⟨hn, _⟩ | ⟨_, r, _, hrs, hm, _, _⟩
    · exact hn.symm
    · exfalso
      have hr : r ∈ RoutesDB.routes := by rw [hrs]; simp
      have hne := routes_names_nonempty r hr
      rcases hempty with rfl | rfl
      · rw [RouteMatches, trim_toLowerCase_empty] at hm
        rcases hm with ⟨h, _⟩ | ⟨_, h⟩
        · exact hne.1 h
        · exact hne.2 h
      · rw [RouteMatches, trim_toLowerCase_empty] at hm
        rcases hm with ⟨_, h⟩ | ⟨h, _⟩
        · exact hne.2 h
        · exact hne.1 h
  · rfl

theorem findDistance_sao_paulo_rio :
    RoutesDB.findDistance "São Paulo, SP" "Rio de Janeiro, RJ" = some (JSNum.fin 430) := by
  rfl

theorem findDistance_rio_sao_paulo :
    RoutesDB.findDistance "Rio de Janeiro, RJ" "São Paulo, SP" = some (JSNum.fin 430) := by
  rfl

theorem findDistance_padded_lower :
    RoutesDB.findDistance " São Paulo, SP " "rio de janeiro, rj" = some (JSNum.fin 430) := by
  rfl

/-! ## `findDistance` -/

/-- C11: `findDistance` is symmetric: for all strings `a` and `b`, `findDistance(a, b)` and
`findDistance(b, a)` are the same distance or both `null`, over the shipped table and over
any other route array; for Rio de Janeiro and São Paulo both orders give 430. -/
theorem findDistance_symmetric (a b : String) :
    RoutesDB.findDistance a b = RoutesDB.findDistance b a ∧
    (∀ rs : List RoutesDB.Route,
      RoutesDB.findDistanceIn rs a b = RoutesDB.findDistanceIn rs b a) ∧
    RoutesDB.findDistance "Rio de Janeiro, RJ" "São Paulo, SP" = some (JSNum.fin 430) ∧
    RoutesDB.findDistance "São Paulo, SP" "Rio de Janeiro, RJ" = some (JSNum.fin 430) := by
  have hgen : ∀ rs : List RoutesDB.Route,
      RoutesDB.findDistanceIn rs a b = RoutesDB.findDistanceIn rs b a := by
    intro rs
    unfold RoutesDB.findDistanceIn
    by_cases h : a = "" ∨ b = ""
    · rw [if_pos h, if_pos h.symm]
    · rw [if_neg h, if_neg (fun h2 => h h2.symm)]
      exact findLoop_comm _ _ rs
  exact ⟨hgen RoutesDB.routes, hgen, findDistance_rio_sao_paulo, findDistance_sao_paulo_rio⟩

/-- C12: `findDistance` is case- and whitespace-insensitive: when `o2` and `d2` differ from
`o` and `d` only in letter case and in leading or trailing whitespace, `findDistance(o2, d2)`
equals `findDistance(o, d)`. -/
theorem findDistance_case_space_insensitive (o o2 d d2 : String)
    (ho : DiffersInCaseAndOuterSpace o o2) (hd : DiffersInCaseAndOuterSpace d d2) :
    RoutesDB.findDistance o2 d2 = RoutesDB.findDistance o d := by
  rw [findDistance_eq_findLoop, findDistance_eq_findLoop,
    normalize_eq_of_differs o o2 ho, normalize_eq_of_differs d d2 hd]

/-- C12 at `' São Paulo, SP '` and `'rio de janeiro, rj'`: both spellings give 430. -/
theorem findDistance_case_space_insensitive_witness :
    DiffersInCaseAndOuterSpace "São Paulo, SP" " São Paulo, SP " ∧
    DiffersInCaseAndOuterSpace "Rio de Janeiro, RJ" "rio de janeiro, rj" ∧
    RoutesDB.findDistance " São Paulo, SP " "rio de janeiro, rj" = some (JSNum.fin 430) ∧
    RoutesDB.findDistance " São Paulo, SP " "rio de janeiro, rj"
      = RoutesDB.findDistance "São Paulo, SP" "Rio de Janeiro, RJ" := by
  have h1 : DiffersInCaseAndOuterSpace "São Paulo, SP" " São Paulo, SP " := by
    refine ⟨[], "São Paulo, SP".data, [], [' '], "São Paulo, SP".data, [' '], rfl, rfl,
      by decide, by decide, by decide, by decide, ?_⟩
    repeat (first | exact List.Forall₂.nil | refine List.Forall₂.cons (by decide) ?_)
  have h2 : DiffersInCaseAndOuterSpace "Rio de Janeiro, RJ" "rio de janeiro, rj" := by
    refine ⟨[], "Rio de Janeiro, RJ".data, [], [], "rio de janeiro, rj".data, [], rfl, rfl,
      by decide, by decide, by decide, by decide, ?_⟩
    repeat (first | exact List.Forall₂.nil | refine List.Forall₂.cons (by decide) ?_)
  exact ⟨h1, h2, findDistance_padded_lower,
    findDistance_case_space_insensitive _ _ _ _ h1 h2⟩

/-- C13: for all strings `origin` and `destination`, `findDistance` either returns `null`,
and then no route of the table matches, or returns the distance of the first route in table
order that matches; so it returns `null` exactly when no route matches.  An empty name gives
`null`. -/
theorem findDistance_first_match (origin destination : String) :
    ((RoutesDB.findDistance origin destination = none ∧
        ∀ r ∈ RoutesDB.routes, ¬ RouteMatches r origin destination) ∨
      (∃ pre r post, RoutesDB.routes = pre ++ r :: post ∧
        RouteMatches r origin destination ∧
        (∀ s ∈ pre, ¬ RouteMatches s origin destination) ∧
        RoutesDB.findDistance origin destination = some r.distanceKm)) ∧
    (RoutesDB.findDistance origin destination = none ↔
      ∀ r ∈ RoutesDB.routes, ¬ RouteMatches r origin destination) ∧
    RoutesDB.findDistance "" destination = none ∧
    RoutesDB.findDistance origin "" = none ∧
    RoutesDB.findDistance "Natal, RN" "recife, pe" = some (JSNum.fin 287) ∧
    RoutesDB.findDistance "Natal, RN" "Manaus, AM" = none := by
  have hspec := findLoop_spec origin destination RoutesDB.routes
  rw [← findDistance_eq_findLoop] at hspec
  refine ⟨hspec, ?_, ?_, ?_, rfl, rfl⟩
  · constructor
    · intro hnone
      rcases hspec with ⟨_, hall⟩ | ⟨_, _, _, _, _, _, hval⟩
      · exact hall
      · rw [hnone] at hval
        exact absurd hval (by simp)
    · intro hall
      rcases hspec with ⟨hnone, _⟩ | ⟨_, r, _, hrs, hm, _, _⟩
      · exact hnone
      · exact absurd hm (hall r (by rw [hrs]; simp))
  · simp [RoutesDB.findDistance, RoutesDB.findDistanceIn]
  · simp [RoutesDB.findDistance, RoutesDB.findDistanceIn]

/-- C15: the shipped route table has at most one entry per unordered pair of cities: after
trimming and lower-casing no two entries connect the same pair, in either orientation.  So
at most one route matches any query, every reordering of the table gives the same
`findDistance`, and every stored distance is a positive number. -/
theorem routes_one_entry_per_pair :
    RoutesDB.routes.Pairwise (fun r s => ¬ SamePair r s) ∧
    (∀ (origin destination : String) (r s : RoutesDB.Route),
      r ∈ RoutesDB.routes → s ∈ RoutesDB.routes →
      RouteMatches r origin destination → RouteMatches s origin destination → r = s) ∧
    (∀ (rs : List RoutesDB.Route), rs.Perm RoutesDB.routes →
      ∀ origin destination : String,
        RoutesDB.findDistanceIn rs origin destination
          = RoutesDB.findDistance origin destination) ∧
    (∀ r ∈ RoutesDB.routes, ∃ q : ℚ, 0 < q ∧ r.distanceKm = JSNum.fin q) ∧
    RoutesDB.routes.length = 35 := by
  refine ⟨routes_pairwise_distinct, fun o d r s hr hs => routes_match_unique o d r s hr hs,
    ?_, ?_, rfl⟩
  · intro rs hperm origin destination
    unfold RoutesDB.findDistance RoutesDB.findDistanceIn
    by_cases hempty : origin = "" ∨ destination = ""
    · rw [if_pos hempty, if_pos hempty]
    · rw [if_neg hempty, if_neg hempty]
      rcases findLoop_spec origin destination rs with
        ⟨hn, hall⟩ | ⟨_, r, _, hrs, hm, _, hval⟩ <;>
      rcases findLoop_spec origin destination RoutesDB.routes with
        ⟨hn2, hall2⟩ | ⟨_, r2, _, hrs2, hm2, _, hval2⟩
      · exact hn.trans hn2.symm
      · have hr2 : r2 ∈ RoutesDB.routes := by rw [hrs2]; simp
        exact absurd hm2 (hall r2 (hperm.mem_iff.mpr hr2))
      · have hr : r ∈ rs := by rw [hrs]; simp
        exact absurd hm (hall2 r (hperm.mem_iff.mp hr))
      · have hr : r ∈ rs := by rw [hrs]; simp
        have hr2 : r2 ∈ RoutesDB.routes := by rw [hrs2]; simp
        have heq := routes_match_unique origin destination r r2 (hperm.mem_iff.mp hr) hr2
          hm hm2
        exact hval.trans ((congrArg (fun x => some x.distanceKm) heq).trans hval2.symm)
  · simp [RoutesDB.routes]

/-! ## `getAllCities` -/

theorem setAdd_nodup (set : List String) (x : String) (h : set.Nodup) :
    (RoutesDB.setAdd set x).Nodup := by
  unfold RoutesDB.setAdd
  split
  · exact h
  · next hx =>
    rw [List.nodup_append]
    exact ⟨h, List.nodup_singleton x, by
      intro a ha hb
      rw [List.mem_singleton] at hb
      exact hx (hb ▸ ha)⟩

theorem mem_setAdd (set : List String) (x y : String) :
    y ∈ RoutesDB.setAdd set x ↔ y ∈ set ∨ y = x := by
  unfold RoutesDB.setAdd
  split
  · next hx =>
    constructor
    · exact Or.inl
    · rintro (h | rfl)
      · exact h
      · exact hx
  · simp

/-- The set built by the loop of `getAllCities` holds each name once, and holds exactly the
names it started with and the endpoints of the routes visited. -/
theorem citySet_spec (rs : List RoutesDB.Route) (acc : List String) (hacc : acc.Nodup) :
    (rs.foldl (fun set r => RoutesDB.setAdd (RoutesDB.setAdd set r.origin) r.destination)
      acc).Nodup ∧
    ∀ x, x ∈ rs.foldl
        (fun set r => RoutesDB.setAdd (RoutesDB.setAdd set r.origin) r.destination) acc ↔
      x ∈ acc ∨ ∃ r ∈ rs, x = r.origin ∨ x = r.destination := by
  induction rs generalizing acc with
  | nil => simp [hacc]
  | cons r rest ih =>
    have hstep := ih (RoutesDB.setAdd (RoutesDB.setAdd acc r.origin) r.destination)
      (setAdd_nodup _ _ (setAdd_nodup _ _ hacc))
    refine ⟨hstep.1, fun x => ?_⟩
    rw [List.foldl_cons, hstep.2 x, mem_setAdd, mem_setAdd]
    simp only [List.mem_cons, exists_eq_or_imp, or_assoc]

/-- C14: `getAllCities()` has no duplicates, its elements are exactly the origin and
destination names of the route table, and it is sorted ascending under the comparison used,
for every collation `localeCompare` that is a total preorder (any two strings are comparable
and the order is transitive). -/
theorem getAllCities_sorted_nodup (localeCompare : String → String → JSNum)
    (htotal : ∀ a b : String, (localeCompare a b).gt (JSNum.fin 0) = false ∨
      (localeCompare b a).gt (JSNum.fin 0) = false)
    (htrans : ∀ a b c : String, (localeCompare a b).gt (JSNum.fin 0) = false →
      (localeCompare b c).gt (JSNum.fin 0) = false →
      (localeCompare a c).gt (JSNum.fin 0) = false) :
    (RoutesDB.getAllCities localeCompare).Nodup ∧
    (∀ x, x ∈ RoutesDB.getAllCities localeCompare ↔
      ∃ r ∈ RoutesDB.routes, x = r.origin ∨ x = r.destination) ∧
    (RoutesDB.getAllCities localeCompare).Sorted
      (fun a b => (localeCompare a b).gt (JSNum.fin 0) = false) ∧
    (RoutesDB.getAllCities localeCompare).length = 36 := by
  have hset := citySet_spec RoutesDB.routes [] List.nodup_nil
  have hperm : (RoutesDB.getAllCities localeCompare).Perm
      (RoutesDB.routes.foldl
        (fun set r => RoutesDB.setAdd (RoutesDB.setAdd set r.origin) r.destination) []) :=
    arraySort_perm _ _
  haveI : IsTotal String (fun a b => (localeCompare a b).gt (JSNum.fin 0) = false) :=
    ⟨htotal⟩
  haveI : IsTrans String (fun a b => (localeCompare a b).gt (JSNum.fin 0) = false) :=
    ⟨htrans⟩
  refine ⟨hperm.nodup_iff.mpr hset.1, fun x => ?_, ?_, ?_⟩
  · rw [hperm.mem_iff, hset.2 x]
    simp
  · exact List.sorted_insertionSort _ _
  · rw [hperm.length_eq]
    set_option maxRecDepth 100000 in decide

theorem codePointCompare_le (a b : String) :
    (codePointCompare a b).gt (JSNum.fin 0) = false ↔ a ≤ b := by
  unfold codePointCompare
  by_cases h1 : a < b
  · rw [if_pos h1]
    exact ⟨fun _ => h1.le, fun _ => by simp [JSNum.gt]⟩
  · by_cases h2 : b < a
    · rw [if_neg h1, if_pos h2]
      constructor
      · intro h
        simp [JSNum.gt] at h
      · intro h
        exact absurd h (not_le.mpr h2)
    · rw [if_neg h1, if_neg h2]
      exact ⟨fun _ => not_lt.mp h2, fun _ => by simp [JSNum.gt]⟩

/-- C14 with the code-point order as the collation: it is a total preorder, and
`getAllCities` is then duplicate-free, complete and sorted. -/
theorem getAllCities_sorted_nodup_witness :
    (∀ a b : String, (codePointCompare a b).gt (JSNum.fin 0) = false ∨
      (codePointCompare b a).gt (JSNum.fin 0) = false) ∧
    (∀ a b c : String, (codePointCompare a b).gt (JSNum.fin 0) = false →
      (codePointCompare b c).gt (JSNum.fin 0) = false →
      (codePointCompare a c).gt (JSNum.fin 0) = false) ∧
    ((RoutesDB.getAllCities codePointCompare).Nodup ∧
      (∀ x, x ∈ RoutesDB.getAllCities codePointCompare ↔
        ∃ r ∈ RoutesDB.routes, x = r.origin ∨ x = r.destination) ∧
      (RoutesDB.getAllCities codePointCompare).Sorted
        (fun a b => (codePointCompare a b).gt (JSNum.fin 0) = false) ∧
      (RoutesDB.getAllCities codePointCompare).length = 36) := by
  have ht : ∀ a b : String, (codePointCompare a b).gt (JSNum.fin 0) = false ∨
      (codePointCompare b a).gt (JSNum.fin 0) = false := by
    intro a b
    rw [codePointCompare_le, codePointCompare_le]
    exact le_total a b
  have htr : ∀ a b c : String, (codePointCompare a b).gt (JSNum.fin 0) = false →
      (codePointCompare b c).gt (JSNum.fin 0) = false →
      (codePointCompare a c).gt (JSNum.fin 0) = false := by
    intro a b c
    rw [codePointCompare_le, codePointCompare_le, codePointCompare_le]
    exact le_trans
  exact ⟨ht, htr, getAllCities_sorted_nodup codePointCompare ht htr⟩

end CarbonCalculator

